import Mathlib

/-!
# Object-manager namespace tools

A shallow embedding of the change monitor (`ObjectMonitor.cpp`), the dependency
graph builder and the type statistics (`ObjectAnalyzer.cpp`), and the directory
listing (`ObjectManagerExplorer.cpp`).

* `std::wstring` is the list of its `wchar_t` code units.
* `NTSTATUS` is a signed 32-bit value, kept as an `Int`.
* The namespace query service is a script: the status of the open call and the
  list of answers `NtQueryDirectoryObject` gives to the successive calls on
  that handle.  A loop that asks for more answers than the script holds has no
  result (`none`).
* `std::set` and `std::map` are strictly sorted lists.
* Kernel handles live in a `HandleTable`: a successful open adds a fresh handle
  to the list of open ones, a close removes it.
* `GetSystemTime` is a clock `Nat → SYSTEMTIME` indexed by the number of
  readings taken so far.
-/

namespace DeviceManager

/-! ## Strings and status codes -/

/-- A `std::wstring`, as the sequence of its `wchar_t` code units. -/
abbrev WString := List Nat

/-- The wide literal `L"..."` of a string of basic-plane characters. -/
def L (s : String) : WString := s.toList.map Char.toNat

/-- The type `NTSTATUS` is `LONG`, a signed 32-bit integer. -/
abbrev NTSTATUS := Int

/-- The cast `(NTSTATUS)0x...L` of an unsigned 32-bit pattern to `LONG`. -/
def toNTSTATUS (n : Nat) : NTSTATUS :=
  if n % 2 ^ 32 < 2 ^ 31 then (n % 2 ^ 32 : Nat) else ((n % 2 ^ 32 : Nat) : Int) - 2 ^ 32

/-- `#define STATUS_NO_MORE_ENTRIES ((NTSTATUS)0x8000001AL)`. -/
def STATUS_NO_MORE_ENTRIES : NTSTATUS := toNTSTATUS 0x8000001A

/-- `#define STATUS_INFO_LENGTH_MISMATCH ((NTSTATUS)0xC0000004L)`. -/
def STATUS_INFO_LENGTH_MISMATCH : NTSTATUS := toNTSTATUS 0xC0000004

/-- `#define NT_SUCCESS(Status) (((NTSTATUS)(Status)) >= 0)`. -/
def NT_SUCCESS (status : NTSTATUS) : Bool := decide (0 ≤ status)

/-- The comparison `operator<` of two `std::wstring`s: lexicographic on code units. -/
def wstrLt : WString → WString → Bool
  | [], [] => false
  | [], _ :: _ => true
  | _ :: _, [] => false
  | a :: as, b :: bs => if a < b then true else if b < a then false else wstrLt as bs

/-- An element of `std::vector<std::pair<std::wstring, std::wstring>>`: `(name, type)`. -/
abbrev Obj := WString × WString

/-- The comparison `operator<` of `std::pair`: first components, then second. -/
def pairLt (x y : Obj) : Bool :=
  wstrLt x.1 y.1 || (!wstrLt y.1 x.1 && wstrLt x.2 y.2)

/-! ## `std::set<std::pair<std::wstring, std::wstring>>` -/

/-- Insertion into a `std::set`, kept as a strictly increasing list; an
equivalent key is not inserted again. -/
def setInsert (x : Obj) : List Obj → List Obj
  | [] => [x]
  | y :: ys =>
    if pairLt x y then x :: y :: ys
    else if pairLt y x then y :: setInsert x ys
    else y :: ys

/-- The range constructor `std::set(first, last)`: inserts the elements in turn. -/
def setOfRange (v : List Obj) : List Obj :=
  v.foldl (fun s x => setInsert x s) []

/-- The lookup `std::set::find`: an element equivalent to the key, or `end()` (`none`). -/
def setFind (s : List Obj) (x : Obj) : Option Obj :=
  s.find? (fun y => !pairLt x y && !pairLt y x)

/-! ## The directory enumeration protocol -/

/-- One `OBJECT_DIRECTORY_INFORMATION` record of the query buffer. -/
structure OBJECT_DIRECTORY_INFORMATION where
  Name : WString
  TypeName : WString
  deriving DecidableEq, Repr

/-- One answer of `NtQueryDirectoryObject`: the status and the records the
buffer holds after the call. -/
structure QueryResponse where
  status : NTSTATUS
  buffer : List OBJECT_DIRECTORY_INFORMATION
  deriving DecidableEq, Repr

/-- What the query service answers for one directory: the status of
`NtOpenDirectoryObject` and the answers to the successive queries. -/
structure DirectoryScript where
  openStatus : NTSTATUS
  responses : List QueryResponse
  deriving DecidableEq, Repr

/-- The inner loop `while (info->Name.Length != 0) { ...; info++; }`: the
records of the buffer up to the first one with an empty name. -/
def scanBuffer (buffer : List OBJECT_DIRECTORY_INFORMATION) : List OBJECT_DIRECTORY_INFORMATION :=
  buffer.takeWhile (fun info => info.Name.length != 0)

/-! ## `ObjectMonitor` -/

/-- The Windows `SYSTEMTIME` record. -/
structure SYSTEMTIME where
  wYear : Nat
  wMonth : Nat
  wDayOfWeek : Nat
  wDay : Nat
  wHour : Nat
  wMinute : Nat
  wSecond : Nat
  wMilliseconds : Nat
  deriving DecidableEq, Repr

/-- The record `struct ObjectChangeInfo`. -/
structure ObjectChangeInfo where
  objectName : WString
  objectType : WString
  changeType : WString
  timestamp : SYSTEMTIME
  deriving DecidableEq, Repr

/-- The record `struct ObjectStatistics`. -/
structure ObjectStatistics where
  handleCount : Nat
  referenceCount : Nat
  memoryUsage : Nat
  lastAccessTime : SYSTEMTIME
  deriving DecidableEq, Repr

/-- The enumeration loop of `monitoringThread` (lines 154-176): it stops at the
first answer that is not `NT_SUCCESS` and appends the scanned records of every
answer before it. -/
def monitorQueryLoop : List QueryResponse → List Obj → Option (List Obj)
  | [], _ => none
  | r :: rs, currentObjects =>
    if !NT_SUCCESS r.status then some currentObjects
    else monitorQueryLoop rs
      (currentObjects ++ (scanBuffer r.buffer).map (fun info => (info.Name, info.TypeName)))

/-- The loop `for (const auto& obj : currSet)` of lines 185-197 over the elements
of `currSet` still to visit: the `changeInfo` records built, the `t`-th clock
reading being the next one. -/
def createdLoop (getSystemTime : Nat → SYSTEMTIME) (prevSet : List Obj) :
    Nat → List Obj → List ObjectChangeInfo
  | _, [] => []
  | t, obj :: rest =>
    if setFind prevSet obj = none then
      { objectName := obj.1, objectType := obj.2, changeType := L "Created",
        timestamp := getSystemTime t } :: createdLoop getSystemTime prevSet (t + 1) rest
    else createdLoop getSystemTime prevSet t rest

/-- The loop `for (const auto& obj : prevSet)` of lines 199-211. -/
def deletedLoop (getSystemTime : Nat → SYSTEMTIME) (currSet : List Obj) :
    Nat → List Obj → List ObjectChangeInfo
  | _, [] => []
  | t, obj :: rest =>
    if setFind currSet obj = none then
      { objectName := obj.1, objectType := obj.2, changeType := L "Deleted",
        timestamp := getSystemTime t } :: deletedLoop getSystemTime currSet (t + 1) rest
    else deletedLoop getSystemTime currSet t rest

/-- Lines 181-212 of `monitoringThread`: the `changeInfo` records of one cycle,
in the order they are built; each one is handed to the callback when one is
registered. `t` is the number of clock readings taken before. -/
def detectChanges (getSystemTime : Nat → SYSTEMTIME) (t : Nat)
    (prevObjects currentObjects : List Obj) : List ObjectChangeInfo :=
  if !prevObjects.isEmpty then
    let prevSet := setOfRange prevObjects
    let currSet := setOfRange currentObjects
    let created := createdLoop getSystemTime prevSet t currSet
    created ++ deletedLoop getSystemTime currSet (t + created.length) prevSet
  else []

/-! ## Handles and `std::map` -/

/-- The kernel handles of the process: the number of handles handed out so far
and the handles that are open. -/
structure HandleTable where
  issued : Nat
  opened : List Nat
  deriving DecidableEq, Repr

/-- A successful open call: a fresh handle, never null, becomes open. -/
def HandleTable.acquire (h : HandleTable) : HandleTable × Nat :=
  ({ issued := h.issued + 1, opened := (h.issued + 1) :: h.opened }, h.issued + 1)

/-- The calls `NtClose` and `CloseHandle`. -/
def HandleTable.release (h : HandleTable) (handle : Nat) : HandleTable :=
  { h with opened := h.opened.erase handle }

/-- The access `m[key]` of a `std::map` keyed by `std::wstring`, followed by the
update `f` of the referenced value: a missing key is first inserted with the
value-initialised `dflt`. The map is a list sorted by key. -/
def mapModify {β : Type} (dflt : β) (f : β → β) (key : WString) :
    List (WString × β) → List (WString × β)
  | [] => [(key, f dflt)]
  | (k, v) :: rest =>
    if wstrLt key k then (key, f dflt) :: (k, v) :: rest
    else if wstrLt k key then (k, v) :: mapModify dflt f key rest
    else (k, f v) :: rest

/-- The lookup of a key in a `std::map`. -/
def mapFind {β : Type} (m : List (WString × β)) (key : WString) : Option β :=
  (m.find? (fun kv => !wstrLt key kv.1 && !wstrLt kv.1 key)).map Prod.snd

/-! ## `ObjectMonitor::updateStatistics` and one monitoring cycle -/

/-- What one thread running `monitoringThread` and `updateStatistics` works on:
its local `prevObjects`, the member `statistics`, the clock readings taken, the
handle table and the invocations of the change callback so far. -/
structure CycleState where
  prevObjects : List Obj
  statistics : List (WString × ObjectStatistics)
  ticks : Nat
  handles : HandleTable
  invoked : List ObjectChangeInfo
  deriving DecidableEq, Repr

/-- Lines 119-123 of `updateStatistics`: `statistics[name]` with the three
counters set to zero and the access time read from the clock. -/
def touchStatistics (getSystemTime : Nat → SYSTEMTIME) (name : WString)
    (statistics : List (WString × ObjectStatistics)) (t : Nat) :
    List (WString × ObjectStatistics) :=
  mapModify (⟨0, 0, 0, ⟨0, 0, 0, 0, 0, 0, 0, 0⟩⟩ : ObjectStatistics)
    (fun stats => { stats with handleCount := 0, referenceCount := 0, memoryUsage := 0,
                               lastAccessTime := getSystemTime t })
    name statistics

/-- The inner loop of `updateStatistics` (lines 113-126) over the scanned records. -/
def statisticsBufferLoop (getSystemTime : Nat → SYSTEMTIME) :
    List OBJECT_DIRECTORY_INFORMATION → List (WString × ObjectStatistics) → Nat →
    List (WString × ObjectStatistics) × Nat
  | [], statistics, t => (statistics, t)
  | info :: rest, statistics, t =>
    statisticsBufferLoop getSystemTime rest
      (touchStatistics getSystemTime info.Name statistics t) (t + 1)

/-- The query loop of `updateStatistics` (lines 99-129). -/
def statisticsQueryLoop (getSystemTime : Nat → SYSTEMTIME) :
    List QueryResponse → List (WString × ObjectStatistics) → Nat →
    Option (List (WString × ObjectStatistics) × Nat)
  | [], _, _ => none
  | r :: rs, statistics, t =>
    if !NT_SUCCESS r.status then some (statistics, t)
    else
      let next := statisticsBufferLoop getSystemTime (scanBuffer r.buffer) statistics t
      statisticsQueryLoop getSystemTime rs next.1 next.2

/-- The method `ObjectMonitor::updateStatistics` (lines 71-132). -/
def updateStatistics (getSystemTime : Nat → SYSTEMTIME) (dir : DirectoryScript)
    (st : CycleState) : Option CycleState :=
  if !NT_SUCCESS dir.openStatus then some st
  else
    let (table, hDirectory) := st.handles.acquire
    match statisticsQueryLoop getSystemTime dir.responses st.statistics st.ticks with
    | none => none
    | some (statistics, t) =>
      some { st with statistics := statistics, ticks := t,
                     handles := table.release hDirectory }

/-- Lines 138-179 of `monitoringThread` with the handle of the directory: the
snapshot `currentObjects` and the handle table after `CloseHandle`. -/
def takeSnapshot (dir : DirectoryScript) (handles : HandleTable) :
    Option (List Obj × HandleTable) :=
  if NT_SUCCESS dir.openStatus then
    let (table, hDirectory) := handles.acquire
    match monitorQueryLoop dir.responses [] with
    | none => none
    | some currentObjects => some (currentObjects, table.release hDirectory)
  else some ([], handles)

/-- The answers of the query service during one monitoring cycle: to the
enumeration of `monitoringThread` and to the one of `updateStatistics`. -/
structure CycleEnv where
  snapshotDir : DirectoryScript
  statisticsDir : DirectoryScript
  deriving DecidableEq, Repr

/-- One pass through the body of `while (isMonitoring)` in `monitoringThread`
(lines 138-217). `callbackSet` says whether `changeCallback` holds a function. -/
def monitoringCycle (getSystemTime : Nat → SYSTEMTIME) (callbackSet : Bool)
    (env : CycleEnv) (st : CycleState) : Option CycleState :=
  match takeSnapshot env.snapshotDir st.handles with
  | none => none
  | some (currentObjects, table) =>
    let infos := detectChanges getSystemTime st.ticks st.prevObjects currentObjects
    updateStatistics getSystemTime env.statisticsDir
      { prevObjects := currentObjects,
        statistics := st.statistics,
        ticks := st.ticks + infos.length,
        handles := table,
        invoked := st.invoked ++ (if callbackSet then infos else []) }

/-- The state in which `monitoringThread` starts: `prevObjects` is empty. -/
def threadEntry (statistics : List (WString × ObjectStatistics)) (ticks : Nat)
    (handles : HandleTable) (invoked : List ObjectChangeInfo) : CycleState :=
  { prevObjects := [], statistics := statistics, ticks := ticks, handles := handles,
    invoked := invoked }

/-- The loop `while (isMonitoring)` of `monitoringThread`, run for as many cycles
as the flag is read `true`: one entry of the list per cycle. -/
def monitoringThread (getSystemTime : Nat → SYSTEMTIME) (callbackSet : Bool) :
    List CycleEnv → CycleState → Option CycleState
  | [], st => some st
  | env :: envs, st =>
    match monitoringCycle getSystemTime callbackSet env st with
    | none => none
    | some st1 => monitoringThread getSystemTime callbackSet envs st1

/-! ## `startMonitoring`, `stopMonitoring` and the worker thread -/

/-- Where a thread that runs `monitoringThread` stands. -/
inductive WorkerPc
  /-- About to evaluate the condition of `while (isMonitoring)`. -/
  | loopTop
  /-- The flag was read `true`: the body of the cycle lies ahead. -/
  | inCycle
  /-- The flag was read `false`: the thread function has returned. -/
  | returned
  deriving DecidableEq, Repr

/-- A thread started on `monitoringThread` and not joined so far, with its local
`prevObjects`. -/
structure Worker where
  id : Nat
  pc : WorkerPc
  prevObjects : List Obj
  deriving DecidableEq, Repr

/-- The members of `class ObjectMonitor`. `monitorThread` is the thread the
`std::thread` member is joinable for, `changeCallback` says whether the
`std::function` member holds a function. -/
structure ObjectMonitor where
  monitorThread : Option Nat
  isMonitoring : Bool
  monitoringPath : WString
  changeCallback : Bool
  statistics : List (WString × ObjectStatistics)
  deriving DecidableEq, Repr

/-- Where the thread that calls the public methods stands: outside of them, or
inside `stopMonitoring`, blocked in `monitorThread.join()`. -/
inductive CallerPc
  | idle
  | joining (thread : Nat)
  deriving DecidableEq, Repr

/-- The monitor object together with the threads it started, the clock
readings taken, the handle table and the position of the calling thread. -/
structure Process where
  monitor : ObjectMonitor
  workers : List Worker
  spawned : Nat
  ticks : Nat
  handles : HandleTable
  caller : CallerPc
  deriving DecidableEq, Repr

/-- The constructor `ObjectMonitor::ObjectMonitor() : isMonitoring(false)` in a
process with no worker thread. -/
def construct : Process :=
  { monitor := { monitorThread := none, isMonitoring := false, monitoringPath := [],
                 changeCallback := false, statistics := [] },
    workers := [], spawned := 0, ticks := 0, handles := ⟨0, []⟩, caller := CallerPc.idle }

/-- The method `ObjectMonitor::setChangeCallback`. -/
def setChangeCallback (callback : Bool) (p : Process) : Process :=
  { p with monitor := { p.monitor with changeCallback := callback } }

/-- The method `ObjectMonitor::startMonitoring` (lines 42-50). Assigning a new
thread to a `std::thread` that is still joinable calls `std::terminate`: there
is no next state then (`none`). -/
def startMonitoring (path : WString) (p : Process) : Option Process :=
  if p.monitor.isMonitoring then some p
  else
    match p.monitor.monitorThread with
    | some _ => none
    | none =>
      some { p with
        monitor := { p.monitor with monitoringPath := path, isMonitoring := true,
                                    monitorThread := some p.spawned },
        workers := { id := p.spawned, pc := WorkerPc.loopTop, prevObjects := [] } :: p.workers,
        spawned := p.spawned + 1 }

/-- The return of `monitorThread.join()`: the thread has ended and the member
is no longer joinable. -/
def join (thread : Nat) (p : Process) : Process :=
  { p with
    monitor := { p.monitor with monitorThread := none },
    workers := p.workers.filter (fun w => w.id != thread) }

/-- The method `ObjectMonitor::stopMonitoring` (lines 52-61), seen from its
caller: it has returned, so a joined thread has ended. -/
def stopMonitoring (p : Process) : Process :=
  if !p.monitor.isMonitoring then p
  else
    let p1 := { p with monitor := { p.monitor with isMonitoring := false } }
    match p1.monitor.monitorThread with
    | some thread => join thread p1
    | none => p1

/-- A call of a public method of the monitor. -/
inductive Call
  | start (path : WString)
  | stop
  deriving DecidableEq, Repr

/-- A sequence of calls, made one after the other. -/
def runCalls : List Call → Process → Option Process
  | [], p => some p
  | Call.start path :: rest, p =>
    match startMonitoring path p with
    | none => none
    | some p1 => runCalls rest p1
  | Call.stop :: rest, p => runCalls rest (stopMonitoring p)

/-! ### The calling thread and the worker, step by step -/

/-- What an observer sees. -/
inductive Event
  | startCalled
  | stopReturned
  | callback (info : ObjectChangeInfo)
  deriving DecidableEq, Repr

/-- The steps of the two threads. -/
inductive Action
  /-- The caller runs `setChangeCallback`, with a function or an empty one. -/
  | setCallback (callback : Bool)
  /-- The caller runs `startMonitoring(path)`. -/
  | start (path : WString)
  /-- The caller enters `stopMonitoring`: lines 53-58, up to the call of `join`. -/
  | stopEnter
  /-- The call of `join` returns, and `stopMonitoring` with it. -/
  | joinReturn
  /-- A worker evaluates `while (isMonitoring)`. -/
  | check (thread : Nat)
  /-- A worker runs the body of one cycle. -/
  | body (thread : Nat) (env : CycleEnv)
  deriving DecidableEq, Repr

/-- Replaces the worker with the given id. -/
def setWorker (w : Worker) (workers : List Worker) : List Worker :=
  workers.map (fun v => if v.id = w.id then w else v)

/-- One step of the process; `none` when the step cannot be taken in this
state (the caller is blocked, the joined thread still runs, the worker is
elsewhere, the enumeration of the cycle never ends). -/
def step (getSystemTime : Nat → SYSTEMTIME) (p : Process) :
    Action → Option (Process × List Event)
  | Action.setCallback callback =>
    match p.caller with
    | CallerPc.idle => some (setChangeCallback callback p, [])
    | CallerPc.joining _ => none
  | Action.start path =>
    match p.caller with
    | CallerPc.idle => (startMonitoring path p).map (fun p1 => (p1, [Event.startCalled]))
    | CallerPc.joining _ => none
  | Action.stopEnter =>
    match p.caller with
    | CallerPc.idle =>
      if !p.monitor.isMonitoring then some (p, [Event.stopReturned])
      else
        let p1 := { p with monitor := { p.monitor with isMonitoring := false } }
        match p1.monitor.monitorThread with
        | some thread => some ({ p1 with caller := CallerPc.joining thread }, [])
        | none => some (p1, [Event.stopReturned])
    | CallerPc.joining _ => none
  | Action.joinReturn =>
    match p.caller with
    | CallerPc.idle => none
    | CallerPc.joining thread =>
      match p.workers.find? (fun w => w.id = thread) with
      | some w =>
        if w.pc = WorkerPc.returned then
          some ({ join thread p with caller := CallerPc.idle }, [Event.stopReturned])
        else none
      | none => none
  | Action.check thread =>
    match p.workers.find? (fun w => w.id = thread) with
    | some w =>
      if w.pc = WorkerPc.loopTop then
        let pc := if p.monitor.isMonitoring then WorkerPc.inCycle else WorkerPc.returned
        some ({ p with workers := setWorker { w with pc := pc } p.workers }, [])
      else none
    | none => none
  | Action.body thread env =>
    match p.workers.find? (fun w => w.id = thread) with
    | some w =>
      if w.pc = WorkerPc.inCycle then
        match monitoringCycle getSystemTime p.monitor.changeCallback env
            { prevObjects := w.prevObjects, statistics := p.monitor.statistics,
              ticks := p.ticks, handles := p.handles, invoked := [] } with
        | none => none
        | some st =>
          some ({ p with
                  monitor := { p.monitor with statistics := st.statistics },
                  workers := setWorker { w with pc := WorkerPc.loopTop,
                                                prevObjects := st.prevObjects } p.workers,
                  ticks := st.ticks, handles := st.handles },
                st.invoked.map Event.callback)
      else none
    | none => none

/-- A sequence of steps, with the events it shows. -/
def runSteps (getSystemTime : Nat → SYSTEMTIME) :
    List Action → Process → Option (Process × List Event)
  | [], p => some (p, [])
  | a :: rest, p =>
    match step getSystemTime p a with
    | none => none
    | some (p1, events) =>
      match runSteps getSystemTime rest p1 with
      | none => none
      | some (p2, more) => some (p2, events ++ more)

/-! ## `ObjectAnalyzer` -/

/-- The record `struct ObjectDependency`. -/
structure ObjectDependency where
  sourceObject : WString
  targetObject : WString
  dependencyType : WString
  deriving DecidableEq, Repr

/-- One `SYSTEM_HANDLE_TABLE_ENTRY_INFO_EX` record of the system handle table. -/
structure SYSTEM_HANDLE_TABLE_ENTRY_INFO_EX where
  Object : Nat
  UniqueProcessId : Nat
  HandleValue : Nat
  GrantedAccess : Nat
  CreatorBackTraceIndex : Nat
  ObjectTypeIndex : Nat
  HandleAttributes : Nat
  Reserved : Nat
  deriving DecidableEq, Repr

/-- The services `ObjectAnalyzer` calls. The first argument of a service is the
number of service calls made before it, so that an answer may depend on when
the call is made.

* `pointerWords` is `sizeof(HANDLE) / sizeof(DWORD)` of the build.
* `directory path` is what the query service answers for the directory `path`.
* `EnumProcesses k cb` is the list of process identifiers written into a buffer
  of `cb` bytes, `none` when the call fails.
* `uninitialised j` is what the `DWORD` slot `j` of the local array `hProcesses`
  holds when `EnumProcesses` did not write it.
* `NtQuerySymbolicLinkObject` gives the status and the target string.
* `NtQuerySystemInformation` gives the status and the records of the handle
  table. -/
structure AnalyzerEnv where
  pointerWords : Nat
  directory : WString → DirectoryScript
  NtOpenSymbolicLinkObject : Nat → WString → NTSTATUS
  NtQuerySymbolicLinkObject : Nat → WString → NTSTATUS × WString
  EnumProcesses : Nat → Nat → Option (List Nat)
  uninitialised : Nat → Nat
  OpenProcess : Nat → Nat → Bool
  NtOpenSection : Nat → WString → NTSTATUS
  NtOpenFile : Nat → WString → NTSTATUS
  NtQuerySystemInformation : Nat → NTSTATUS × List SYSTEM_HANDLE_TABLE_ENTRY_INFO_EX

/-- The number of service calls made so far and the handle table. -/
structure World where
  calls : Nat
  handles : HandleTable
  deriving DecidableEq, Repr

/-- The function `std::to_wstring` of an unsigned value: its decimal digits. -/
def to_wstring (n : Nat) : WString := L (toString n)

/-- The test `s.find(pat) != std::wstring::npos`. -/
def wcontains (pat : WString) : WString → Bool
  | [] => pat.isPrefixOf []
  | c :: cs => pat.isPrefixOf (c :: cs) || wcontains pat cs

/-- Lines 155-157: `rootObject`, a `\` unless it ends in one, and the name. -/
def fullPathOf (rootObject objName : WString) : WString :=
  (if rootObject.getLast? != some 92 then rootObject ++ L "\\" else rootObject) ++ objName

/-- Lines 160-185: the branch of a `SymbolicLink` record. -/
def symbolicLinkBranch (env : AnalyzerEnv) (fullPath : WString)
    (dependencies : List ObjectDependency) (w : World) : List ObjectDependency × World :=
  let w1 : World := { w with calls := w.calls + 1 }
  if NT_SUCCESS (env.NtOpenSymbolicLinkObject w.calls fullPath) then
    let (table, hLink) := w1.handles.acquire
    let answer := env.NtQuerySymbolicLinkObject w1.calls fullPath
    let w2 : World := { calls := w1.calls + 1, handles := table.release hLink }
    if NT_SUCCESS answer.1 then
      (dependencies ++ [{ sourceObject := fullPath, targetObject := answer.2,
                          dependencyType := L "SymbolicLink" }], w2)
    else (dependencies, w2)
  else (dependencies, w1)

/-- The value `(DWORD)hProcesses[i]` of lines 194 and 208: the array of `HANDLE`s
was filled as an array of `DWORD`s, and the cast keeps the low `DWORD` of the
`i`-th `HANDLE`. -/
def processSlot (env : AnalyzerEnv) (written : List Nat) (i : Nat) : Nat :=
  let j := i * env.pointerWords
  match written.get? j with
  | some pid => pid
  | none => env.uninitialised j

/-- The loop `for (DWORD i = 0; i < numProcesses; i++)` of lines 192-215, over the
values `(DWORD)hProcesses[i]` still to visit. -/
def processLoop (env : AnalyzerEnv) (fullPath : WString) :
    List Nat → List ObjectDependency → World → List ObjectDependency × World
  | [], dependencies, w => (dependencies, w)
  | pid :: rest, dependencies, w =>
    let w1 : World := { w with calls := w.calls + 1 }
    if env.OpenProcess w.calls pid then
      let (table, hProcess) := w1.handles.acquire
      let w2 : World := { calls := w1.calls + 1, handles := table }
      if NT_SUCCESS (env.NtOpenSection w1.calls fullPath) then
        let (table2, hSection) := w2.handles.acquire
        processLoop env fullPath rest
          (dependencies ++ [{ sourceObject := fullPath,
                              targetObject := L "Process:" ++ to_wstring pid,
                              dependencyType := L "SharedMemory" }])
          { w2 with handles := (table2.release hSection).release hProcess }
      else
        processLoop env fullPath rest dependencies
          { w2 with handles := w2.handles.release hProcess }
    else processLoop env fullPath rest dependencies w1

/-- Lines 188-216: the branch of a `Section` record. -/
def sectionBranch (env : AnalyzerEnv) (fullPath : WString)
    (dependencies : List ObjectDependency) (w : World) : List ObjectDependency × World :=
  let w1 : World := { w with calls := w.calls + 1 }
  match env.EnumProcesses w.calls (1024 * (4 * env.pointerWords)) with
  | some written =>
    let numProcesses := 4 * written.length / 4
    processLoop env fullPath ((List.range numProcesses).map (processSlot env written))
      dependencies w1
  | none => (dependencies, w1)

/-- Lines 149-220: the inner loop over the scanned records of one answer. -/
def dependencyBufferLoop (env : AnalyzerEnv) (rootObject : WString) :
    List OBJECT_DIRECTORY_INFORMATION → List ObjectDependency → World →
    List ObjectDependency × World
  | [], dependencies, w => (dependencies, w)
  | dirInfo :: rest, dependencies, w =>
    let fullPath := fullPathOf rootObject dirInfo.Name
    let next :=
      if dirInfo.TypeName = L "SymbolicLink" then
        symbolicLinkBranch env fullPath dependencies w
      else if dirInfo.TypeName = L "Section" then
        sectionBranch env fullPath dependencies w
      else (dependencies, w)
    dependencyBufferLoop env rootObject rest next.1 next.2

/-- Lines 131-222: the query loop of the directory mode. -/
def dependencyQueryLoop (env : AnalyzerEnv) (rootObject : WString) :
    List QueryResponse → List ObjectDependency → World →
    Option (List ObjectDependency × World)
  | [], _, _ => none
  | r :: rs, dependencies, w =>
    if !NT_SUCCESS r.status || r.status = STATUS_NO_MORE_ENTRIES then some (dependencies, w)
    else
      let next := dependencyBufferLoop env rootObject (scanBuffer r.buffer) dependencies w
      dependencyQueryLoop env rootObject rs next.1 next.2

/-- Lines 112-113: the mode is read off the text of the path. -/
def isDirectory (rootObject : WString) : Bool :=
  wcontains (L "\\BaseNamedObjects") rootObject || rootObject = L "\\"

/-- Lines 252-259: one `Handle` edge per record of the handle table. -/
def handleLoop (rootObject : WString) :
    List SYSTEM_HANDLE_TABLE_ENTRY_INFO_EX → List ObjectDependency → List ObjectDependency
  | [], dependencies => dependencies
  | handle :: rest, dependencies =>
    handleLoop rootObject rest
      (dependencies ++ [{ sourceObject := rootObject,
                          targetObject := L "Process:" ++ to_wstring handle.UniqueProcessId,
                          dependencyType := L "Handle" }])

/-- The method `ObjectAnalyzer::buildDependencyGraph` (lines 106-266): the edges
returned and the world it leaves. -/
def buildDependencyGraph (env : AnalyzerEnv) (rootObject : WString) (w : World) :
    Option (List ObjectDependency × World) :=
  if isDirectory rootObject then
    let dir := env.directory rootObject
    if !NT_SUCCESS dir.openStatus then some ([], w)
    else
      let (table, hRootDir) := w.handles.acquire
      match dependencyQueryLoop env rootObject dir.responses [] { w with handles := table } with
      | none => none
      | some (dependencies, w1) =>
        some (dependencies,
          if hRootDir != 0 then { w1 with handles := w1.handles.release hRootDir } else w1)
  else
    let w1 : World := { w with calls := w.calls + 1 }
    if NT_SUCCESS (env.NtOpenFile w.calls rootObject) then
      let (table, hObject) := w1.handles.acquire
      let answer := env.NtQuerySystemInformation w1.calls
      let w2 : World := { calls := w1.calls + 1, handles := table.release hObject }
      if NT_SUCCESS answer.1 then (some (handleLoop rootObject answer.2 [], w2))
      else some ([], w2)
    else some ([], w1)

/-- Lines 304-311 of `getTypeStatistics`: `statistics[typeName]++` for every
scanned record. The counter is a `size_t`; it cannot wrap, since the records
counted are held in memory. -/
def typeBufferLoop :
    List OBJECT_DIRECTORY_INFORMATION → List (WString × Nat) → List (WString × Nat)
  | [], statistics => statistics
  | dirInfo :: rest, statistics =>
    typeBufferLoop rest (mapModify 0 (fun n => n + 1) dirInfo.TypeName statistics)

/-- Lines 286-314 of `getTypeStatistics`: the query loop. -/
def typeQueryLoop : List QueryResponse → List (WString × Nat) → Option (List (WString × Nat))
  | [], _ => none
  | r :: rs, statistics =>
    if !NT_SUCCESS r.status || r.status = STATUS_NO_MORE_ENTRIES then some statistics
    else typeQueryLoop rs (typeBufferLoop (scanBuffer r.buffer) statistics)

/-- The method `ObjectAnalyzer::getTypeStatistics` (lines 268-320): the map
returned and the handle table it leaves. -/
def getTypeStatistics (dir : DirectoryScript) (handles : HandleTable) :
    Option (List (WString × Nat) × HandleTable) :=
  if NT_SUCCESS dir.openStatus then
    let (table, hDirectory) := handles.acquire
    match typeQueryLoop dir.responses [] with
    | none => none
    | some statistics => some (statistics, table.release hDirectory)
  else some ([], handles)

/-! ## Reading the callback invocations -/

/-- The `(name, type)` pairs the callback received with the given `changeType`,
in the order of the invocations. -/
def pairsOf (changeType : WString) (infos : List ObjectChangeInfo) : List Obj :=
  (infos.filter (fun info => info.changeType = changeType)).map
    (fun info => (info.objectName, info.objectType))

/-- The pairs reported as `Created`. -/
def createdOf (infos : List ObjectChangeInfo) : List Obj := pairsOf (L "Created") infos

/-- The pairs reported as `Deleted`. -/
def deletedOf (infos : List ObjectChangeInfo) : List Obj := pairsOf (L "Deleted") infos

/-- What an invocation shows apart from its time: `(name, type, changeType)`. -/
def ObjectChangeInfo.shown (info : ObjectChangeInfo) : WString × WString × WString :=
  (info.objectName, info.objectType, info.changeType)

/-- A clock for the examples: the `t`-th reading is `t` seconds after midnight. -/
def exampleClock (t : Nat) : SYSTEMTIME := ⟨2024, 1, 1, 1, 0, 0, t, 0⟩

/-! ## What an enumeration sees -/

/-- The records an enumeration loop sees in a list of answers: the scanned
buffers of the answers before the first one that is not a success; `none` when
every answer is a success, so that the loop asks for more. -/
def listingOf : List QueryResponse → Option (List OBJECT_DIRECTORY_INFORMATION)
  | [] => none
  | r :: rs =>
    if NT_SUCCESS r.status then (listingOf rs).map (fun l => scanBuffer r.buffer ++ l)
    else some []

/-- The records an enumeration of a directory sees: none at all when the
directory cannot be opened. -/
def DirectoryScript.listing (dir : DirectoryScript) : Option (List OBJECT_DIRECTORY_INFORMATION) :=
  if NT_SUCCESS dir.openStatus then listingOf dir.responses else some []

/-- The `(name, type)` pair of a record. -/
def OBJECT_DIRECTORY_INFORMATION.pair (info : OBJECT_DIRECTORY_INFORMATION) : Obj :=
  (info.Name, info.TypeName)

/-- After a `stopReturned` and up to the next `startCalled` there is no
`callback`; `quiet` says whether the list starts in such a stretch. -/
def quietFrom : Bool → List Event → Bool
  | _, [] => true
  | _, Event.startCalled :: es => quietFrom false es
  | _, Event.stopReturned :: es => quietFrom true es
  | quiet, Event.callback _ :: es => !quiet && quietFrom quiet es

/-- A directory that opens and lists the given pairs in one answer, followed by
end-of-entries. -/
def exampleDir (entries : List Obj) : DirectoryScript :=
  { openStatus := 0,
    responses := [⟨0, entries.map (fun p => ⟨p.1, p.2⟩)⟩, ⟨STATUS_NO_MORE_ENTRIES, []⟩] }

/-- A cycle during which the directory holds the given pairs. -/
def exampleEnv (entries : List Obj) : CycleEnv :=
  { snapshotDir := exampleDir entries, statisticsDir := exampleDir entries }

/-- Between two calls of the caller: the monitor is idle, its thread member is
not joinable and no worker runs, or it is running, the thread member is joinable
for a worker and that worker is the only one. -/
def Consistent (p : Process) : Prop :=
  (p.monitor.isMonitoring = false ∧ p.monitor.monitorThread = none ∧ p.workers = []) ∨
  (p.monitor.isMonitoring = true ∧
    ∃ w : Worker, p.monitor.monitorThread = some w.id ∧ p.workers = [w])

/-- A process whose monitor runs on `\BaseNamedObjects` with one worker. -/
def exampleRunning : Process :=
  { monitor := { monitorThread := some 0, isMonitoring := true,
                 monitoringPath := L "\\BaseNamedObjects", changeCallback := true,
                 statistics := [] },
    workers := [{ id := 0, pc := WorkerPc.loopTop, prevObjects := [] }],
    spawned := 1, ticks := 0, handles := ⟨0, []⟩, caller := CallerPc.idle }

/-- What holds of the process at every step: while the caller is outside of the
methods the process is `Consistent`; while it is blocked in `join` the flag is
down and the joined thread is the one worker. -/
def StepInvariant (p : Process) : Prop :=
  match p.caller with
  | CallerPc.idle => Consistent p
  | CallerPc.joining thread =>
    p.monitor.isMonitoring = false ∧
    ∃ w : Worker, w.id = thread ∧ p.monitor.monitorThread = some thread ∧ p.workers = [w]

/-- The caller is outside of the methods and no worker exists. -/
def Quiet (p : Process) : Bool :=
  decide (p.caller = CallerPc.idle) && p.workers.isEmpty

/-- Whether a list of events ends in a stretch after a `stopReturned` with no
`startCalled` since; `quiet` says whether it starts in one. -/
def modeAfter : Bool → List Event → Bool
  | quiet, [] => quiet
  | _, Event.startCalled :: es => modeAfter false es
  | _, Event.stopReturned :: es => modeAfter true es
  | quiet, Event.callback _ :: es => modeAfter quiet es

/-- A run of the two threads: a callback is set, monitoring starts, the worker
takes a first snapshot `{X}`, the caller enters `stopMonitoring` while the worker
is about to run its second cycle over `{X, Y}`, the worker finishes, `join`
returns, and `stopMonitoring` is called once more. -/
def exampleRun : List Action :=
  [Action.setCallback true, Action.start (L "\\BaseNamedObjects"), Action.check 0,
   Action.body 0 (exampleEnv [(L "X", L "Event")]), Action.check 0, Action.stopEnter,
   Action.body 0 (exampleEnv [(L "X", L "Event"), (L "Y", L "Event")]), Action.check 0,
   Action.joinReturn, Action.stopEnter]

/-- The process `exampleRun` ends in. -/
def exampleRunEnd : Process :=
  { monitor := { monitorThread := none, isMonitoring := false,
                 monitoringPath := L "\\BaseNamedObjects", changeCallback := true,
                 statistics := [(L "X", ⟨0, 0, 0, exampleClock 2⟩),
                                (L "Y", ⟨0, 0, 0, exampleClock 3⟩)] },
    workers := [], spawned := 1, ticks := 4, handles := ⟨4, []⟩, caller := CallerPc.idle }

/-- Services for the examples: a 64-bit build in which `\BaseNamedObjects` holds
the given pairs, every other directory fails to open, no link, process, section
or file can be opened and the handle table cannot be read. -/
def exampleServices (entries : List Obj) : AnalyzerEnv :=
  { pointerWords := 2,
    directory := fun path =>
      if path = L "\\BaseNamedObjects" then exampleDir entries
      else { openStatus := toNTSTATUS 0xC0000034, responses := [] },
    NtOpenSymbolicLinkObject := fun _ _ => toNTSTATUS 0xC0000022,
    NtQuerySymbolicLinkObject := fun _ _ => (toNTSTATUS 0xC0000022, []),
    EnumProcesses := fun _ _ => none,
    uninitialised := fun _ => 0,
    OpenProcess := fun _ _ => false,
    NtOpenSection := fun _ _ => toNTSTATUS 0xC0000022,
    NtOpenFile := fun _ _ => toNTSTATUS 0xC0000022,
    NtQuerySystemInformation := fun _ => (STATUS_INFO_LENGTH_MISMATCH, []) }

/-! ## `ObjectManagerExplorer` -/

/-- What a method wrote to `std::wcout` and to `std::wcerr`, line by line. -/
structure Console where
  out : List WString
  err : List WString
  deriving DecidableEq, Repr

/-- The test `filterType.empty() || objType == filterType` of lines 204 and 325. -/
def passesFilter (filterType objType : WString) : Bool :=
  filterType.isEmpty || objType = filterType

/-- The test of lines 210-213 of `listObjects`: the name holds no `:`, no `/`
and no `\` and is shorter than 260 characters. -/
def printable (objName : WString) : Bool :=
  !wcontains (L ":") objName && !wcontains (L "/") objName &&
    !wcontains (L "\\") objName && decide (objName.length < 260)

/-- The line `"Object: " << fullPath << ", Type: " << objType` of line 215. -/
def objectLine (path : WString) (dirInfo : OBJECT_DIRECTORY_INFORMATION) : WString :=
  L "Object: " ++ fullPathOf path dirInfo.Name ++ L ", Type: " ++ dirInfo.TypeName

/-- The inner loop of `listObjects` (lines 200-220) over the scanned records:
the lines written to `std::wcout`. -/
def listBufferLoop (path filterType : WString) :
    List OBJECT_DIRECTORY_INFORMATION → List WString → List WString
  | [], out => out
  | dirInfo :: rest, out =>
    listBufferLoop path filterType rest
      (if passesFilter filterType dirInfo.TypeName then
        if printable dirInfo.Name then out ++ [objectLine path dirInfo] else out
       else out)

/-- The query loop of `listObjects` (lines 183-223): it stops at the answer
`STATUS_NO_MORE_ENTRIES` and at no other one. -/
def listQueryLoop (path filterType : WString) :
    List QueryResponse → List WString → Option (List WString)
  | [], _ => none
  | r :: rs, out =>
    if r.status = STATUS_NO_MORE_ENTRIES then some out
    else listQueryLoop path filterType rs
      (listBufferLoop path filterType (scanBuffer r.buffer) out)

/-- The method `ObjectManagerExplorer::listObjects` (lines 163-233): what it
writes and the handle table it leaves. The parameter `recursive` is not read.
No statement of the `try` block is taken to throw. -/
def listObjects (dir : DirectoryScript) (path filterType : WString) (_recursive : Bool)
    (handles : HandleTable) : Option (Console × HandleTable) :=
  if !NT_SUCCESS dir.openStatus then
    some ({ out := [], err := [L "Failed to open directory: " ++ path] }, handles)
  else
    let (table, hDirectory) := handles.acquire
    match listQueryLoop path filterType dir.responses [] with
    | none => none
    | some out =>
      some ({ out := out, err := [] },
        if hDirectory != 0 then table.release hDirectory else table)

/-- The inner loop of `getObjectNames` (lines 321-330) over the scanned records. -/
def namesBufferLoop (filterType : WString) :
    List OBJECT_DIRECTORY_INFORMATION → List Obj → List Obj
  | [], objectNames => objectNames
  | dirInfo :: rest, objectNames =>
    namesBufferLoop filterType rest
      (if passesFilter filterType dirInfo.TypeName then
        objectNames ++ [(dirInfo.Name, dirInfo.TypeName)]
       else objectNames)

/-- The query loop of `getObjectNames` (lines 298-331): the pairs collected and
the lines written to `std::wcerr`. -/
def namesQueryLoop (filterType : WString) :
    List QueryResponse → List Obj → Option (List Obj × List WString)
  | [], _ => none
  | r :: rs, objectNames =>
    if r.status = STATUS_NO_MORE_ENTRIES then some (objectNames, [])
    else if !NT_SUCCESS r.status then
      some (objectNames, [L "Failed to query directory object."])
    else namesQueryLoop filterType rs (namesBufferLoop filterType (scanBuffer r.buffer) objectNames)

/-- The method `ObjectManagerExplorer::getObjectNames` (lines 274-335): the
vector returned, the lines written to `std::wcerr` and the handle table it
leaves. -/
def getObjectNames (dir : DirectoryScript) (path filterType : WString)
    (handles : HandleTable) : Option (List Obj × List WString × HandleTable) :=
  if !NT_SUCCESS dir.openStatus then
    some ([], [L "Failed to open directory: " ++ path], handles)
  else
    let (table, dirHandle) := handles.acquire
    match namesQueryLoop filterType dir.responses [] with
    | none => none
    | some (objectNames, err) => some (objectNames, err, table.release dirHandle)

/-- The records the loop of `listObjects` sees in a list of answers: the scanned
buffers of the answers before the first `STATUS_NO_MORE_ENTRIES`; `none` when
there is no such answer, so that the loop asks for more. -/
def rawListingOf : List QueryResponse → Option (List OBJECT_DIRECTORY_INFORMATION)
  | [] => none
  | r :: rs =>
    if r.status = STATUS_NO_MORE_ENTRIES then some []
    else (rawListingOf rs).map (fun l => scanBuffer r.buffer ++ l)

/-- Services in which `\BaseNamedObjects` holds the given pairs, the link
`\BaseNamedObjects\Good` opens and reads as `\Device\Target`, every other link
fails to open, and nothing else can be opened. -/
def exampleLinkServices (entries : List Obj) : AnalyzerEnv :=
  { exampleServices entries with
    NtOpenSymbolicLinkObject := fun _ path =>
      if path = L "\\BaseNamedObjects\\Good" then 0 else toNTSTATUS 0xC0000022,
    NtQuerySymbolicLinkObject := fun _ _ => (0, L "\\Device\\Target") }

/-- Services in which `\BaseNamedObjects` holds the one section `S`,
`EnumProcesses` writes the process identifiers 4 and 8, every process and every
section opens, and the `DWORD` slots `EnumProcesses` did not write hold
`0xCCCCCCCC`. `pointerWords` is 1 for a 32-bit build and 2 for a 64-bit build. -/
def exampleSectionServices (pointerWords : Nat) : AnalyzerEnv :=
  { exampleServices [(L "S", L "Section")] with
    pointerWords := pointerWords,
    EnumProcesses := fun _ _ => some [4, 8],
    uninitialised := fun _ => 0xCCCCCCCC,
    OpenProcess := fun _ _ => true,
    NtOpenSection := fun _ _ => 0 }

/-- Services in which no directory opens, every file opens, and the query of the
handle table gives the given status over a table of two handles, owned by the
processes 4 and 812. -/
def exampleLeafServices (queryStatus : NTSTATUS) : AnalyzerEnv :=
  { exampleServices [] with
    directory := fun _ => { openStatus := toNTSTATUS 0xC0000024, responses := [] },
    NtOpenFile := fun _ _ => 0,
    NtQuerySystemInformation := fun _ =>
      (queryStatus, [⟨0, 4, 16, 0, 0, 0, 0, 0⟩, ⟨0, 812, 20, 0, 0, 0, 0, 0⟩]) }

/-- The method `ObjectMonitor::getObjectsStatistics` (lines 67-69): a copy of the
member `statistics`. -/
def getObjectsStatistics (p : Process) : List (WString × ObjectStatistics) :=
  p.monitor.statistics

/-- A run that goes on from `exampleRunEnd`: monitoring starts again, the one
cycle of the new worker finds the directory empty, and monitoring stops. -/
def exampleVanishRun : List Action :=
  [Action.start (L "\\BaseNamedObjects"), Action.check 1, Action.body 1 (exampleEnv []),
   Action.stopEnter, Action.check 1, Action.joinReturn]

/-- The process `exampleVanishRun` ends in. -/
def exampleVanishEnd : Process :=
  { monitor := { monitorThread := none, isMonitoring := false,
                 monitoringPath := L "\\BaseNamedObjects", changeCallback := true,
                 statistics := [(L "X", ⟨0, 0, 0, exampleClock 2⟩),
                                (L "Y", ⟨0, 0, 0, exampleClock 3⟩)] },
    workers := [], spawned := 2, ticks := 4, handles := ⟨6, []⟩, caller := CallerPc.idle }

/-- The identifiers, among the values the loop of lines 192-215 still has to
visit, for which `OpenProcess` gives a handle. `calls` is the number of service
calls made before the loop goes on: a value that cannot be opened costs one
call, a value that can be opened costs two, `OpenProcess` and `NtOpenSection`. -/
def openedProcesses (env : AnalyzerEnv) : Nat → List Nat → List Nat
  | _, [] => []
  | calls, pid :: rest =>
    if env.OpenProcess calls pid then pid :: openedProcesses env (calls + 1 + 1) rest
    else openedProcesses env (calls + 1) rest

/-- Services as `exampleSectionServices` in the 32-bit build, except that the
process 4 cannot be opened. -/
def exampleGuardedServices (sectionStatus : NTSTATUS) : AnalyzerEnv :=
  { exampleSectionServices 1 with
    OpenProcess := fun _ pid => pid != 4,
    NtOpenSection := fun _ _ => sectionStatus }

/-! ## The order of `std::wstring` and of pairs -/

theorem wstrLt_irrefl (a : WString) : wstrLt a a = false := by
  induction a with
  | nil => rfl
  | cons x xs ih => simp [wstrLt, ih]

theorem wstrLt_trans : ∀ (a b c : WString), wstrLt a b = true → wstrLt b c = true →
    wstrLt a c = true
  | [], [], _, h, _ => by simp [wstrLt] at h
  | [], _ :: _, [], _, h => by simp [wstrLt] at h
  | [], _ :: _, _ :: _, _, _ => by simp [wstrLt]
  | _ :: _, [], _, h, _ => by simp [wstrLt] at h
  | _ :: _, _ :: _, [], _, h => by simp [wstrLt] at h
  | x :: xs, y :: ys, z :: zs, h1, h2 => by
    have ih := wstrLt_trans xs ys zs
    simp only [wstrLt] at h1 h2 ⊢
    by_cases hxy : x < y
    · by_cases hyz : y < z
      · have : x < z := lt_trans hxy hyz
        simp [this]
      · by_cases hzy : z < y
        · simp [hyz, hzy] at h2
        · have : y = z := by omega
          subst this
          simp [hxy]
    · by_cases hyx : y < x
      · simp [hxy, hyx] at h1
      · have hxy2 : x = y := by omega
        subst hxy2
        by_cases hxz : x < z
        · simp [hxz]
        · by_cases hzx : z < x
          · simp [hxz, hzx] at h2
          · simp [hxz, hzx] at h2 ⊢
            simp [hxy] at h1
            exact ih h1 h2

theorem wstrLt_total : ∀ (a b : WString), wstrLt a b = false → wstrLt b a = false → a = b
  | [], [], _, _ => rfl
  | [], _ :: _, h, _ => by simp [wstrLt] at h
  | _ :: _, [], _, h => by simp [wstrLt] at h
  | x :: xs, y :: ys, h1, h2 => by
    have ih := wstrLt_total xs ys
    simp only [wstrLt] at h1 h2
    by_cases hxy : x < y
    · simp [hxy] at h1
    · by_cases hyx : y < x
      · simp [hyx] at h2
      · have : x = y := by omega
        subst this
        simp [hxy] at h1 h2
        rw [ih h1 h2]

theorem wstrLt_asymm (a b : WString) (h : wstrLt a b = true) : wstrLt b a = false := by
  cases hba : wstrLt b a with
  | false => rfl
  | true =>
    have := wstrLt_trans a b a h hba
    rw [wstrLt_irrefl] at this
    exact absurd this (by simp)

theorem pairLt_irrefl (x : Obj) : pairLt x x = false := by
  simp [pairLt, wstrLt_irrefl]

theorem pairLt_trans (x y z : Obj) (h1 : pairLt x y = true) (h2 : pairLt y z = true) :
    pairLt x z = true := by
  simp only [pairLt, Bool.or_eq_true, Bool.and_eq_true, Bool.not_eq_true'] at h1 h2 ⊢
  rcases h1 with h1 | ⟨h1a, h1b⟩
  · rcases h2 with h2 | ⟨h2a, _⟩
    · exact Or.inl (wstrLt_trans _ _ _ h1 h2)
    · cases hyz : wstrLt y.1 z.1 with
      | true => exact Or.inl (wstrLt_trans _ _ _ h1 hyz)
      | false =>
        have : y.1 = z.1 := wstrLt_total _ _ hyz h2a
        rw [← this]
        exact Or.inl h1
  · cases hxy : wstrLt x.1 y.1 with
    | true =>
      rcases h2 with h2 | ⟨h2a, _⟩
      · exact Or.inl (wstrLt_trans _ _ _ hxy h2)
      · cases hyz : wstrLt y.1 z.1 with
        | true => exact Or.inl (wstrLt_trans _ _ _ hxy hyz)
        | false =>
          have : y.1 = z.1 := wstrLt_total _ _ hyz h2a
          rw [← this]
          exact Or.inl hxy
    | false =>
      have hxy1 : x.1 = y.1 := wstrLt_total _ _ hxy h1a
      rcases h2 with h2 | ⟨h2a, h2b⟩
      · rw [hxy1]
        exact Or.inl h2
      · rw [hxy1]
        exact Or.inr ⟨h2a, wstrLt_trans _ _ _ h1b h2b⟩

theorem pairLt_total (x y : Obj) (h1 : pairLt x y = false) (h2 : pairLt y x = false) :
    x = y := by
  simp only [pairLt, Bool.or_eq_false_iff, Bool.and_eq_false_iff, Bool.not_eq_false'] at h1 h2
  obtain ⟨h1a, h1b⟩ := h1
  obtain ⟨h2a, h2b⟩ := h2
  have hfst : x.1 = y.1 := wstrLt_total _ _ h1a h2a
  have h1c : wstrLt x.2 y.2 = false := by
    rcases h1b with h | h
    · rw [h2a] at h
      exact absurd h (by simp)
    · exact h
  have h2c : wstrLt y.2 x.2 = false := by
    rcases h2b with h | h
    · rw [h1a] at h
      exact absurd h (by simp)
    · exact h
  exact Prod.ext hfst (wstrLt_total _ _ h1c h2c)

theorem pairLt_asymm (x y : Obj) (h : pairLt x y = true) : pairLt y x = false := by
  cases hyx : pairLt y x with
  | false => rfl
  | true =>
    have := pairLt_trans x y x h hyx
    rw [pairLt_irrefl] at this
    exact absurd this (by simp)

/-! ## `std::set` as a strictly increasing list -/

theorem mem_setInsert (x y : Obj) (s : List Obj) : y ∈ setInsert x s ↔ y = x ∨ y ∈ s := by
  induction s with
  | nil => simp [setInsert]
  | cons z zs ih =>
    unfold setInsert
    by_cases hxz : pairLt x z = true
    · simp [hxz]
    · by_cases hzx : pairLt z x = true
      · have hxz2 : pairLt x z = false := by simpa using hxz
        rw [hxz2, hzx]
        simp only [if_true, List.mem_cons, ih, Bool.false_eq_true, if_false]
        tauto
      · have hxz2 : pairLt x z = false := by simpa using hxz
        have hzx2 : pairLt z x = false := by simpa using hzx
        have hEq : x = z := pairLt_total x z hxz2 hzx2
        subst hEq
        simp [hxz2]

theorem sorted_setInsert (x : Obj) (s : List Obj)
    (hs : s.Pairwise (fun a b => pairLt a b = true)) :
    (setInsert x s).Pairwise (fun a b => pairLt a b = true) := by
  induction s with
  | nil => simp [setInsert]
  | cons z zs ih =>
    rw [List.pairwise_cons] at hs
    obtain ⟨hz, hzs⟩ := hs
    unfold setInsert
    by_cases hxz : pairLt x z = true
    · simp only [hxz, if_true]
      refine List.Pairwise.cons ?_ (List.Pairwise.cons hz hzs)
      intro b hb
      rcases List.mem_cons.1 hb with hb | hb
      · rw [hb]
        exact hxz
      · exact pairLt_trans x z b hxz (hz b hb)
    · by_cases hzx : pairLt z x = true
      · simp only [hxz, hzx, if_true, if_false]
        refine List.Pairwise.cons ?_ (ih hzs)
        intro b hb
        rcases (mem_setInsert x b zs).1 hb with hb | hb
        · rw [hb]
          exact hzx
        · exact hz b hb
      · simp only [hxz, hzx, if_false]
        exact List.Pairwise.cons hz hzs

theorem mem_foldl_setInsert (y : Obj) (v acc : List Obj) :
    y ∈ v.foldl (fun s x => setInsert x s) acc ↔ y ∈ v ∨ y ∈ acc := by
  induction v generalizing acc with
  | nil => simp
  | cons x xs ih =>
    simp only [List.foldl_cons, ih, mem_setInsert, List.mem_cons]
    tauto

theorem sorted_foldl_setInsert (v acc : List Obj)
    (hacc : acc.Pairwise (fun a b => pairLt a b = true)) :
    (v.foldl (fun s x => setInsert x s) acc).Pairwise (fun a b => pairLt a b = true) := by
  induction v generalizing acc with
  | nil => simpa using hacc
  | cons x xs ih =>
    simp only [List.foldl_cons]
    exact ih _ (sorted_setInsert x acc hacc)

theorem mem_setOfRange (y : Obj) (v : List Obj) : y ∈ setOfRange v ↔ y ∈ v := by
  simp [setOfRange, mem_foldl_setInsert]

theorem sorted_setOfRange (v : List Obj) :
    (setOfRange v).Pairwise (fun a b => pairLt a b = true) :=
  sorted_foldl_setInsert v [] List.Pairwise.nil

theorem nodup_of_sorted (s : List Obj) (hs : s.Pairwise (fun a b => pairLt a b = true)) :
    s.Nodup := by
  refine List.Pairwise.imp ?_ hs
  intro a b hab heq
  rw [heq, pairLt_irrefl] at hab
  exact absurd hab (by simp)

theorem nodup_setOfRange (v : List Obj) : (setOfRange v).Nodup :=
  nodup_of_sorted _ (sorted_setOfRange v)

theorem eq_of_sorted_of_mem_iff (s t : List Obj)
    (hs : s.Pairwise (fun a b => pairLt a b = true))
    (ht : t.Pairwise (fun a b => pairLt a b = true))
    (h : ∀ x, x ∈ s ↔ x ∈ t) : s = t := by
  haveI : IsAntisymm Obj (fun a b => pairLt a b = true) :=
    ⟨fun a b hab hba => by
      rw [pairLt_asymm a b hab] at hba
      exact absurd hba (by simp)⟩
  have hperm : s.Perm t :=
    (List.perm_ext_iff_of_nodup (nodup_of_sorted s hs) (nodup_of_sorted t ht)).2 h
  exact List.eq_of_perm_of_sorted hperm hs ht

theorem setOfRange_congr (v v' : List Obj) (h : ∀ x, x ∈ v ↔ x ∈ v') :
    setOfRange v = setOfRange v' := by
  apply eq_of_sorted_of_mem_iff _ _ (sorted_setOfRange v) (sorted_setOfRange v')
  intro x
  rw [mem_setOfRange, mem_setOfRange]
  exact h x

theorem setFind_eq_none (s : List Obj) (x : Obj) : setFind s x = none ↔ x ∉ s := by
  unfold setFind
  rw [List.find?_eq_none]
  constructor
  · intro h hx
    have := h x hx
    simp [pairLt_irrefl] at this
  · intro h y hy hp
    simp only [Bool.and_eq_true, Bool.not_eq_true'] at hp
    have : x = y := pairLt_total x y hp.1 hp.2
    rw [this] at h
    exact h hy

/-! ## The two loops of the change detection -/

theorem pairsOf_nil (c : WString) : pairsOf c [] = [] := rfl

theorem pairsOf_append (c : WString) (xs ys : List ObjectChangeInfo) :
    pairsOf c (xs ++ ys) = pairsOf c xs ++ pairsOf c ys := by
  simp [pairsOf]

theorem pairsOf_cons (c : WString) (x : ObjectChangeInfo) (xs : List ObjectChangeInfo) :
    pairsOf c (x :: xs) =
      (if x.changeType = c then [(x.objectName, x.objectType)] else []) ++ pairsOf c xs := by
  by_cases h : x.changeType = c <;> simp [pairsOf, List.filter_cons, h]

theorem created_ne_deleted : L "Created" ≠ L "Deleted" := by decide

theorem pairsOf_createdLoop (getSystemTime : Nat → SYSTEMTIME) (prevSet : List Obj)
    (c : WString) (t : Nat) (currSet : List Obj) :
    pairsOf c (createdLoop getSystemTime prevSet t currSet) =
      if c = L "Created" then currSet.filter (fun obj => decide (obj ∉ prevSet)) else [] := by
  induction currSet generalizing t with
  | nil => simp [createdLoop, pairsOf]
  | cons obj rest ih =>
    unfold createdLoop
    by_cases hfind : setFind prevSet obj = none
    · have hmem : obj ∉ prevSet := (setFind_eq_none prevSet obj).1 hfind
      rw [if_pos hfind, pairsOf_cons, ih]
      by_cases hc : c = L "Created"
      · subst hc
        simp [List.filter_cons, hmem]
      · have hc2 : ¬ L "Created" = c := fun h => hc h.symm
        simp [hc, hc2]
    · have hmem : ¬ obj ∉ prevSet := fun h => hfind ((setFind_eq_none prevSet obj).2 h)
      rw [if_neg hfind, ih]
      by_cases hc : c = L "Created"
      · simp only [hc, if_true, List.filter_cons]
        simp [hmem]
      · simp [hc]

theorem pairsOf_deletedLoop (getSystemTime : Nat → SYSTEMTIME) (currSet : List Obj)
    (c : WString) (t : Nat) (prevSet : List Obj) :
    pairsOf c (deletedLoop getSystemTime currSet t prevSet) =
      if c = L "Deleted" then prevSet.filter (fun obj => decide (obj ∉ currSet)) else [] := by
  induction prevSet generalizing t with
  | nil => simp [deletedLoop, pairsOf]
  | cons obj rest ih =>
    unfold deletedLoop
    by_cases hfind : setFind currSet obj = none
    · have hmem : obj ∉ currSet := (setFind_eq_none currSet obj).1 hfind
      rw [if_pos hfind, pairsOf_cons, ih]
      by_cases hc : c = L "Deleted"
      · subst hc
        simp [List.filter_cons, hmem]
      · have hc2 : ¬ L "Deleted" = c := fun h => hc h.symm
        simp [hc, hc2]
    · have hmem : ¬ obj ∉ currSet := fun h => hfind ((setFind_eq_none currSet obj).2 h)
      rw [if_neg hfind, ih]
      by_cases hc : c = L "Deleted"
      · simp only [hc, if_true, List.filter_cons]
        simp [hmem]
      · simp [hc]

theorem changeType_createdLoop (getSystemTime : Nat → SYSTEMTIME) (prevSet : List Obj)
    (t : Nat) (currSet : List Obj) :
    ∀ info ∈ createdLoop getSystemTime prevSet t currSet, info.changeType = L "Created" := by
  induction currSet generalizing t with
  | nil => simp [createdLoop]
  | cons obj rest ih =>
    unfold createdLoop
    by_cases hfind : setFind prevSet obj = none
    · rw [if_pos hfind]
      intro info hinfo
      rcases List.mem_cons.1 hinfo with h | h
      · rw [h]
      · exact ih _ info h
    · rw [if_neg hfind]
      exact ih t

theorem changeType_deletedLoop (getSystemTime : Nat → SYSTEMTIME) (currSet : List Obj)
    (t : Nat) (prevSet : List Obj) :
    ∀ info ∈ deletedLoop getSystemTime currSet t prevSet, info.changeType = L "Deleted" := by
  induction prevSet generalizing t with
  | nil => simp [deletedLoop]
  | cons obj rest ih =>
    unfold deletedLoop
    by_cases hfind : setFind currSet obj = none
    · rw [if_pos hfind]
      intro info hinfo
      rcases List.mem_cons.1 hinfo with h | h
      · rw [h]
      · exact ih _ info h
    · rw [if_neg hfind]
      exact ih t

theorem detectChanges_nil (getSystemTime : Nat → SYSTEMTIME) (t : Nat)
    (currentObjects : List Obj) : detectChanges getSystemTime t [] currentObjects = [] := by
  simp [detectChanges]

theorem detectChanges_of_ne_nil (getSystemTime : Nat → SYSTEMTIME) (t : Nat)
    (prevObjects currentObjects : List Obj) (h : prevObjects ≠ []) :
    detectChanges getSystemTime t prevObjects currentObjects =
      createdLoop getSystemTime (setOfRange prevObjects) t (setOfRange currentObjects) ++
      deletedLoop getSystemTime (setOfRange currentObjects)
        (t + (createdLoop getSystemTime (setOfRange prevObjects) t
          (setOfRange currentObjects)).length) (setOfRange prevObjects) := by
  cases prevObjects with
  | nil => exact absurd rfl h
  | cons x xs => simp [detectChanges]

theorem createdOf_detectChanges (getSystemTime : Nat → SYSTEMTIME) (t : Nat)
    (prevObjects currentObjects : List Obj) (h : prevObjects ≠ []) :
    createdOf (detectChanges getSystemTime t prevObjects currentObjects) =
      (setOfRange currentObjects).filter (fun obj => decide (obj ∉ prevObjects)) := by
  rw [detectChanges_of_ne_nil _ _ _ _ h, createdOf, pairsOf_append, pairsOf_createdLoop,
    pairsOf_deletedLoop, if_pos rfl, if_neg created_ne_deleted, List.append_nil]
  apply List.filter_congr
  intro x _
  simp [mem_setOfRange]

theorem deletedOf_detectChanges (getSystemTime : Nat → SYSTEMTIME) (t : Nat)
    (prevObjects currentObjects : List Obj) (h : prevObjects ≠ []) :
    deletedOf (detectChanges getSystemTime t prevObjects currentObjects) =
      (setOfRange prevObjects).filter (fun obj => decide (obj ∉ currentObjects)) := by
  rw [detectChanges_of_ne_nil _ _ _ _ h, deletedOf, pairsOf_append, pairsOf_createdLoop,
    pairsOf_deletedLoop, if_pos rfl, if_neg created_ne_deleted.symm, List.nil_append]
  apply List.filter_congr
  intro x _
  simp [mem_setOfRange]

/-! ## The enumeration loops -/

theorem not_success_no_more_entries : NT_SUCCESS STATUS_NO_MORE_ENTRIES = false := by decide

theorem ne_no_more_entries_of_success (status : NTSTATUS) (h : NT_SUCCESS status = true) :
    status ≠ STATUS_NO_MORE_ENTRIES := by
  intro heq
  rw [heq, not_success_no_more_entries] at h
  exact absurd h (by simp)

theorem listingOf_append (batches : List QueryResponse) (last : QueryResponse)
    (rest : List QueryResponse) (hb : ∀ r ∈ batches, NT_SUCCESS r.status = true)
    (hlast : NT_SUCCESS last.status = false) :
    listingOf (batches ++ last :: rest) =
      some ((batches.map (fun r => scanBuffer r.buffer)).flatten) := by
  induction batches with
  | nil => simp [listingOf, hlast]
  | cons r rs ih =>
    have hr : NT_SUCCESS r.status = true := hb r (List.mem_cons_self _ _)
    have hrs : ∀ r ∈ rs, NT_SUCCESS r.status = true :=
      fun x hx => hb x (List.mem_cons_of_mem _ hx)
    simp [listingOf, hr, ih hrs]

theorem monitorQueryLoop_eq (responses : List QueryResponse) (currentObjects : List Obj) :
    monitorQueryLoop responses currentObjects =
      (listingOf responses).map
        (fun l => currentObjects ++ l.map OBJECT_DIRECTORY_INFORMATION.pair) := by
  induction responses generalizing currentObjects with
  | nil => rfl
  | cons r rs ih =>
    unfold monitorQueryLoop listingOf
    by_cases hr : NT_SUCCESS r.status = true
    · simp only [hr, Bool.not_true, Bool.false_eq_true, if_false, if_true, ih]
      cases listingOf rs with
      | none => rfl
      | some l =>
        simp [OBJECT_DIRECTORY_INFORMATION.pair, Function.comp_def]
    · have hr2 : NT_SUCCESS r.status = false := by simpa using hr
      simp [hr2]

theorem statisticsBufferLoop_append (getSystemTime : Nat → SYSTEMTIME)
    (xs ys : List OBJECT_DIRECTORY_INFORMATION) (statistics : List (WString × ObjectStatistics))
    (t : Nat) :
    statisticsBufferLoop getSystemTime (xs ++ ys) statistics t =
      statisticsBufferLoop getSystemTime ys
        (statisticsBufferLoop getSystemTime xs statistics t).1
        (statisticsBufferLoop getSystemTime xs statistics t).2 := by
  induction xs generalizing statistics t with
  | nil => rfl
  | cons x xs ih => simp [statisticsBufferLoop, ih]

theorem statisticsQueryLoop_eq (getSystemTime : Nat → SYSTEMTIME)
    (responses : List QueryResponse) (statistics : List (WString × ObjectStatistics))
    (t : Nat) :
    statisticsQueryLoop getSystemTime responses statistics t =
      (listingOf responses).map (fun l => statisticsBufferLoop getSystemTime l statistics t) := by
  induction responses generalizing statistics t with
  | nil => rfl
  | cons r rs ih =>
    unfold statisticsQueryLoop listingOf
    by_cases hr : NT_SUCCESS r.status = true
    · simp only [hr, Bool.not_true, Bool.false_eq_true, if_false, if_true, ih]
      cases listingOf rs with
      | none => rfl
      | some l => simp [statisticsBufferLoop_append]
    · have hr2 : NT_SUCCESS r.status = false := by simpa using hr
      simp [hr2, statisticsBufferLoop]

theorem updateStatistics_of_listing (getSystemTime : Nat → SYSTEMTIME) (dir : DirectoryScript)
    (st : CycleState) (l : List OBJECT_DIRECTORY_INFORMATION) (h : dir.listing = some l) :
    ∃ st1, updateStatistics getSystemTime dir st = some st1 ∧
      st1.prevObjects = st.prevObjects ∧ st1.invoked = st.invoked ∧
      st1.statistics = (statisticsBufferLoop getSystemTime l st.statistics st.ticks).1 ∧
      st1.ticks = (statisticsBufferLoop getSystemTime l st.statistics st.ticks).2 := by
  unfold DirectoryScript.listing at h
  unfold updateStatistics
  by_cases hopen : NT_SUCCESS dir.openStatus = true
  · rw [if_pos hopen] at h
    simp only [hopen, Bool.not_true, Bool.false_eq_true, if_false, statisticsQueryLoop_eq, h,
      Option.map_some']
    exact ⟨_, rfl, rfl, rfl, rfl, rfl⟩
  · rw [if_neg hopen] at h
    have hl : l = [] := by
      injection h with h
      exact h.symm
    have hopen2 : NT_SUCCESS dir.openStatus = false := by simpa using hopen
    subst hl
    simp only [hopen2, Bool.not_false, if_true]
    exact ⟨st, rfl, rfl, rfl, rfl, rfl⟩

theorem takeSnapshot_of_listing (dir : DirectoryScript) (handles : HandleTable)
    (l : List OBJECT_DIRECTORY_INFORMATION) (h : dir.listing = some l) :
    ∃ table, takeSnapshot dir handles =
      some (l.map OBJECT_DIRECTORY_INFORMATION.pair, table) := by
  unfold DirectoryScript.listing at h
  unfold takeSnapshot
  by_cases hopen : NT_SUCCESS dir.openStatus = true
  · rw [if_pos hopen] at h
    simp only [hopen, if_true, monitorQueryLoop_eq, h, Option.map_some', List.nil_append]
    exact ⟨_, rfl⟩
  · rw [if_neg hopen] at h
    have hl : l = [] := by
      injection h with h
      exact h.symm
    subst hl
    simp only [hopen, if_false]
    exact ⟨handles, rfl⟩

theorem monitoringCycle_of_listing (getSystemTime : Nat → SYSTEMTIME) (callbackSet : Bool)
    (env : CycleEnv) (st : CycleState) (l l2 : List OBJECT_DIRECTORY_INFORMATION)
    (h : env.snapshotDir.listing = some l) (h2 : env.statisticsDir.listing = some l2) :
    ∃ st1, monitoringCycle getSystemTime callbackSet env st = some st1 ∧
      st1.prevObjects = l.map OBJECT_DIRECTORY_INFORMATION.pair ∧
      st1.invoked = st.invoked ++
        (if callbackSet then
          detectChanges getSystemTime st.ticks st.prevObjects
            (l.map OBJECT_DIRECTORY_INFORMATION.pair)
         else []) := by
  obtain ⟨table, htable⟩ := takeSnapshot_of_listing env.snapshotDir st.handles l h
  unfold monitoringCycle
  rw [htable]
  simp only
  obtain ⟨st1, hst1, hprev, hinv, _, _⟩ := updateStatistics_of_listing getSystemTime
    env.statisticsDir
    { prevObjects := l.map OBJECT_DIRECTORY_INFORMATION.pair,
      statistics := st.statistics,
      ticks := st.ticks + (detectChanges getSystemTime st.ticks st.prevObjects
        (l.map OBJECT_DIRECTORY_INFORMATION.pair)).length,
      handles := table,
      invoked := st.invoked ++ (if callbackSet then
        detectChanges getSystemTime st.ticks st.prevObjects
          (l.map OBJECT_DIRECTORY_INFORMATION.pair) else []) } l2 h2
  exact ⟨st1, hst1, hprev, hinv⟩

theorem shown_createdLoop (getSystemTime : Nat → SYSTEMTIME) (prevSet : List Obj)
    (t : Nat) (currSet : List Obj) :
    (createdLoop getSystemTime prevSet t currSet).map ObjectChangeInfo.shown =
      (currSet.filter (fun obj => decide (obj ∉ prevSet))).map
        (fun obj => (obj.1, obj.2, L "Created")) := by
  induction currSet generalizing t with
  | nil => simp [createdLoop]
  | cons obj rest ih =>
    unfold createdLoop
    by_cases hfind : setFind prevSet obj = none
    · have hmem : obj ∉ prevSet := (setFind_eq_none prevSet obj).1 hfind
      rw [if_pos hfind]
      simp [List.filter_cons, hmem, ih, ObjectChangeInfo.shown]
    · have hmem : ¬ obj ∉ prevSet := fun h => hfind ((setFind_eq_none prevSet obj).2 h)
      rw [if_neg hfind, ih]
      simp only [List.filter_cons]
      simp [hmem]

theorem shown_deletedLoop (getSystemTime : Nat → SYSTEMTIME) (currSet : List Obj)
    (t : Nat) (prevSet : List Obj) :
    (deletedLoop getSystemTime currSet t prevSet).map ObjectChangeInfo.shown =
      (prevSet.filter (fun obj => decide (obj ∉ currSet))).map
        (fun obj => (obj.1, obj.2, L "Deleted")) := by
  induction prevSet generalizing t with
  | nil => simp [deletedLoop]
  | cons obj rest ih =>
    unfold deletedLoop
    by_cases hfind : setFind currSet obj = none
    · have hmem : obj ∉ currSet := (setFind_eq_none currSet obj).1 hfind
      rw [if_pos hfind]
      simp [List.filter_cons, hmem, ih, ObjectChangeInfo.shown]
    · have hmem : ¬ obj ∉ currSet := fun h => hfind ((setFind_eq_none currSet obj).2 h)
      rw [if_neg hfind, ih]
      simp only [List.filter_cons]
      simp [hmem]

theorem shown_detectChanges (getSystemTime : Nat → SYSTEMTIME) (t : Nat)
    (prevObjects currentObjects : List Obj) (h : prevObjects ≠ []) :
    (detectChanges getSystemTime t prevObjects currentObjects).map ObjectChangeInfo.shown =
      ((setOfRange currentObjects).filter (fun obj => decide (obj ∉ prevObjects))).map
        (fun obj => (obj.1, obj.2, L "Created")) ++
      ((setOfRange prevObjects).filter (fun obj => decide (obj ∉ currentObjects))).map
        (fun obj => (obj.1, obj.2, L "Deleted")) := by
  rw [detectChanges_of_ne_nil _ _ _ _ h, List.map_append, shown_createdLoop, shown_deletedLoop]
  congr 2
  · apply List.filter_congr
    intro x _
    simp [mem_setOfRange]
  · apply List.filter_congr
    intro x _
    simp [mem_setOfRange]

theorem length_detectChanges (getSystemTime : Nat → SYSTEMTIME) (t : Nat)
    (prevObjects currentObjects : List Obj) (h : prevObjects ≠ []) :
    (detectChanges getSystemTime t prevObjects currentObjects).length =
      (createdOf (detectChanges getSystemTime t prevObjects currentObjects)).length +
      (deletedOf (detectChanges getSystemTime t prevObjects currentObjects)).length := by
  have hlen := congrArg List.length (shown_detectChanges getSystemTime t prevObjects
    currentObjects h)
  rw [createdOf_detectChanges _ _ _ _ h, deletedOf_detectChanges _ _ _ _ h]
  simpa using hlen

theorem occurrences_of_nodup (l : List Obj) (p : Obj) (hl : l.Nodup) :
    (l.filter (fun q => decide (q = p))).length = if p ∈ l then 1 else 0 := by
  induction l with
  | nil => simp
  | cons a l ih =>
    rw [List.nodup_cons] at hl
    obtain ⟨ha, hl⟩ := hl
    by_cases hap : a = p
    · subst hap
      have hzero : (l.filter (fun q => decide (q = a))).length = 0 := by
        rw [ih hl, if_neg ha]
      simp [List.filter_cons, hzero]
    · have hpa : ¬ p = a := fun h => hap h.symm
      simp [List.filter_cons, hap, hpa, ih hl]

theorem occurrences_filter_setOfRange (v : List Obj) (q : Obj → Bool) (p : Obj) :
    (((setOfRange v).filter q).filter (fun x => decide (x = p))).length =
      if p ∈ v ∧ q p = true then 1 else 0 := by
  rw [occurrences_of_nodup _ _ ((nodup_setOfRange v).filter _)]
  simp only [List.mem_filter, mem_setOfRange]

/-! ## C1: what the change detection reports -/

/-- C1, as amended. For every non-empty previous snapshot `A` and every current
snapshot `B`, the records `monitoringThread` builds for the callback report
`Created` exactly for the pairs of `B` that are not in `A` and `Deleted` exactly
for the pairs of `A` that are not in `B`, and nothing else; when `A` is empty
nothing is reported. The two examples of the claim hold: from `{X}` to `{X, Y}`
only `Y` is created, from `{X, Y}` to `{Y}` only `X` is deleted. -/
theorem detectChanges_reports_set_differences :
    (∀ (getSystemTime : Nat → SYSTEMTIME) (t : Nat) (A B : List Obj), A ≠ [] →
      (∀ p, p ∈ createdOf (detectChanges getSystemTime t A B) ↔ p ∈ B ∧ p ∉ A) ∧
      (∀ p, p ∈ deletedOf (detectChanges getSystemTime t A B) ↔ p ∈ A ∧ p ∉ B) ∧
      (∀ info ∈ detectChanges getSystemTime t A B,
        info.changeType = L "Created" ∨ info.changeType = L "Deleted")) ∧
    (∀ (getSystemTime : Nat → SYSTEMTIME) (t : Nat) (B : List Obj),
      detectChanges getSystemTime t [] B = []) ∧
    (∀ (getSystemTime : Nat → SYSTEMTIME) (t : Nat),
      createdOf (detectChanges getSystemTime t [(L "X", L "Event")]
        [(L "X", L "Event"), (L "Y", L "Event")]) = [(L "Y", L "Event")] ∧
      deletedOf (detectChanges getSystemTime t [(L "X", L "Event")]
        [(L "X", L "Event"), (L "Y", L "Event")]) = []) ∧
    (∀ (getSystemTime : Nat → SYSTEMTIME) (t : Nat),
      createdOf (detectChanges getSystemTime t [(L "X", L "Event"), (L "Y", L "Event")]
        [(L "Y", L "Event")]) = [] ∧
      deletedOf (detectChanges getSystemTime t [(L "X", L "Event"), (L "Y", L "Event")]
        [(L "Y", L "Event")]) = [(L "X", L "Event")]) := by
  refine ⟨?_, ?_, ?_, ?_⟩
  · intro getSystemTime t A B hA
    refine ⟨?_, ?_, ?_⟩
    · intro p
      rw [createdOf_detectChanges _ _ _ _ hA, List.mem_filter, mem_setOfRange]
      simp
    · intro p
      rw [deletedOf_detectChanges _ _ _ _ hA, List.mem_filter, mem_setOfRange]
      simp
    · intro info hinfo
      rw [detectChanges_of_ne_nil _ _ _ _ hA, List.mem_append] at hinfo
      rcases hinfo with h | h
      · exact Or.inl (changeType_createdLoop _ _ _ _ info h)
      · exact Or.inr (changeType_deletedLoop _ _ _ _ info h)
  · intro getSystemTime t B
    exact detectChanges_nil getSystemTime t B
  · intro getSystemTime t
    rw [createdOf_detectChanges _ _ _ _ (by decide), deletedOf_detectChanges _ _ _ _ (by decide)]
    decide
  · intro getSystemTime t
    rw [createdOf_detectChanges _ _ _ _ (by decide), deletedOf_detectChanges _ _ _ _ (by decide)]
    decide

/-- C1, witness: the amended statement at `A = {X}`, `B = {X, Y}`. -/
theorem detectChanges_reports_set_differences_witness :
    [(L "X", L "Event")] ≠ ([] : List Obj) ∧
    ((L "Y", L "Event") ∈ createdOf (detectChanges exampleClock 0 [(L "X", L "Event")]
        [(L "X", L "Event"), (L "Y", L "Event")]) ↔
      (L "Y", L "Event") ∈ [(L "X", L "Event"), (L "Y", L "Event")] ∧
      (L "Y", L "Event") ∉ [(L "X", L "Event")]) :=
  ⟨by decide,
   (detectChanges_reports_set_differences.1 exampleClock 0 [(L "X", L "Event")]
      [(L "X", L "Event"), (L "Y", L "Event")] (by decide)).1 (L "Y", L "Event")⟩

/-- C1, counterexample: with an empty previous snapshot and the current snapshot
`{X}`, the pair `X` is in `B \ A` and is not reported as created. -/
theorem detectChanges_empty_previous_reports_nothing :
    ¬ ((L "X", L "Event") ∈ createdOf (detectChanges exampleClock 0 []
          [(L "X", L "Event")]) ↔
        (L "X", L "Event") ∈ [(L "X", L "Event")] ∧
        (L "X", L "Event") ∉ ([] : List Obj)) := by
  decide

/-! ## C2: created and deleted fit together -/

/-- C2, as amended. For all snapshots `A` and `B` the created and the deleted
pairs of a cycle are disjoint, and for every non-empty `A` they satisfy
`A ∪ created = B ∪ deleted`, as sets of `(name, type)` pairs. -/
theorem created_deleted_consistent (getSystemTime : Nat → SYSTEMTIME) (t : Nat)
    (A B : List Obj) :
    (createdOf (detectChanges getSystemTime t A B)).toFinset ∩
      (deletedOf (detectChanges getSystemTime t A B)).toFinset = ∅ ∧
    (A ≠ [] →
      A.toFinset ∪ (createdOf (detectChanges getSystemTime t A B)).toFinset =
        B.toFinset ∪ (deletedOf (detectChanges getSystemTime t A B)).toFinset) := by
  constructor
  · cases A with
    | nil => simp [detectChanges_nil, createdOf, pairsOf]
    | cons a as =>
      have hA : a :: as ≠ [] := by simp
      rw [createdOf_detectChanges _ _ _ _ hA, deletedOf_detectChanges _ _ _ _ hA]
      ext p
      simp only [Finset.mem_inter, List.mem_toFinset, List.mem_filter, mem_setOfRange,
        Finset.not_mem_empty, iff_false, not_and, decide_eq_true_eq]
      intro h1 h2
      exact absurd h2 h1.2
  · intro hA
    rw [createdOf_detectChanges _ _ _ _ hA, deletedOf_detectChanges _ _ _ _ hA]
    ext p
    simp only [Finset.mem_union, List.mem_toFinset, List.mem_filter, mem_setOfRange,
      decide_eq_true_eq]
    tauto

/-- C2, witness: the amended statement at `A = {X, Y}`, `B = {Y}`. -/
theorem created_deleted_consistent_witness :
    [(L "X", L "Event"), (L "Y", L "Event")] ≠ ([] : List Obj) ∧
    [(L "X", L "Event"), (L "Y", L "Event")].toFinset ∪
      (createdOf (detectChanges exampleClock 0 [(L "X", L "Event"), (L "Y", L "Event")]
        [(L "Y", L "Event")])).toFinset =
    [(L "Y", L "Event")].toFinset ∪
      (deletedOf (detectChanges exampleClock 0 [(L "X", L "Event"), (L "Y", L "Event")]
        [(L "Y", L "Event")])).toFinset :=
  ⟨by decide,
   (created_deleted_consistent exampleClock 0 [(L "X", L "Event"), (L "Y", L "Event")]
      [(L "Y", L "Event")]).2 (by decide)⟩

/-- C2, counterexample: with an empty previous snapshot and the current snapshot
`{Y}`, `A ∪ created` is empty while `B ∪ deleted` holds `Y`. -/
theorem created_deleted_inconsistent_after_empty_snapshot :
    ([] : List Obj).toFinset ∪
      (createdOf (detectChanges exampleClock 0 [] [(L "Y", L "Event")])).toFinset ≠
    [(L "Y", L "Event")].toFinset ∪
      (deletedOf (detectChanges exampleClock 0 [] [(L "Y", L "Event")])).toFinset := by
  decide

/-! ## C3: the first cycle -/

/-- C3. The first cycle of `monitoringThread` invokes the callback zero times,
whatever the directory holds and whether or not a callback is registered, and
leaves the snapshot it took as `prevObjects` for the next cycle. -/
theorem first_cycle_emits_no_event (getSystemTime : Nat → SYSTEMTIME) (callbackSet : Bool)
    (env : CycleEnv) (statistics : List (WString × ObjectStatistics)) (ticks : Nat)
    (handles : HandleTable) (invoked : List ObjectChangeInfo)
    (l l2 : List OBJECT_DIRECTORY_INFORMATION)
    (h : env.snapshotDir.listing = some l) (h2 : env.statisticsDir.listing = some l2) :
    ∃ st1, monitoringThread getSystemTime callbackSet [env]
        (threadEntry statistics ticks handles invoked) = some st1 ∧
      st1.invoked = invoked ∧
      st1.prevObjects = l.map OBJECT_DIRECTORY_INFORMATION.pair := by
  obtain ⟨st1, hst1, hprev, hinv⟩ := monitoringCycle_of_listing getSystemTime callbackSet env
    (threadEntry statistics ticks handles invoked) l l2 h h2
  refine ⟨st1, ?_, ?_, hprev⟩
  · simp [monitoringThread, hst1]
  · rw [hinv]
    simp [threadEntry, detectChanges_nil]

/-- C3, witness: a first cycle over a directory that holds `X`, with a callback
registered. -/
theorem first_cycle_emits_no_event_witness :
    (exampleEnv [(L "X", L "Event")]).snapshotDir.listing = some [⟨L "X", L "Event"⟩] ∧
    (exampleEnv [(L "X", L "Event")]).statisticsDir.listing = some [⟨L "X", L "Event"⟩] ∧
    ∃ st1, monitoringThread exampleClock true [exampleEnv [(L "X", L "Event")]]
        (threadEntry [] 0 ⟨0, []⟩ []) = some st1 ∧
      st1.invoked = [] ∧
      st1.prevObjects =
        [(⟨L "X", L "Event"⟩ : OBJECT_DIRECTORY_INFORMATION)].map
          OBJECT_DIRECTORY_INFORMATION.pair :=
  ⟨by decide, by decide,
   first_cycle_emits_no_event exampleClock true (exampleEnv [(L "X", L "Event")]) [] 0 ⟨0, []⟩ []
     [⟨L "X", L "Event"⟩] [⟨L "X", L "Event"⟩] (by decide) (by decide)⟩

/-! ## C4: one invocation per change -/

/-- C4, as amended. In a cycle whose previous snapshot is not empty, the
registered callback is invoked exactly once with `Created` for every pair of the
current snapshot that the previous one lacks, exactly once with `Deleted` for
every pair of the previous snapshot that the current one lacks, and not
otherwise. In a cycle whose previous snapshot is empty, the first one or a later
one, the callback is not invoked. -/
theorem cycle_invokes_callback_once_per_change (getSystemTime : Nat → SYSTEMTIME)
    (env : CycleEnv) (st : CycleState) (l l2 : List OBJECT_DIRECTORY_INFORMATION)
    (h : env.snapshotDir.listing = some l) (h2 : env.statisticsDir.listing = some l2) :
    ∃ st1 infos, monitoringCycle getSystemTime true env st = some st1 ∧
      st1.invoked = st.invoked ++ infos ∧
      st1.prevObjects = l.map OBJECT_DIRECTORY_INFORMATION.pair ∧
      (st.prevObjects ≠ [] →
        (∀ p, ((createdOf infos).filter (fun q => decide (q = p))).length =
          if p ∈ l.map OBJECT_DIRECTORY_INFORMATION.pair ∧ p ∉ st.prevObjects then 1 else 0) ∧
        (∀ p, ((deletedOf infos).filter (fun q => decide (q = p))).length =
          if p ∈ st.prevObjects ∧ p ∉ l.map OBJECT_DIRECTORY_INFORMATION.pair then 1 else 0) ∧
        infos.length = (createdOf infos).length + (deletedOf infos).length) ∧
      (st.prevObjects = [] → infos = []) := by
  obtain ⟨st1, hst1, hprev, hinv⟩ := monitoringCycle_of_listing getSystemTime true env st
    l l2 h h2
  refine ⟨st1, _, hst1, hinv, hprev, ?_, ?_⟩
  · intro hne
    simp only [if_true]
    refine ⟨?_, ?_, length_detectChanges _ _ _ _ hne⟩
    · intro p
      rw [createdOf_detectChanges _ _ _ _ hne, occurrences_filter_setOfRange]
      simp
    · intro p
      rw [deletedOf_detectChanges _ _ _ _ hne, occurrences_filter_setOfRange]
      simp
  · intro hnil
    simp [hnil, detectChanges_nil]

/-- C4, witness: from the snapshot `{X}` to the directory `{X, Y}`. -/
theorem cycle_invokes_callback_once_per_change_witness :
    (exampleEnv [(L "X", L "Event"), (L "Y", L "Event")]).snapshotDir.listing =
      some [⟨L "X", L "Event"⟩, ⟨L "Y", L "Event"⟩] ∧
    ∃ st1 infos, monitoringCycle exampleClock true
        (exampleEnv [(L "X", L "Event"), (L "Y", L "Event")])
        { prevObjects := [(L "X", L "Event")], statistics := [], ticks := 0,
          handles := ⟨0, []⟩, invoked := [] } = some st1 ∧
      st1.invoked = [] ++ infos ∧
      st1.prevObjects = [(L "X", L "Event"), (L "Y", L "Event")] ∧
      (createdOf infos).length = 1 :=
  ⟨by decide,
   by
    obtain ⟨st1, infos, hst1, hinv, hprev, hne, _⟩ :=
      cycle_invokes_callback_once_per_change exampleClock
        (exampleEnv [(L "X", L "Event"), (L "Y", L "Event")])
        { prevObjects := [(L "X", L "Event")], statistics := [], ticks := 0,
          handles := ⟨0, []⟩, invoked := [] }
        [⟨L "X", L "Event"⟩, ⟨L "Y", L "Event"⟩] [⟨L "X", L "Event"⟩, ⟨L "Y", L "Event"⟩]
        (by decide) (by decide)
    refine ⟨st1, infos, hst1, hinv, hprev, ?_⟩
    have hst : monitoringCycle exampleClock true
        (exampleEnv [(L "X", L "Event"), (L "Y", L "Event")])
        { prevObjects := [(L "X", L "Event")], statistics := [], ticks := 0,
          handles := ⟨0, []⟩, invoked := [] } =
        some { prevObjects := [(L "X", L "Event"), (L "Y", L "Event")],
               statistics := [(L "X", ⟨0, 0, 0, exampleClock 1⟩),
                              (L "Y", ⟨0, 0, 0, exampleClock 2⟩)],
               ticks := 3, handles := ⟨2, []⟩,
               invoked := [⟨L "Y", L "Event", L "Created", exampleClock 0⟩] } := by
      decide
    rw [hst] at hst1
    injection hst1 with hst1
    subst hst1
    simp only [List.nil_append] at hinv
    rw [← hinv]
    decide⟩

/-- C4, counterexample: a thread whose first cycle sees an empty directory and
whose second cycle sees the one entry `Y`. The second cycle has a previous
snapshot, an empty one, and `Y` is new, yet the callback is never invoked. -/
theorem no_created_event_after_empty_directory :
    (monitoringThread exampleClock true [exampleEnv [], exampleEnv [(L "Y", L "Event")]]
        (threadEntry [] 0 ⟨0, []⟩ [])).map (fun st => (st.prevObjects, st.invoked)) =
      some ([(L "Y", L "Event")], []) := by
  decide

/-! ## C5: order and repetition do not matter -/

theorem detectChanges_congr (getSystemTime : Nat → SYSTEMTIME) (t : Nat)
    (A A1 B B1 : List Obj) (hA : ∀ p, p ∈ A ↔ p ∈ A1) (hB : ∀ p, p ∈ B ↔ p ∈ B1) :
    detectChanges getSystemTime t A B = detectChanges getSystemTime t A1 B1 := by
  have hsetA : setOfRange A = setOfRange A1 := setOfRange_congr A A1 hA
  have hsetB : setOfRange B = setOfRange B1 := setOfRange_congr B B1 hB
  have hempty : A.isEmpty = A1.isEmpty := by
    cases A with
    | nil =>
      cases A1 with
      | nil => rfl
      | cons a as => exact absurd ((hA a).2 (List.mem_cons_self _ _)) (List.not_mem_nil a)
    | cons a as =>
      cases A1 with
      | nil => exact absurd ((hA a).1 (List.mem_cons_self _ _)) (List.not_mem_nil a)
      | cons b bs => rfl
  unfold detectChanges
  rw [hsetA, hsetB, hempty]

theorem nodup_shown_detectChanges (getSystemTime : Nat → SYSTEMTIME) (t : Nat)
    (A B : List Obj) :
    ((detectChanges getSystemTime t A B).map ObjectChangeInfo.shown).Nodup := by
  cases A with
  | nil => simp [detectChanges_nil]
  | cons a as =>
    have hne : a :: as ≠ [] := by simp
    rw [shown_detectChanges _ _ _ _ hne]
    have hinj1 : Function.Injective (fun obj : Obj => (obj.1, obj.2, L "Created")) := by
      intro x y hxy
      simp only [Prod.mk.injEq, and_true] at hxy
      exact Prod.ext hxy.1 hxy.2
    have hinj2 : Function.Injective (fun obj : Obj => (obj.1, obj.2, L "Deleted")) := by
      intro x y hxy
      simp only [Prod.mk.injEq, and_true] at hxy
      exact Prod.ext hxy.1 hxy.2
    rw [List.nodup_append]
    refine ⟨((nodup_setOfRange B).filter _).map hinj1,
      ((nodup_setOfRange (a :: as)).filter _).map hinj2, ?_⟩
    intro x hx1 hx2
    rw [List.mem_map] at hx1 hx2
    obtain ⟨y, _, hy⟩ := hx1
    obtain ⟨z, _, hz⟩ := hx2
    rw [← hz] at hy
    simp only [Prod.mk.injEq] at hy
    exact created_ne_deleted hy.2.2

/-- C5, as amended. The change detection reads its two snapshots as sets. When
the previous snapshots `A` and `A1` hold the same pairs and the current snapshots
`B` and `B1` hold the same pairs, in whatever order and however often, the
records built for the callback are the same; so they are for permuted lists and
for lists with every repetition removed, and no `(name, type, changeType)`
occurs twice among them. When `A` is not empty there is exactly one `Created`
record for every pair of `B` that `A` lacks, exactly one `Deleted` record for
every pair of `A` that `B` lacks, and no other record, however often the pair
occurs in its list. When `A` is empty there is no record at all. A cycle with a
registered callback invokes it with these records and no others. -/
theorem detectChanges_ignores_order_and_repetition (getSystemTime : Nat → SYSTEMTIME)
    (t : Nat) (A A1 B B1 : List Obj) :
    ((∀ p, p ∈ A ↔ p ∈ A1) → (∀ p, p ∈ B ↔ p ∈ B1) →
      detectChanges getSystemTime t A B = detectChanges getSystemTime t A1 B1) ∧
    (A.Perm A1 → B.Perm B1 →
      detectChanges getSystemTime t A B = detectChanges getSystemTime t A1 B1) ∧
    detectChanges getSystemTime t A.dedup B.dedup = detectChanges getSystemTime t A B ∧
    detectChanges getSystemTime t (A ++ A) (B ++ B) = detectChanges getSystemTime t A B ∧
    ((detectChanges getSystemTime t A B).map ObjectChangeInfo.shown).Nodup ∧
    (A ≠ [] →
      (∀ p, ((createdOf (detectChanges getSystemTime t A B)).filter
          (fun q => decide (q = p))).length = if p ∈ B ∧ p ∉ A then 1 else 0) ∧
      (∀ p, ((deletedOf (detectChanges getSystemTime t A B)).filter
          (fun q => decide (q = p))).length = if p ∈ A ∧ p ∉ B then 1 else 0) ∧
      (detectChanges getSystemTime t A B).length =
        (createdOf (detectChanges getSystemTime t A B)).length +
        (deletedOf (detectChanges getSystemTime t A B)).length) ∧
    (A = [] → detectChanges getSystemTime t A B = []) ∧
    (∀ (env : CycleEnv) (st : CycleState) (l l2 : List OBJECT_DIRECTORY_INFORMATION),
      env.snapshotDir.listing = some l → env.statisticsDir.listing = some l2 →
      st.prevObjects = A → st.ticks = t → l.map OBJECT_DIRECTORY_INFORMATION.pair = B →
      ∃ st1, monitoringCycle getSystemTime true env st = some st1 ∧
        st1.invoked = st.invoked ++ detectChanges getSystemTime t A B) := by
  refine ⟨detectChanges_congr getSystemTime t A A1 B B1, ?_, ?_, ?_,
    nodup_shown_detectChanges getSystemTime t A B, ?_, ?_, ?_⟩
  · intro hA hB
    exact detectChanges_congr getSystemTime t A A1 B B1 (fun p => hA.mem_iff)
      (fun p => hB.mem_iff)
  · exact detectChanges_congr getSystemTime t _ _ _ _ (fun p => List.mem_dedup)
      (fun p => List.mem_dedup)
  · exact detectChanges_congr getSystemTime t _ _ _ _ (fun p => by simp) (fun p => by simp)
  · intro hne
    refine ⟨?_, ?_, length_detectChanges _ _ _ _ hne⟩
    · intro p
      rw [createdOf_detectChanges _ _ _ _ hne, occurrences_filter_setOfRange]
      simp
    · intro p
      rw [deletedOf_detectChanges _ _ _ _ hne, occurrences_filter_setOfRange]
      simp
  · intro hnil
    rw [hnil]
    exact detectChanges_nil getSystemTime t B
  · intro env st l l2 h h2 hA ht hB
    obtain ⟨st1, hst1, _, hinv⟩ := monitoringCycle_of_listing getSystemTime true env st
      l l2 h h2
    refine ⟨st1, hst1, ?_⟩
    rw [hinv, hA, ht, hB]
    rfl

/-- C5, witness: `{X, Y}` against `Y, X, X` as previous snapshots, `{Y}` against
`Y, Y` as current ones. The records are the same, and `X`, twice in the previous
snapshot, is reported deleted once. -/
theorem detectChanges_ignores_order_and_repetition_witness :
    detectChanges exampleClock 0 [(L "X", L "Event"), (L "Y", L "Event")] [(L "Y", L "Event")] =
      detectChanges exampleClock 0
        [(L "Y", L "Event"), (L "X", L "Event"), (L "X", L "Event")]
        [(L "Y", L "Event"), (L "Y", L "Event")] ∧
    ((deletedOf (detectChanges exampleClock 0
        [(L "Y", L "Event"), (L "X", L "Event"), (L "X", L "Event")]
        [(L "Y", L "Event"), (L "Y", L "Event")])).filter
      (fun q => decide (q = (L "X", L "Event")))).length = 1 :=
  ⟨(detectChanges_ignores_order_and_repetition exampleClock 0
      [(L "X", L "Event"), (L "Y", L "Event")]
      [(L "Y", L "Event"), (L "X", L "Event"), (L "X", L "Event")]
      [(L "Y", L "Event")] [(L "Y", L "Event"), (L "Y", L "Event")]).1
      (by intro p; simp only [List.mem_cons, List.mem_singleton, List.not_mem_nil]; tauto)
      (by intro p; simp only [List.mem_cons, List.mem_singleton, List.not_mem_nil]; tauto),
   Eq.trans
    (((detectChanges_ignores_order_and_repetition exampleClock 0
      [(L "Y", L "Event"), (L "X", L "Event"), (L "X", L "Event")]
      [(L "Y", L "Event"), (L "X", L "Event"), (L "X", L "Event")]
      [(L "Y", L "Event"), (L "Y", L "Event")]
      [(L "Y", L "Event"), (L "Y", L "Event")]).2.2.2.2.2.1 (by decide)).2.1
      (L "X", L "Event"))
    (by decide)⟩

/-- C5, counterexample: the first cycle of a thread sees an empty directory and
the second one sees `X` twice. `X` is in the current snapshot and not in the
previous one, and the callback is not invoked for it, not once. -/
theorem new_pair_after_empty_snapshot_has_no_invocation :
    (monitoringThread exampleClock true
        [exampleEnv [], exampleEnv [(L "X", L "Event"), (L "X", L "Event")]]
        (threadEntry [] 0 ⟨0, []⟩ [])).map (fun st => (st.prevObjects, st.invoked)) =
      some ([(L "X", L "Event"), (L "X", L "Event")], []) ∧
    ((createdOf (detectChanges exampleClock 0 []
        [(L "X", L "Event"), (L "X", L "Event")])).filter
      (fun q => decide (q = (L "X", L "Event")))).length = 0 := by
  constructor <;> decide

/-! ## C6, C7: `startMonitoring` and `stopMonitoring` -/

theorem consistent_construct : Consistent construct :=
  Or.inl ⟨rfl, rfl, rfl⟩

theorem startMonitoring_of_consistent (path : WString) (p : Process) (hp : Consistent p) :
    ∃ p1, startMonitoring path p = some p1 ∧ Consistent p1 ∧
      p1.monitor.isMonitoring = true := by
  rcases hp with ⟨hflag, hthread, hworkers⟩ | ⟨hflag, w, hthread, hworkers⟩
  · refine ⟨{ p with
        monitor := { p.monitor with monitoringPath := path, isMonitoring := true,
                                    monitorThread := some p.spawned },
        workers := { id := p.spawned, pc := WorkerPc.loopTop, prevObjects := [] } :: p.workers,
        spawned := p.spawned + 1 }, ?_, ?_, ?_⟩
    · unfold startMonitoring
      rw [hflag, hthread]
      simp only [Bool.false_eq_true, if_false]
    · exact Or.inr ⟨rfl, ⟨p.spawned, WorkerPc.loopTop, []⟩, rfl, by simp [hworkers]⟩
    · rfl
  · refine ⟨p, ?_, Or.inr ⟨hflag, w, hthread, hworkers⟩, hflag⟩
    unfold startMonitoring
    rw [hflag]
    simp

theorem stopMonitoring_of_consistent (p : Process) (hp : Consistent p) :
    Consistent (stopMonitoring p) ∧ (stopMonitoring p).monitor.isMonitoring = false ∧
      (stopMonitoring p).workers = [] := by
  rcases hp with ⟨hflag, hthread, hworkers⟩ | ⟨hflag, w, hthread, hworkers⟩
  · have hstop : stopMonitoring p = p := by
      unfold stopMonitoring
      rw [hflag]
      simp
    rw [hstop]
    exact ⟨Or.inl ⟨hflag, hthread, hworkers⟩, hflag, hworkers⟩
  · have hstop : stopMonitoring p =
        join w.id { p with monitor := { p.monitor with isMonitoring := false } } := by
      unfold stopMonitoring
      rw [hflag]
      simp only [Bool.not_true, Bool.false_eq_true, if_false, hthread]
    rw [hstop]
    have hfilter : (p.workers.filter (fun v => v.id != w.id)) = [] := by
      rw [hworkers]
      simp
    exact ⟨Or.inl ⟨rfl, rfl, hfilter⟩, rfl, hfilter⟩

theorem runCalls_of_consistent (calls : List Call) (p : Process) (hp : Consistent p) :
    ∃ p1, runCalls calls p = some p1 ∧ Consistent p1 := by
  induction calls generalizing p with
  | nil => exact ⟨p, rfl, hp⟩
  | cons c rest ih =>
    cases c with
    | start path =>
      obtain ⟨p1, hstart, hp1, _⟩ := startMonitoring_of_consistent path p hp
      obtain ⟨p2, hrun, hp2⟩ := ih p1 hp1
      exact ⟨p2, by simp [runCalls, hstart, hrun], hp2⟩
    | stop =>
      obtain ⟨p2, hrun, hp2⟩ := ih (stopMonitoring p) (stopMonitoring_of_consistent p hp).1
      exact ⟨p2, by simp [runCalls, hrun], hp2⟩

/-- C6. A call of `startMonitoring` on a monitor that is running changes
nothing, whatever the path: the monitored path, the flag, the thread member, the
workers and the number of threads started are those of before. -/
theorem startMonitoring_while_running_changes_nothing (path : WString) (p : Process)
    (h : p.monitor.isMonitoring = true) : startMonitoring path p = some p := by
  unfold startMonitoring
  rw [h]
  simp

/-- C6, witness: a second `startMonitoring` with another path on a running
monitor. -/
theorem startMonitoring_while_running_changes_nothing_witness :
    exampleRunning.monitor.isMonitoring = true ∧
    startMonitoring (L "\\Sessions") exampleRunning = some exampleRunning :=
  ⟨rfl, startMonitoring_while_running_changes_nothing (L "\\Sessions") exampleRunning rfl⟩

/-- C7. After any finite sequence of `startMonitoring` and `stopMonitoring` calls
on a freshly constructed monitor, the calls have all returned, at most one worker
exists, and one exists exactly when the monitor is running. From there,
`startMonitoring` leads to a running monitor, `stopMonitoring` leads to an idle
monitor without a worker, and `stopMonitoring` on an idle monitor changes nothing. -/
theorem at_most_one_worker (calls : List Call) :
    ∃ p, runCalls calls construct = some p ∧
      p.workers.length ≤ 1 ∧
      (p.workers.length = 1 ↔ p.monitor.isMonitoring = true) ∧
      (∀ path, ∃ p1, startMonitoring path p = some p1 ∧ p1.monitor.isMonitoring = true ∧
        p1.workers.length = 1) ∧
      ((stopMonitoring p).monitor.isMonitoring = false ∧ (stopMonitoring p).workers = []) ∧
      (p.monitor.isMonitoring = false → stopMonitoring p = p) := by
  obtain ⟨p, hrun, hp⟩ := runCalls_of_consistent calls construct consistent_construct
  refine ⟨p, hrun, ?_, ?_, ?_, (stopMonitoring_of_consistent p hp).2, ?_⟩
  · rcases hp with ⟨_, _, hworkers⟩ | ⟨_, w, _, hworkers⟩ <;> simp [hworkers]
  · rcases hp with ⟨hflag, _, hworkers⟩ | ⟨hflag, w, _, hworkers⟩ <;> simp [hworkers, hflag]
  · intro path
    obtain ⟨p1, hstart, hp1, hflag1⟩ := startMonitoring_of_consistent path p hp
    refine ⟨p1, hstart, hflag1, ?_⟩
    rcases hp1 with ⟨hflag, _, _⟩ | ⟨_, w, _, hworkers⟩
    · rw [hflag1] at hflag
      exact absurd hflag (by simp)
    · simp [hworkers]
  · intro hflag
    unfold stopMonitoring
    rw [hflag]
    simp

/-- C7, witness: the calls start, start, stop, stop, start. -/
theorem at_most_one_worker_witness :
    ∃ p, runCalls [Call.start (L "\\BaseNamedObjects"), Call.start (L "\\Sessions"),
          Call.stop, Call.stop, Call.start (L "\\")] construct = some p ∧
      p.workers.length ≤ 1 ∧
      (p.workers.length = 1 ↔ p.monitor.isMonitoring = true) ∧
      (∀ path, ∃ p1, startMonitoring path p = some p1 ∧ p1.monitor.isMonitoring = true ∧
        p1.workers.length = 1) ∧
      ((stopMonitoring p).monitor.isMonitoring = false ∧ (stopMonitoring p).workers = []) ∧
      (p.monitor.isMonitoring = false → stopMonitoring p = p) :=
  at_most_one_worker [Call.start (L "\\BaseNamedObjects"), Call.start (L "\\Sessions"),
    Call.stop, Call.stop, Call.start (L "\\")]

/-! ## C8: the caller and the worker, step by step -/

theorem quietFrom_append (quiet : Bool) (xs ys : List Event) :
    quietFrom quiet (xs ++ ys) = (quietFrom quiet xs && quietFrom (modeAfter quiet xs) ys) := by
  induction xs generalizing quiet with
  | nil => simp [quietFrom, modeAfter]
  | cons e es ih =>
    cases e with
    | startCalled => simp [quietFrom, modeAfter, ih]
    | stopReturned => simp [quietFrom, modeAfter, ih]
    | callback info => simp [quietFrom, modeAfter, ih, Bool.and_assoc]

theorem modeAfter_append (quiet : Bool) (xs ys : List Event) :
    modeAfter quiet (xs ++ ys) = modeAfter (modeAfter quiet xs) ys := by
  induction xs generalizing quiet with
  | nil => simp [modeAfter]
  | cons e es ih =>
    cases e with
    | startCalled => simp [modeAfter, ih]
    | stopReturned => simp [modeAfter, ih]
    | callback info => simp [modeAfter, ih]

theorem quietFrom_callbacks (infos : List ObjectChangeInfo) :
    quietFrom false (infos.map Event.callback) = true ∧
    modeAfter false (infos.map Event.callback) = false := by
  induction infos with
  | nil => simp [quietFrom, modeAfter]
  | cons info rest ih => simp [quietFrom, modeAfter, ih]

theorem no_callback_of_quietFrom (post : List Event) (h : quietFrom true post = true)
    (hstart : Event.startCalled ∉ post) (info : ObjectChangeInfo) :
    Event.callback info ∉ post := by
  induction post with
  | nil => simp
  | cons e es ih =>
    have hstart2 : Event.startCalled ∉ es := fun hmem => hstart (List.mem_cons_of_mem _ hmem)
    cases e with
    | startCalled => exact absurd (List.mem_cons_self _ _) hstart
    | stopReturned =>
      simp only [quietFrom] at h
      intro hmem
      rcases List.mem_cons.1 hmem with hmem | hmem
      · cases hmem
      · exact ih h hstart2 hmem
    | callback other => simp [quietFrom] at h

theorem quietFrom_after_stopReturned (quiet : Bool) (pre post : List Event)
    (h : quietFrom quiet (pre ++ Event.stopReturned :: post) = true) :
    quietFrom true post = true := by
  rw [quietFrom_append] at h
  simp only [Bool.and_eq_true, quietFrom] at h
  exact h.2

theorem quiet_of_workers_nil (p : Process) (hc : p.caller = CallerPc.idle)
    (hw : p.workers = []) : Quiet p = true := by
  simp [Quiet, hc, hw]

theorem not_quiet_of_worker (p : Process) (w : Worker) (hw : p.workers = [w]) :
    Quiet p = false := by
  simp [Quiet, hw]

theorem startMonitoring_caller (path : WString) (p p1 : Process)
    (h : startMonitoring path p = some p1) : p1.caller = p.caller := by
  unfold startMonitoring at h
  by_cases hflag : p.monitor.isMonitoring = true
  · rw [if_pos hflag] at h
    injection h with h
    rw [← h]
  · rw [if_neg hflag] at h
    cases hthread : p.monitor.monitorThread with
    | some thread =>
      rw [hthread] at h
      exact absurd h (by simp)
    | none =>
      rw [hthread] at h
      injection h with h
      rw [← h]

/-- A step of a worker that keeps its id leaves the invariant in place; the
process is not quiet before it and not after it. -/
theorem worker_step_invariant (p p1 : Process) (thread : Nat) (w w1 : Worker)
    (hfind : p.workers.find? (fun v => v.id = thread) = some w)
    (hid : w1.id = w.id)
    (hcaller : p1.caller = p.caller)
    (hflag : p1.monitor.isMonitoring = p.monitor.isMonitoring)
    (hthread : p1.monitor.monitorThread = p.monitor.monitorThread)
    (hworkers : p1.workers = setWorker w1 p.workers)
    (hp : StepInvariant p) :
    StepInvariant p1 ∧ Quiet p = false ∧ Quiet p1 = false := by
  have hone : ∃ w0 : Worker, p.workers = [w0] := by
    unfold StepInvariant at hp
    cases hc : p.caller with
    | idle =>
      rw [hc] at hp
      rcases hp with ⟨_, _, hw⟩ | ⟨_, w0, _, hw⟩
      · rw [hw] at hfind
        simp at hfind
      · exact ⟨w0, hw⟩
    | joining t =>
      rw [hc] at hp
      obtain ⟨_, w0, _, _, hw⟩ := hp
      exact ⟨w0, hw⟩
  obtain ⟨w0, hw0⟩ := hone
  have hww0 : w = w0 := by
    rw [hw0] at hfind
    by_cases hcond : w0.id = thread
    · simp [List.find?_cons, hcond] at hfind
      exact hfind.symm
    · simp [List.find?_cons, hcond] at hfind
  subst hww0
  have hw1 : p1.workers = [w1] := by
    rw [hworkers, hw0]
    simp [setWorker, hid]
  refine ⟨?_, not_quiet_of_worker p w hw0, not_quiet_of_worker p1 w1 hw1⟩
  unfold StepInvariant at hp ⊢
  rw [hcaller]
  cases hc : p.caller with
  | idle =>
    rw [hc] at hp
    simp only
    rcases hp with ⟨_, _, hw⟩ | ⟨hf, v, ht, hw⟩
    · rw [hw] at hw0
      exact absurd hw0 (by simp)
    · refine Or.inr ⟨by rw [hflag, hf], w1, ?_, hw1⟩
      rw [hthread, ht, hid]
      rw [hw0] at hw
      injection hw with hw _
      rw [hw]
  | joining t =>
    rw [hc] at hp
    simp only
    obtain ⟨hf, v, hv, ht, hw⟩ := hp
    refine ⟨by rw [hflag, hf], w1, ?_, by rw [hthread, ht], hw1⟩
    rw [hid]
    rw [hw0] at hw
    injection hw with hw _
    rw [hw, hv]

theorem step_spec (getSystemTime : Nat → SYSTEMTIME) (p p1 : Process) (a : Action)
    (events : List Event) (hp : StepInvariant p)
    (hstep : step getSystemTime p a = some (p1, events)) :
    StepInvariant p1 ∧ quietFrom (Quiet p) events = true ∧
      Quiet p1 = modeAfter (Quiet p) events := by
  cases a with
  | setCallback callback =>
    cases hc : p.caller with
    | joining t => simp [step, hc] at hstep
    | idle =>
      simp only [step, hc, Option.some.injEq, Prod.mk.injEq] at hstep
      obtain ⟨hp1, hev⟩ := hstep
      subst hp1
      subst hev
      refine ⟨?_, rfl, rfl⟩
      unfold StepInvariant at hp ⊢
      rw [hc] at hp
      have : (setChangeCallback callback p).caller = CallerPc.idle := hc
      rw [this]
      exact hp
  | start path =>
    cases hc : p.caller with
    | joining t => simp [step, hc] at hstep
    | idle =>
      have hcons : Consistent p := by
        unfold StepInvariant at hp
        rw [hc] at hp
        exact hp
      obtain ⟨p2, hstart, hp2, hflag2⟩ := startMonitoring_of_consistent path p hcons
      simp only [step, hc, hstart, Option.map_some', Option.some.injEq, Prod.mk.injEq] at hstep
      obtain ⟨hp1, hev⟩ := hstep
      subst hp1
      subst hev
      have hcaller : p2.caller = CallerPc.idle := by
        rw [startMonitoring_caller path p p2 hstart, hc]
      refine ⟨?_, rfl, ?_⟩
      · unfold StepInvariant
        rw [hcaller]
        exact hp2
      · rcases hp2 with ⟨hf, _, _⟩ | ⟨_, w, _, hw⟩
        · rw [hflag2] at hf
          exact absurd hf (by simp)
        · rw [not_quiet_of_worker p2 w hw]
          rfl
  | stopEnter =>
    cases hc : p.caller with
    | joining t => simp [step, hc] at hstep
    | idle =>
      have hcons : Consistent p := by
        unfold StepInvariant at hp
        rw [hc] at hp
        exact hp
      rcases hcons with ⟨hf, ht, hw⟩ | ⟨hf, w, ht, hw⟩
      · simp only [step, hc, hf, Bool.not_false, if_true, Option.some.injEq,
          Prod.mk.injEq] at hstep
        obtain ⟨hp1, hev⟩ := hstep
        subst hp1
        subst hev
        refine ⟨hp, rfl, ?_⟩
        rw [quiet_of_workers_nil p hc hw]
        rfl
      · simp only [step, hc, hf, Bool.not_true, Bool.false_eq_true, if_false, ht,
          Option.some.injEq, Prod.mk.injEq] at hstep
        obtain ⟨hp1, hev⟩ := hstep
        subst hp1
        subst hev
        refine ⟨?_, rfl, ?_⟩
        · unfold StepInvariant
          exact ⟨rfl, w, rfl, rfl, hw⟩
        · rw [not_quiet_of_worker p w hw]
          simp [Quiet, modeAfter]
  | joinReturn =>
    cases hc : p.caller with
    | idle => simp [step, hc] at hstep
    | joining t =>
      unfold StepInvariant at hp
      rw [hc] at hp
      obtain ⟨hf, w, hwid, ht, hw⟩ := hp
      have hfind : p.workers.find? (fun v => decide (v.id = t)) = some w := by
        rw [hw]
        simp [List.find?_cons, hwid]
      by_cases hpc : w.pc = WorkerPc.returned
      · simp only [step, hc, hfind, hpc, if_true, Option.some.injEq, Prod.mk.injEq] at hstep
        obtain ⟨hp1, hev⟩ := hstep
        subst hp1
        subst hev
        have hfilter : p.workers.filter (fun v => v.id != t) = [] := by
          rw [hw]
          simp [hwid]
        refine ⟨?_, rfl, ?_⟩
        · unfold StepInvariant
          exact Or.inl ⟨hf, rfl, hfilter⟩
        · simp [Quiet, modeAfter, join, hfilter]
      · simp [step, hc, hfind, hpc] at hstep
  | check thread =>
    cases hfind : p.workers.find? (fun v => decide (v.id = thread)) with
    | none => simp [step, hfind] at hstep
    | some w =>
      by_cases hpc : w.pc = WorkerPc.loopTop
      · simp only [step, hfind, hpc, if_true, Option.some.injEq, Prod.mk.injEq] at hstep
        obtain ⟨hp1, hev⟩ := hstep
        subst hev
        obtain ⟨hinv, hq, hq1⟩ := worker_step_invariant p p1 thread w
          { w with pc := if p.monitor.isMonitoring then WorkerPc.inCycle
                         else WorkerPc.returned }
          hfind rfl (by rw [← hp1]) (by rw [← hp1]) (by rw [← hp1]) (by rw [← hp1]) hp
        refine ⟨hinv, rfl, ?_⟩
        rw [hq, hq1]
        rfl
      · simp [step, hfind, hpc] at hstep
  | body thread env =>
    cases hfind : p.workers.find? (fun v => decide (v.id = thread)) with
    | none => simp [step, hfind] at hstep
    | some w =>
      by_cases hpc : w.pc = WorkerPc.inCycle
      · cases hcycle : monitoringCycle getSystemTime p.monitor.changeCallback env
            { prevObjects := w.prevObjects, statistics := p.monitor.statistics,
              ticks := p.ticks, handles := p.handles, invoked := [] } with
        | none => simp [step, hfind, hpc, hcycle] at hstep
        | some st =>
          simp only [step, hfind, hpc, if_true, hcycle, Option.some.injEq,
            Prod.mk.injEq] at hstep
          obtain ⟨hp1, hev⟩ := hstep
          subst hev
          obtain ⟨hinv, hq, hq1⟩ := worker_step_invariant p p1 thread w
            { w with pc := WorkerPc.loopTop, prevObjects := st.prevObjects }
            hfind rfl (by rw [← hp1]) (by rw [← hp1]) (by rw [← hp1]) (by rw [← hp1]) hp
          refine ⟨hinv, ?_, ?_⟩
          · rw [hq]
            exact (quietFrom_callbacks st.invoked).1
          · rw [hq, hq1]
            exact (quietFrom_callbacks st.invoked).2.symm
      · simp [step, hfind, hpc] at hstep

theorem runSteps_spec (getSystemTime : Nat → SYSTEMTIME) (actions : List Action)
    (p p1 : Process) (events : List Event) (hp : StepInvariant p)
    (hrun : runSteps getSystemTime actions p = some (p1, events)) :
    StepInvariant p1 ∧ quietFrom (Quiet p) events = true ∧
      Quiet p1 = modeAfter (Quiet p) events := by
  induction actions generalizing p events with
  | nil =>
    simp only [runSteps, Option.some.injEq, Prod.mk.injEq] at hrun
    obtain ⟨hp1, hev⟩ := hrun
    subst hp1
    subst hev
    exact ⟨hp, rfl, rfl⟩
  | cons a rest ih =>
    unfold runSteps at hrun
    cases hstep : step getSystemTime p a with
    | none =>
      rw [hstep] at hrun
      exact absurd hrun (by simp)
    | some r =>
      obtain ⟨p2, ev1⟩ := r
      rw [hstep] at hrun
      simp only at hrun
      cases hrest : runSteps getSystemTime rest p2 with
      | none =>
        rw [hrest] at hrun
        exact absurd hrun (by simp)
      | some r2 =>
        obtain ⟨p3, ev2⟩ := r2
        rw [hrest] at hrun
        simp only [Option.some.injEq, Prod.mk.injEq] at hrun
        obtain ⟨hp1, hev⟩ := hrun
        subst hp1
        subst hev
        obtain ⟨hinv2, hq2, hm2⟩ := step_spec getSystemTime p p2 a ev1 hp hstep
        obtain ⟨hinv3, hq3, hm3⟩ := ih p2 ev2 hinv2 hrest
        refine ⟨hinv3, ?_, ?_⟩
        · rw [quietFrom_append, hq2, ← hm2, hq3]
          rfl
        · rw [modeAfter_append, ← hm2, hm3]

theorem stepInvariant_construct : StepInvariant construct :=
  consistent_construct

theorem modeAfter_of_no_start (post : List Event) (hstart : Event.startCalled ∉ post) :
    modeAfter true post = true := by
  induction post with
  | nil => rfl
  | cons e es ih =>
    have hstart2 : Event.startCalled ∉ es := fun hmem => hstart (List.mem_cons_of_mem _ hmem)
    cases e with
    | startCalled => exact absurd (List.mem_cons_self _ _) hstart
    | stopReturned => simpa [modeAfter] using ih hstart2
    | callback info => simpa [modeAfter] using ih hstart2

/-- C8. In every run of the caller and the worker from a freshly constructed
monitor, once `stopMonitoring` has returned no callback is invoked until
`startMonitoring` is called again; and as long as it is not called again, no
worker exists: the polling loop has ended. -/
theorem no_callback_after_stopMonitoring_returns (getSystemTime : Nat → SYSTEMTIME)
    (actions : List Action) (p : Process) (events pre post : List Event)
    (hrun : runSteps getSystemTime actions construct = some (p, events))
    (hsplit : events = pre ++ Event.stopReturned :: post)
    (hstart : Event.startCalled ∉ post) :
    (∀ info, Event.callback info ∉ post) ∧ p.workers = [] ∧
      p.monitor.isMonitoring = false := by
  obtain ⟨hinv, hquiet, hmode⟩ := runSteps_spec getSystemTime actions construct p events
    stepInvariant_construct hrun
  rw [hsplit] at hquiet hmode
  refine ⟨fun info => no_callback_of_quietFrom post
    (quietFrom_after_stopReturned _ pre post hquiet) hstart info, ?_⟩
  rw [modeAfter_append] at hmode
  simp only [modeAfter] at hmode
  rw [modeAfter_of_no_start post hstart] at hmode
  simp only [Quiet, Bool.and_eq_true, decide_eq_true_eq, List.isEmpty_iff] at hmode
  obtain ⟨hcaller, hworkers⟩ := hmode
  refine ⟨hworkers, ?_⟩
  unfold StepInvariant at hinv
  rw [hcaller] at hinv
  rcases hinv with ⟨hf, _, _⟩ | ⟨_, w, _, hw⟩
  · exact hf
  · rw [hworkers] at hw
    exact absurd hw (by simp)

/-- C8, witness: in `exampleRun` the callback is invoked after the caller has
entered `stopMonitoring` and before `join` returns, and not after that. -/
theorem no_callback_after_stopMonitoring_returns_witness :
    runSteps exampleClock exampleRun construct =
      some (exampleRunEnd,
        [Event.startCalled,
         Event.callback ⟨L "Y", L "Event", L "Created", exampleClock 1⟩,
         Event.stopReturned, Event.stopReturned]) ∧
    Event.startCalled ∉ [Event.stopReturned] ∧
    (∀ info, Event.callback info ∉ [Event.stopReturned]) ∧ exampleRunEnd.workers = [] ∧
      exampleRunEnd.monitor.isMonitoring = false :=
  ⟨by decide, by decide,
   no_callback_after_stopMonitoring_returns exampleClock exampleRun exampleRunEnd
     [Event.startCalled,
      Event.callback ⟨L "Y", L "Event", L "Created", exampleClock 1⟩,
      Event.stopReturned, Event.stopReturned]
     [Event.startCalled, Event.callback ⟨L "Y", L "Event", L "Created", exampleClock 1⟩]
     [Event.stopReturned] (by decide) rfl (by decide)⟩

/-! ## C9: a directory without links and sections -/

theorem dependencyBufferLoop_plain (env : AnalyzerEnv) (rootObject : WString)
    (entries : List OBJECT_DIRECTORY_INFORMATION)
    (h : ∀ info ∈ entries, info.TypeName ≠ L "SymbolicLink" ∧ info.TypeName ≠ L "Section")
    (dependencies : List ObjectDependency) (w : World) :
    dependencyBufferLoop env rootObject entries dependencies w = (dependencies, w) := by
  induction entries with
  | nil => rfl
  | cons info rest ih =>
    have hinfo := h info (List.mem_cons_self _ _)
    have hrest : ∀ x ∈ rest, x.TypeName ≠ L "SymbolicLink" ∧ x.TypeName ≠ L "Section" :=
      fun x hx => h x (List.mem_cons_of_mem _ hx)
    unfold dependencyBufferLoop
    simp only [hinfo.1, hinfo.2, if_false]
    exact ih hrest

theorem dependencyQueryLoop_plain (env : AnalyzerEnv) (rootObject : WString)
    (responses : List QueryResponse) (l : List OBJECT_DIRECTORY_INFORMATION)
    (hl : listingOf responses = some l)
    (h : ∀ info ∈ l, info.TypeName ≠ L "SymbolicLink" ∧ info.TypeName ≠ L "Section")
    (dependencies : List ObjectDependency) (w : World) :
    dependencyQueryLoop env rootObject responses dependencies w = some (dependencies, w) := by
  induction responses generalizing l with
  | nil => simp [listingOf] at hl
  | cons r rs ih =>
    unfold dependencyQueryLoop
    by_cases hr : NT_SUCCESS r.status = true
    · have hne : r.status ≠ STATUS_NO_MORE_ENTRIES := ne_no_more_entries_of_success _ hr
      simp only [listingOf, hr, if_true] at hl
      cases hrs : listingOf rs with
      | none => simp [hrs] at hl
      | some l1 =>
        simp only [hrs, Option.map_some', Option.some.injEq] at hl
        subst hl
        have h1 : ∀ info ∈ scanBuffer r.buffer,
            info.TypeName ≠ L "SymbolicLink" ∧ info.TypeName ≠ L "Section" :=
          fun x hx => h x (List.mem_append_left _ hx)
        have h2 : ∀ info ∈ l1,
            info.TypeName ≠ L "SymbolicLink" ∧ info.TypeName ≠ L "Section" :=
          fun x hx => h x (List.mem_append_right _ hx)
        simp only [hr, hne, Bool.not_true, decide_False, Bool.or_self, Bool.false_eq_true,
          if_false, dependencyBufferLoop_plain env rootObject _ h1]
        exact ih l1 hrs h2
    · have hr2 : NT_SUCCESS r.status = false := by simpa using hr
      simp [hr2]

/-- C9. When the enumeration of the directory at the root path shows no record of
type `SymbolicLink` and none of type `Section`, `buildDependencyGraph` returns and
the sequence of edges it returns is empty: so it is when the path is one the code
takes for a directory, and so it is for any other path once `NtOpenFile` refuses
it, a namespace directory not being a file. -/
theorem buildDependencyGraph_without_links_and_sections (env : AnalyzerEnv)
    (rootObject : WString) (w : World) (l : List OBJECT_DIRECTORY_INFORMATION)
    (hl : (env.directory rootObject).listing = some l)
    (h : ∀ info ∈ l, info.TypeName ≠ L "SymbolicLink" ∧ info.TypeName ≠ L "Section") :
    (isDirectory rootObject = true →
      ∃ w1, buildDependencyGraph env rootObject w = some ([], w1)) ∧
    (isDirectory rootObject = false →
      NT_SUCCESS (env.NtOpenFile w.calls rootObject) = false →
      ∃ w1, buildDependencyGraph env rootObject w = some ([], w1)) := by
  constructor
  · intro hdir
    unfold buildDependencyGraph
    rw [if_pos hdir]
    unfold DirectoryScript.listing at hl
    by_cases hopen : NT_SUCCESS (env.directory rootObject).openStatus = true
    · rw [if_pos hopen] at hl
      simp only [hopen, Bool.not_true, Bool.false_eq_true, if_false,
        dependencyQueryLoop_plain env rootObject _ l hl h]
      exact ⟨_, rfl⟩
    · have hopen2 : NT_SUCCESS (env.directory rootObject).openStatus = false := by
        simpa using hopen
      simp only [hopen2, Bool.not_false, if_true]
      exact ⟨w, rfl⟩
  · intro hdir hfile
    unfold buildDependencyGraph
    simp only [hdir, hfile, Bool.false_eq_true, if_false]
    exact ⟨_, rfl⟩

/-- C9, witness: `\BaseNamedObjects` holding an event and a mutant. -/
theorem buildDependencyGraph_without_links_and_sections_witness :
    isDirectory (L "\\BaseNamedObjects") = true ∧
    ((exampleServices [(L "A", L "Event"), (L "C", L "Mutant")]).directory
      (L "\\BaseNamedObjects")).listing = some [⟨L "A", L "Event"⟩, ⟨L "C", L "Mutant"⟩] ∧
    ∃ w1, buildDependencyGraph (exampleServices [(L "A", L "Event"), (L "C", L "Mutant")])
      (L "\\BaseNamedObjects") ⟨0, ⟨0, []⟩⟩ = some ([], w1) :=
  ⟨by decide, by decide,
   (buildDependencyGraph_without_links_and_sections
     (exampleServices [(L "A", L "Event"), (L "C", L "Mutant")]) (L "\\BaseNamedObjects")
     ⟨0, ⟨0, []⟩⟩ [⟨L "A", L "Event"⟩, ⟨L "C", L "Mutant"⟩] (by decide) (by decide)).1
     (by decide)⟩

/-! ## `std::map` as a list sorted by key -/

theorem mapFind_cons {β : Type} (k : WString) (v : β) (rest : List (WString × β))
    (key : WString) :
    mapFind ((k, v) :: rest) key = if key = k then some v else mapFind rest key := by
  unfold mapFind
  by_cases hk : key = k
  · subst hk
    simp [List.find?_cons, wstrLt_irrefl]
  · have hpred : (!wstrLt key k && !wstrLt k key) = false := by
      cases h1 : wstrLt key k with
      | true => simp
      | false =>
        cases h2 : wstrLt k key with
        | true => simp
        | false => exact absurd (wstrLt_total key k h1 h2) hk
    simp [List.find?_cons, hpred, hk]

theorem mapFind_of_lt_all {β : Type} (m : List (WString × β)) (key : WString)
    (h : ∀ x ∈ m, wstrLt key x.1 = true) : mapFind m key = none := by
  induction m with
  | nil => rfl
  | cons x rest ih =>
    obtain ⟨k, v⟩ := x
    have hk : wstrLt key k = true := h (k, v) (List.mem_cons_self _ _)
    have hne : key ≠ k := by
      intro heq
      rw [heq, wstrLt_irrefl] at hk
      exact absurd hk (by simp)
    rw [mapFind_cons, if_neg hne]
    exact ih (fun y hy => h y (List.mem_cons_of_mem _ hy))

theorem mapFind_mapModify {β : Type} (dflt : β) (f : β → β) (key : WString)
    (m : List (WString × β)) (hm : m.Pairwise (fun x y => wstrLt x.1 y.1 = true))
    (k1 : WString) :
    mapFind (mapModify dflt f key m) k1 =
      if k1 = key then some (f ((mapFind m key).getD dflt)) else mapFind m k1 := by
  induction m with
  | nil =>
    simp only [mapModify, mapFind_cons]
    rfl
  | cons x rest ih =>
    obtain ⟨k, v⟩ := x
    rw [List.pairwise_cons] at hm
    obtain ⟨hhead, hrest⟩ := hm
    unfold mapModify
    by_cases h1 : wstrLt key k = true
    · have hall : ∀ y ∈ (k, v) :: rest, wstrLt key y.1 = true := by
        intro y hy
        rcases List.mem_cons.1 hy with hy | hy
        · rw [hy]
          exact h1
        · exact wstrLt_trans key k y.1 h1 (hhead y hy)
      rw [if_pos h1, mapFind_cons, mapFind_of_lt_all _ key hall]
      rfl
    · have h1f : wstrLt key k = false := by simpa using h1
      rw [if_neg h1]
      by_cases h2 : wstrLt k key = true
      · have hne : key ≠ k := by
          intro heq
          rw [heq, wstrLt_irrefl] at h2
          exact absurd h2 (by simp)
        rw [if_pos h2, mapFind_cons, ih hrest, mapFind_cons, mapFind_cons, if_neg hne]
        by_cases hk1 : k1 = k
        · have hk1key : k1 ≠ key := fun h => hne (h.symm.trans hk1)
          rw [if_pos hk1, if_neg hk1key, if_pos hk1]
        · rw [if_neg hk1, if_neg hk1]
      · have h2f : wstrLt k key = false := by simpa using h2
        have heq : key = k := wstrLt_total key k h1f h2f
        subst heq
        rw [if_neg h2, mapFind_cons, mapFind_cons, mapFind_cons, if_pos rfl]
        by_cases hk1 : k1 = key
        · simp [hk1]
        · simp [hk1]

theorem key_of_mem_mapModify {β : Type} (dflt : β) (f : β → β) (key : WString)
    (m : List (WString × β)) (x : WString × β) (hx : x ∈ mapModify dflt f key m) :
    x.1 = key ∨ ∃ y ∈ m, y.1 = x.1 := by
  induction m with
  | nil =>
    simp only [mapModify, List.mem_singleton] at hx
    rw [hx]
    exact Or.inl rfl
  | cons y rest ih =>
    obtain ⟨k, v⟩ := y
    unfold mapModify at hx
    by_cases h1 : wstrLt key k = true
    · rw [if_pos h1] at hx
      rcases List.mem_cons.1 hx with hx | hx
      · rw [hx]
        exact Or.inl rfl
      · exact Or.inr ⟨x, hx, rfl⟩
    · rw [if_neg h1] at hx
      by_cases h2 : wstrLt k key = true
      · rw [if_pos h2] at hx
        rcases List.mem_cons.1 hx with hx | hx
        · exact Or.inr ⟨(k, v), List.mem_cons_self _ _, by rw [hx]⟩
        · rcases ih hx with h | ⟨z, hz, hzx⟩
          · exact Or.inl h
          · exact Or.inr ⟨z, List.mem_cons_of_mem _ hz, hzx⟩
      · rw [if_neg h2] at hx
        rcases List.mem_cons.1 hx with hx | hx
        · exact Or.inr ⟨(k, v), List.mem_cons_self _ _, by rw [hx]⟩
        · exact Or.inr ⟨x, List.mem_cons_of_mem _ hx, rfl⟩

theorem sorted_mapModify {β : Type} (dflt : β) (f : β → β) (key : WString)
    (m : List (WString × β)) (hm : m.Pairwise (fun x y => wstrLt x.1 y.1 = true)) :
    (mapModify dflt f key m).Pairwise (fun x y => wstrLt x.1 y.1 = true) := by
  induction m with
  | nil => simp [mapModify]
  | cons x rest ih =>
    obtain ⟨k, v⟩ := x
    rw [List.pairwise_cons] at hm
    obtain ⟨hhead, hrest⟩ := hm
    unfold mapModify
    by_cases h1 : wstrLt key k = true
    · rw [if_pos h1]
      refine List.Pairwise.cons ?_ (List.Pairwise.cons hhead hrest)
      intro y hy
      rcases List.mem_cons.1 hy with hy | hy
      · rw [hy]
        exact h1
      · exact wstrLt_trans key k y.1 h1 (hhead y hy)
    · have h1f : wstrLt key k = false := by simpa using h1
      rw [if_neg h1]
      by_cases h2 : wstrLt k key = true
      · rw [if_pos h2]
        refine List.Pairwise.cons ?_ (ih hrest)
        intro y hy
        rcases key_of_mem_mapModify dflt f key rest y hy with h | ⟨z, hz, hzy⟩
        · rw [h]
          exact h2
        · rw [← hzy]
          exact hhead z hz
      · rw [if_neg h2]
        exact List.Pairwise.cons hhead hrest

theorem mapFind_of_mem {β : Type} (m : List (WString × β))
    (hm : m.Pairwise (fun x y => wstrLt x.1 y.1 = true)) (x : WString × β) (hx : x ∈ m) :
    mapFind m x.1 = some x.2 := by
  induction m with
  | nil => exact absurd hx (List.not_mem_nil x)
  | cons y rest ih =>
    obtain ⟨k, v⟩ := y
    rw [List.pairwise_cons] at hm
    obtain ⟨hhead, hrest⟩ := hm
    rw [mapFind_cons]
    rcases List.mem_cons.1 hx with hx | hx
    · rw [hx]
      simp
    · have hlt : wstrLt k x.1 = true := hhead x hx
      have hne : x.1 ≠ k := by
        intro heq
        rw [heq, wstrLt_irrefl] at hlt
        exact absurd hlt (by simp)
      rw [if_neg hne]
      exact ih hrest hx

theorem sum_mapModify_succ (key : WString) (m : List (WString × Nat)) :
    ((mapModify 0 (fun n => n + 1) key m).map Prod.snd).sum = (m.map Prod.snd).sum + 1 := by
  induction m with
  | nil => simp [mapModify]
  | cons x rest ih =>
    obtain ⟨k, v⟩ := x
    unfold mapModify
    by_cases h1 : wstrLt key k = true
    · rw [if_pos h1]
      simp only [List.map_cons, List.sum_cons]
      omega
    · rw [if_neg h1]
      by_cases h2 : wstrLt k key = true
      · rw [if_pos h2]
        simp only [List.map_cons, List.sum_cons, ih]
        omega
      · rw [if_neg h2]
        simp only [List.map_cons, List.sum_cons]
        omega

/-! ## C10: the type histogram -/

theorem typeBufferLoop_append (xs ys : List OBJECT_DIRECTORY_INFORMATION)
    (statistics : List (WString × Nat)) :
    typeBufferLoop (xs ++ ys) statistics = typeBufferLoop ys (typeBufferLoop xs statistics) := by
  induction xs generalizing statistics with
  | nil => rfl
  | cons x xs ih => simp [typeBufferLoop, ih]

theorem typeBufferLoop_spec (entries : List OBJECT_DIRECTORY_INFORMATION)
    (statistics : List (WString × Nat))
    (hm : statistics.Pairwise (fun x y => wstrLt x.1 y.1 = true)) :
    (typeBufferLoop entries statistics).Pairwise (fun x y => wstrLt x.1 y.1 = true) ∧
    (∀ t, mapFind (typeBufferLoop entries statistics) t =
      if (entries.filter (fun info => decide (info.TypeName = t))).length = 0
      then mapFind statistics t
      else some ((mapFind statistics t).getD 0 +
        (entries.filter (fun info => decide (info.TypeName = t))).length)) ∧
    ((typeBufferLoop entries statistics).map Prod.snd).sum =
      (statistics.map Prod.snd).sum + entries.length := by
  induction entries generalizing statistics with
  | nil => simp [typeBufferLoop, hm]
  | cons e rest ih =>
    obtain ⟨hsorted, hfind, hsum⟩ := ih (mapModify 0 (fun n => n + 1) e.TypeName statistics)
      (sorted_mapModify 0 _ e.TypeName statistics hm)
    refine ⟨hsorted, ?_, ?_⟩
    · intro t
      simp only [typeBufferLoop]
      rw [hfind t, mapFind_mapModify 0 _ e.TypeName statistics hm t]
      by_cases ht : e.TypeName = t
      · subst ht
        simp only [List.filter_cons, decide_True, if_true, List.length_cons]
        by_cases hzero : (rest.filter (fun info => decide (info.TypeName = e.TypeName))).length = 0
        · simp [hzero]
        · simp only [hzero, if_false, Option.getD_some, Nat.add_one_ne_zero]
          congr 1
          omega
      · have ht2 : ¬ t = e.TypeName := fun h => ht h.symm
        simp only [List.filter_cons, ht, decide_False, Bool.false_eq_true, if_false, ht2]
    · simp only [typeBufferLoop]
      rw [hsum, sum_mapModify_succ]
      simp only [List.length_cons]
      omega

theorem typeQueryLoop_eq (responses : List QueryResponse) (statistics : List (WString × Nat)) :
    typeQueryLoop responses statistics =
      (listingOf responses).map (fun l => typeBufferLoop l statistics) := by
  induction responses generalizing statistics with
  | nil => rfl
  | cons r rs ih =>
    unfold typeQueryLoop listingOf
    by_cases hr : NT_SUCCESS r.status = true
    · have hne : r.status ≠ STATUS_NO_MORE_ENTRIES := ne_no_more_entries_of_success _ hr
      simp only [hr, hne, Bool.not_true, decide_False, Bool.or_self, Bool.false_eq_true,
        if_false, if_true, ih]
      cases listingOf rs with
      | none => rfl
      | some l => simp [typeBufferLoop_append]
    · have hr2 : NT_SUCCESS r.status = false := by simpa using hr
      simp [hr2, typeBufferLoop]

/-- C10. For a directory that opens and whose enumeration is a sequence of
successful answers followed by end-of-entries, `getTypeStatistics` returns, and
the map it returns is the histogram of the enumerated records: a type that
occurs `n > 0` times has the value `n`, a type that does not occur has no key,
every key of the map is a type that occurs, and the values sum to the number of
records. The example of the claim holds: `A` and `B` of type `Event` and `C` of
type `Mutant` give `Event ↦ 2`, `Mutant ↦ 1`. -/
theorem getTypeStatistics_is_histogram :
    (∀ (openStatus : NTSTATUS) (batches : List QueryResponse) (last : QueryResponse)
      (rest : List QueryResponse) (handles : HandleTable),
      NT_SUCCESS openStatus = true →
      (∀ r ∈ batches, NT_SUCCESS r.status = true) →
      last.status = STATUS_NO_MORE_ENTRIES →
      ∃ statistics table,
        getTypeStatistics ⟨openStatus, batches ++ last :: rest⟩ handles =
          some (statistics, table) ∧
        (∀ t, mapFind statistics t =
          if (((batches.map (fun r => scanBuffer r.buffer)).flatten).filter
                (fun info => decide (info.TypeName = t))).length = 0
          then none
          else some (((batches.map (fun r => scanBuffer r.buffer)).flatten).filter
                (fun info => decide (info.TypeName = t))).length) ∧
        (∀ kv ∈ statistics, 0 < kv.2 ∧
          kv.2 = (((batches.map (fun r => scanBuffer r.buffer)).flatten).filter
                (fun info => decide (info.TypeName = kv.1))).length) ∧
        (statistics.map Prod.snd).sum =
          ((batches.map (fun r => scanBuffer r.buffer)).flatten).length) ∧
    (∀ handles : HandleTable,
      (getTypeStatistics
        (exampleDir [(L "A", L "Event"), (L "B", L "Event"), (L "C", L "Mutant")])
        handles).map Prod.fst = some [(L "Event", 2), (L "Mutant", 1)]) := by
  constructor
  · intro openStatus batches last rest handles hopen hbatches hlast
    have hstop : NT_SUCCESS last.status = false := by
      rw [hlast]
      exact not_success_no_more_entries
    have hlisting := listingOf_append batches last rest hbatches hstop
    obtain ⟨hsorted, hfind, hsum⟩ := typeBufferLoop_spec
      ((batches.map (fun r => scanBuffer r.buffer)).flatten) [] List.Pairwise.nil
    refine ⟨typeBufferLoop ((batches.map (fun r => scanBuffer r.buffer)).flatten) [],
      (handles.acquire.1).release handles.acquire.2, ?_, ?_, ?_, ?_⟩
    · unfold getTypeStatistics
      simp only [hopen, if_true, typeQueryLoop_eq, hlisting, Option.map_some']
    · intro t
      rw [hfind t]
      by_cases hzero : (((batches.map (fun r => scanBuffer r.buffer)).flatten).filter
          (fun info => decide (info.TypeName = t))).length = 0
      · rw [if_pos hzero, if_pos hzero]
        rfl
      · rw [if_neg hzero, if_neg hzero]
        simp [mapFind]
    · intro kv hkv
      have hsome := mapFind_of_mem _ hsorted kv hkv
      rw [hfind kv.1] at hsome
      by_cases hzero : (((batches.map (fun r => scanBuffer r.buffer)).flatten).filter
          (fun info => decide (info.TypeName = kv.1))).length = 0
      · rw [if_pos hzero] at hsome
        simp [mapFind] at hsome
      · rw [if_neg hzero] at hsome
        simp only [mapFind, List.find?_nil, Option.map_none', Option.getD_none, Nat.zero_add,
          Option.some.injEq] at hsome
        omega
    · rw [hsum]
      simp
  · intro handles
    unfold getTypeStatistics
    have hq : typeQueryLoop
        (exampleDir [(L "A", L "Event"), (L "B", L "Event"), (L "C", L "Mutant")]).responses [] =
        some [(L "Event", 2), (L "Mutant", 1)] := by decide
    have ho : NT_SUCCESS
        (exampleDir [(L "A", L "Event"), (L "B", L "Event"), (L "C", L "Mutant")]).openStatus =
        true := by decide
    simp only [ho, if_true, hq, Option.map_some']

/-- C10, witness: one answer with `A`, `B`, `C`, then end-of-entries. -/
theorem getTypeStatistics_is_histogram_witness :
    NT_SUCCESS 0 = true ∧
    (∀ r ∈ [(⟨0, [⟨L "A", L "Event"⟩, ⟨L "B", L "Event"⟩, ⟨L "C", L "Mutant"⟩]⟩ :
        QueryResponse)], NT_SUCCESS r.status = true) ∧
    ∃ statistics table,
      getTypeStatistics
        ⟨0, [⟨0, [⟨L "A", L "Event"⟩, ⟨L "B", L "Event"⟩, ⟨L "C", L "Mutant"⟩]⟩] ++
          ⟨STATUS_NO_MORE_ENTRIES, []⟩ :: []⟩ ⟨0, []⟩ = some (statistics, table) ∧
      mapFind statistics (L "Event") = some 2 ∧
      mapFind statistics (L "Mutant") = some 1 ∧
      mapFind statistics (L "Section") = none ∧
      (statistics.map Prod.snd).sum = 3 :=
  ⟨by decide, by decide,
   by
    obtain ⟨statistics, table, hget, hfind, _, hsum⟩ :=
      getTypeStatistics_is_histogram.1 0
        [⟨0, [⟨L "A", L "Event"⟩, ⟨L "B", L "Event"⟩, ⟨L "C", L "Mutant"⟩]⟩]
        ⟨STATUS_NO_MORE_ENTRIES, []⟩ [] ⟨0, []⟩ (by decide) (by decide) rfl
    refine ⟨statistics, table, hget, ?_, ?_, ?_, ?_⟩
    · rw [hfind (L "Event")]
      decide
    · rw [hfind (L "Mutant")]
      decide
    · rw [hfind (L "Section")]
      decide
    · rw [hsum]
      decide⟩

/-! ## C11, C12: what `listObjects` writes -/

theorem wcontains_singleton (c : Nat) (s : WString) : wcontains [c] s = true ↔ c ∈ s := by
  induction s with
  | nil => simp [wcontains, List.isPrefixOf]
  | cons x xs ih =>
    simp only [wcontains, List.isPrefixOf, Bool.or_eq_true, Bool.and_eq_true, beq_iff_eq, ih,
      List.mem_cons]
    constructor
    · rintro (⟨h, _⟩ | h)
      · exact Or.inl h
      · exact Or.inr h
    · rintro (h | h)
      · exact Or.inl ⟨h, trivial⟩
      · exact Or.inr h

theorem printable_iff (objName : WString) :
    printable objName = true ↔
      58 ∉ objName ∧ 47 ∉ objName ∧ 92 ∉ objName ∧ objName.length < 260 := by
  have h1 : L ":" = [58] := by decide
  have h2 : L "/" = [47] := by decide
  have h3 : L "\\" = [92] := by decide
  unfold printable
  rw [h1, h2, h3]
  simp only [Bool.and_eq_true, Bool.not_eq_true', decide_eq_true_eq]
  rw [← Bool.not_eq_true, ← Bool.not_eq_true, ← Bool.not_eq_true, wcontains_singleton,
    wcontains_singleton, wcontains_singleton]
  tauto

theorem listBufferLoop_eq (path filterType : WString)
    (l : List OBJECT_DIRECTORY_INFORMATION) (out : List WString) :
    listBufferLoop path filterType l out =
      out ++ (l.filter (fun dirInfo =>
        passesFilter filterType dirInfo.TypeName && printable dirInfo.Name)).map
          (objectLine path) := by
  induction l generalizing out with
  | nil => simp [listBufferLoop]
  | cons dirInfo rest ih =>
    unfold listBufferLoop
    rw [ih]
    by_cases h1 : passesFilter filterType dirInfo.TypeName = true
    · by_cases h2 : printable dirInfo.Name = true
      · simp [List.filter_cons, h1, h2]
      · simp [List.filter_cons, h1, h2]
    · simp [List.filter_cons, h1]

theorem listQueryLoop_eq (path filterType : WString) (responses : List QueryResponse)
    (out : List WString) :
    listQueryLoop path filterType responses out =
      (rawListingOf responses).map (fun l => listBufferLoop path filterType l out) := by
  induction responses generalizing out with
  | nil => rfl
  | cons r rs ih =>
    unfold listQueryLoop rawListingOf
    by_cases hr : r.status = STATUS_NO_MORE_ENTRIES
    · simp [hr, listBufferLoop]
    · simp only [hr, if_false, ih]
      cases rawListingOf rs with
      | none => rfl
      | some l =>
        simp only [Option.map_some', Option.some.injEq]
        rw [listBufferLoop_eq, listBufferLoop_eq, listBufferLoop_eq]
        simp

theorem listObjects_of_rawListing (dir : DirectoryScript) (path filterType : WString)
    (recursive : Bool) (handles : HandleTable) (l : List OBJECT_DIRECTORY_INFORMATION)
    (hopen : NT_SUCCESS dir.openStatus = true) (hraw : rawListingOf dir.responses = some l) :
    ∃ table, listObjects dir path filterType recursive handles =
      some ({ out := listBufferLoop path filterType l [], err := [] }, table) := by
  unfold listObjects
  simp only [hopen, Bool.not_true, Bool.false_eq_true, if_false, listQueryLoop_eq, hraw,
    Option.map_some']
  exact ⟨_, rfl⟩

/-- C11. Whatever the enumeration and the type filter, a record whose name holds
a `\` or a `/` does not show in what `listObjects` writes: the output is the one
the records before it and after it give alone, nothing is written to
`std::wcerr`, and the method returns. -/
theorem listObjects_excludes_separator_names (dir : DirectoryScript)
    (path filterType : WString) (recursive : Bool) (handles : HandleTable)
    (pre post : List OBJECT_DIRECTORY_INFORMATION) (dirInfo : OBJECT_DIRECTORY_INFORMATION)
    (hopen : NT_SUCCESS dir.openStatus = true)
    (hraw : rawListingOf dir.responses = some (pre ++ dirInfo :: post))
    (hsep : 92 ∈ dirInfo.Name ∨ 47 ∈ dirInfo.Name) :
    ∃ table, listObjects dir path filterType recursive handles =
      some ({ out := listBufferLoop path filterType (pre ++ post) [], err := [] }, table) := by
  obtain ⟨table, htable⟩ := listObjects_of_rawListing dir path filterType recursive handles
    (pre ++ dirInfo :: post) hopen hraw
  refine ⟨table, ?_⟩
  rw [htable]
  have hnot : printable dirInfo.Name = false := by
    cases hp : printable dirInfo.Name with
    | false => rfl
    | true =>
      have := (printable_iff dirInfo.Name).1 hp
      rcases hsep with h | h
      · exact absurd h this.2.2.1
      · exact absurd h this.2.1
  rw [listBufferLoop_eq, listBufferLoop_eq]
  simp [List.filter_cons, hnot]

/-- C11, witness: `A`, then `B\C`, then `D` in `\BaseNamedObjects`. -/
theorem listObjects_excludes_separator_names_witness :
    ∃ table, listObjects
        (exampleDir [(L "A", L "Event"), (L "B\\C", L "Event"), (L "D", L "Mutant")])
        (L "\\BaseNamedObjects") [] false ⟨0, []⟩ =
      some ({ out := listBufferLoop (L "\\BaseNamedObjects") []
                ([⟨L "A", L "Event"⟩] ++ [⟨L "D", L "Mutant"⟩]) [],
              err := [] }, table) :=
  listObjects_excludes_separator_names
    (exampleDir [(L "A", L "Event"), (L "B\\C", L "Event"), (L "D", L "Mutant")])
    (L "\\BaseNamedObjects") [] false ⟨0, []⟩ [⟨L "A", L "Event"⟩] [⟨L "D", L "Mutant"⟩]
    ⟨L "B\\C", L "Event"⟩ (by decide) (by decide) (Or.inl (by decide))

/-- C12, as amended. For every enumeration and every type filter, `listObjects`
writes one line, in enumeration order, for every enumerated record that passes
the type filter, unless its name holds a `:`, a `/` or a `\` or is 260
characters long or longer; no record is dropped for any other reason. -/
theorem listObjects_drops_nothing_else (dir : DirectoryScript) (path filterType : WString)
    (recursive : Bool) (handles : HandleTable) (l : List OBJECT_DIRECTORY_INFORMATION)
    (hopen : NT_SUCCESS dir.openStatus = true) (hraw : rawListingOf dir.responses = some l) :
    ∃ table, listObjects dir path filterType recursive handles =
      some ({ out := (l.filter (fun dirInfo =>
                  (filterType.isEmpty || decide (dirInfo.TypeName = filterType)) &&
                  decide (58 ∉ dirInfo.Name ∧ 47 ∉ dirInfo.Name ∧ 92 ∉ dirInfo.Name ∧
                    dirInfo.Name.length < 260))).map (objectLine path),
              err := [] }, table) := by
  obtain ⟨table, htable⟩ := listObjects_of_rawListing dir path filterType recursive handles
    l hopen hraw
  refine ⟨table, ?_⟩
  rw [htable, listBufferLoop_eq, List.nil_append]
  have hfilter : l.filter (fun dirInfo =>
        passesFilter filterType dirInfo.TypeName && printable dirInfo.Name) =
      l.filter (fun dirInfo =>
        (filterType.isEmpty || decide (dirInfo.TypeName = filterType)) &&
        decide (58 ∉ dirInfo.Name ∧ 47 ∉ dirInfo.Name ∧ 92 ∉ dirInfo.Name ∧
          dirInfo.Name.length < 260)) := by
    apply List.filter_congr
    intro dirInfo _
    have hp := printable_iff dirInfo.Name
    unfold passesFilter
    cases hprint : printable dirInfo.Name with
    | true =>
      have := hp.1 hprint
      simp [this]
    | false =>
      have hneg : ¬ (58 ∉ dirInfo.Name ∧ 47 ∉ dirInfo.Name ∧ 92 ∉ dirInfo.Name ∧
          dirInfo.Name.length < 260) := by
        intro h
        rw [hp.2 h] at hprint
        exact absurd hprint (by simp)
      simp only [Bool.and_false, hneg, decide_False]
  rw [hfilter]

/-- C12, witness: the event `A` and the link `C:` in `\GLOBAL??`. -/
theorem listObjects_drops_nothing_else_witness :
    ∃ table, listObjects (exampleDir [(L "A", L "Event"), (L "C:", L "SymbolicLink")])
        (L "\\GLOBAL??") [] false ⟨0, []⟩ =
      some ({ out := ([(⟨L "A", L "Event"⟩ : OBJECT_DIRECTORY_INFORMATION),
                  ⟨L "C:", L "SymbolicLink"⟩].filter (fun dirInfo =>
                  (([] : WString).isEmpty || decide (dirInfo.TypeName = [])) &&
                  decide (58 ∉ dirInfo.Name ∧ 47 ∉ dirInfo.Name ∧ 92 ∉ dirInfo.Name ∧
                    dirInfo.Name.length < 260))).map (objectLine (L "\\GLOBAL??")),
              err := [] }, table) :=
  listObjects_drops_nothing_else (exampleDir [(L "A", L "Event"), (L "C:", L "SymbolicLink")])
    (L "\\GLOBAL??") [] false ⟨0, []⟩ [⟨L "A", L "Event"⟩, ⟨L "C:", L "SymbolicLink"⟩]
    (by decide) (by decide)

set_option maxRecDepth 20000 in
/-- C12, counterexample: with no type filter, the link `C:` and a name of 260
letters `A` hold no `\` and no `/` and are not longer than 260 characters, and
`listObjects` writes no line for them. -/
theorem listObjects_drops_colon_and_length_260 :
    (92 ∉ L "C:" ∧ 47 ∉ L "C:" ∧ ¬ 260 < (L "C:").length) ∧
    (92 ∉ List.replicate 260 65 ∧ 47 ∉ List.replicate 260 65 ∧
      ¬ 260 < (List.replicate 260 65).length) ∧
    (listObjects (exampleDir [(L "C:", L "SymbolicLink"), (List.replicate 260 65, L "Event")])
        (L "\\GLOBAL??") [] false ⟨0, []⟩).map (fun r => r.1.out) = some [] := by
  decide

/-! ## C13, C14, C15: `getObjectNames` -/

theorem namesBufferLoop_eq (filterType : WString) (l : List OBJECT_DIRECTORY_INFORMATION)
    (objectNames : List Obj) :
    namesBufferLoop filterType l objectNames =
      objectNames ++ (l.filter (fun dirInfo => passesFilter filterType dirInfo.TypeName)).map
        OBJECT_DIRECTORY_INFORMATION.pair := by
  induction l generalizing objectNames with
  | nil => simp [namesBufferLoop]
  | cons dirInfo rest ih =>
    unfold namesBufferLoop
    rw [ih]
    by_cases h1 : passesFilter filterType dirInfo.TypeName = true
    · simp [List.filter_cons, h1, OBJECT_DIRECTORY_INFORMATION.pair]
    · simp [List.filter_cons, h1]

theorem namesQueryLoop_eq (filterType : WString) (responses : List QueryResponse)
    (objectNames : List Obj) :
    (namesQueryLoop filterType responses objectNames).map Prod.fst =
      (listingOf responses).map (fun l => namesBufferLoop filterType l objectNames) := by
  induction responses generalizing objectNames with
  | nil => rfl
  | cons r rs ih =>
    unfold namesQueryLoop listingOf
    by_cases hr : NT_SUCCESS r.status = true
    · have hne : r.status ≠ STATUS_NO_MORE_ENTRIES := ne_no_more_entries_of_success _ hr
      simp only [hne, if_false, hr, Bool.not_true, Bool.false_eq_true, if_true, ih]
      cases listingOf rs with
      | none => rfl
      | some l =>
        simp only [Option.map_some', Option.some.injEq]
        rw [namesBufferLoop_eq, namesBufferLoop_eq, namesBufferLoop_eq]
        simp
    · have hr2 : NT_SUCCESS r.status = false := by simpa using hr
      by_cases hend : r.status = STATUS_NO_MORE_ENTRIES
      · rw [if_pos hend]
        simp [hr2, namesBufferLoop]
      · rw [if_neg hend]
        simp [hr2, namesBufferLoop]

theorem getObjectNames_of_listing (dir : DirectoryScript) (path filterType : WString)
    (handles : HandleTable) (l : List OBJECT_DIRECTORY_INFORMATION)
    (hl : dir.listing = some l) :
    ∃ err table, getObjectNames dir path filterType handles =
      some ((l.filter (fun dirInfo => passesFilter filterType dirInfo.TypeName)).map
        OBJECT_DIRECTORY_INFORMATION.pair, err, table) := by
  unfold DirectoryScript.listing at hl
  unfold getObjectNames
  by_cases hopen : NT_SUCCESS dir.openStatus = true
  · rw [if_pos hopen] at hl
    have hq := namesQueryLoop_eq filterType dir.responses []
    rw [hl] at hq
    simp only [hopen, Bool.not_true, Bool.false_eq_true, if_false]
    cases hloop : namesQueryLoop filterType dir.responses [] with
    | none =>
      rw [hloop] at hq
      simp at hq
    | some r =>
      obtain ⟨objectNames, err⟩ := r
      rw [hloop] at hq
      simp only [Option.map_some', Option.some.injEq] at hq
      rw [namesBufferLoop_eq, List.nil_append] at hq
      simp only
      rw [hq]
      exact ⟨_, _, rfl⟩
  · rw [if_neg hopen] at hl
    have hl2 : l = [] := by
      injection hl with hl
      exact hl.symm
    have hopen2 : NT_SUCCESS dir.openStatus = false := by simpa using hopen
    subst hl2
    simp only [hopen2, Bool.not_false, if_true]
    exact ⟨_, _, rfl⟩

/-- C13. For every enumeration and every filter string `f`, `getObjectNames`
returns: with a filter that is not empty, the `(name, type)` pairs of exactly the
enumerated records whose type equals `f`, in enumeration order; with the empty
filter, the pairs of all enumerated records. -/
theorem getObjectNames_returns_matching_entries (dir : DirectoryScript)
    (path filterType : WString) (handles : HandleTable)
    (l : List OBJECT_DIRECTORY_INFORMATION) (hl : dir.listing = some l) :
    ∃ objectNames err table,
      getObjectNames dir path filterType handles = some (objectNames, err, table) ∧
      (filterType ≠ [] →
        objectNames = (l.filter (fun dirInfo => decide (dirInfo.TypeName = filterType))).map
          OBJECT_DIRECTORY_INFORMATION.pair) ∧
      (filterType = [] → objectNames = l.map OBJECT_DIRECTORY_INFORMATION.pair) := by
  obtain ⟨err, table, hget⟩ := getObjectNames_of_listing dir path filterType handles l hl
  refine ⟨_, err, table, hget, ?_, ?_⟩
  · intro hne
    congr 1
    apply List.filter_congr
    intro dirInfo _
    cases filterType with
    | nil => exact absurd rfl hne
    | cons c cs => simp [passesFilter]
  · intro hnil
    subst hnil
    simp [passesFilter]

/-- C13, witness: the filter `Event` over `A`, `B` of type `Event` and `C` of
type `Mutant`. -/
theorem getObjectNames_returns_matching_entries_witness :
    L "Event" ≠ [] ∧
    ∃ objectNames err table,
      getObjectNames
        (exampleDir [(L "A", L "Event"), (L "C", L "Mutant"), (L "B", L "Event")])
        (L "\\BaseNamedObjects") (L "Event") ⟨0, []⟩ = some (objectNames, err, table) ∧
      objectNames = [(L "A", L "Event"), (L "B", L "Event")] := by
  refine ⟨by decide, ?_⟩
  obtain ⟨objectNames, err, table, hget, hfilter, _⟩ :=
    getObjectNames_returns_matching_entries
      (exampleDir [(L "A", L "Event"), (L "C", L "Mutant"), (L "B", L "Event")])
      (L "\\BaseNamedObjects") (L "Event") ⟨0, []⟩
      [⟨L "A", L "Event"⟩, ⟨L "C", L "Mutant"⟩, ⟨L "B", L "Event"⟩] (by decide)
  refine ⟨objectNames, err, table, hget, ?_⟩
  rw [hfilter (by decide)]
  decide

/-- C14. When the directory cannot be opened, whatever the path and the failure
status, the three calls return, and they return nothing: `getObjectNames` the
empty vector, `getTypeStatistics` the empty map, and `buildDependencyGraph`, for
a path it takes for a directory, the empty vector. No handle is opened. -/
theorem open_failure_gives_empty_result (openStatus : NTSTATUS)
    (responses : List QueryResponse) (path filterType : WString) (handles : HandleTable)
    (hfail : NT_SUCCESS openStatus = false) :
    getObjectNames ⟨openStatus, responses⟩ path filterType handles =
      some ([], [L "Failed to open directory: " ++ path], handles) ∧
    getTypeStatistics ⟨openStatus, responses⟩ handles = some ([], handles) ∧
    (∀ (env : AnalyzerEnv) (w : World), isDirectory path = true →
      env.directory path = ⟨openStatus, responses⟩ →
      buildDependencyGraph env path w = some ([], w)) := by
  refine ⟨?_, ?_, ?_⟩
  · simp [getObjectNames, hfail]
  · simp [getTypeStatistics, hfail]
  · intro env w hdir henv
    simp [buildDependencyGraph, hdir, henv, hfail]

/-- C14, witness: `STATUS_OBJECT_NAME_NOT_FOUND` for `\BaseNamedObjects\Missing`. -/
theorem open_failure_gives_empty_result_witness :
    NT_SUCCESS (toNTSTATUS 0xC0000034) = false ∧
    getObjectNames ⟨toNTSTATUS 0xC0000034, []⟩ (L "\\BaseNamedObjects\\Missing") []
        ⟨0, []⟩ =
      some ([], [L "Failed to open directory: " ++ L "\\BaseNamedObjects\\Missing"],
        ⟨0, []⟩) ∧
    getTypeStatistics ⟨toNTSTATUS 0xC0000034, []⟩ ⟨0, []⟩ = some ([], ⟨0, []⟩) :=
  ⟨by decide,
   (open_failure_gives_empty_result (toNTSTATUS 0xC0000034) []
      (L "\\BaseNamedObjects\\Missing") [] ⟨0, []⟩ (by decide)).1,
   (open_failure_gives_empty_result (toNTSTATUS 0xC0000034) []
      (L "\\BaseNamedObjects\\Missing") [] ⟨0, []⟩ (by decide)).2.1⟩

/-- C15. When the directory opens and a sequence of successful answers is
followed by an answer that is not a success, `getObjectNames` returns exactly the
filter-matching records of the answers before it and `getTypeStatistics` exactly
their histogram. Neither asks for a further answer: the result is the same
whatever follows the failure, and is there when nothing follows. -/
theorem query_failure_returns_accumulated (openStatus : NTSTATUS)
    (batches : List QueryResponse) (failure : QueryResponse) (rest : List QueryResponse)
    (path filterType : WString) (handles : HandleTable)
    (hopen : NT_SUCCESS openStatus = true)
    (hbatches : ∀ r ∈ batches, NT_SUCCESS r.status = true)
    (hfailure : NT_SUCCESS failure.status = false) :
    (∃ err table, getObjectNames ⟨openStatus, batches ++ failure :: rest⟩ path filterType
        handles =
      some ((((batches.map (fun r => scanBuffer r.buffer)).flatten).filter
          (fun dirInfo => passesFilter filterType dirInfo.TypeName)).map
            OBJECT_DIRECTORY_INFORMATION.pair, err, table)) ∧
    (∃ statistics table,
      getTypeStatistics ⟨openStatus, batches ++ failure :: rest⟩ handles =
        some (statistics, table) ∧
      getTypeStatistics ⟨openStatus, batches ++ [failure]⟩ handles =
        some (statistics, table) ∧
      ∀ t, mapFind statistics t =
        if (((batches.map (fun r => scanBuffer r.buffer)).flatten).filter
              (fun info => decide (info.TypeName = t))).length = 0
        then none
        else some (((batches.map (fun r => scanBuffer r.buffer)).flatten).filter
              (fun info => decide (info.TypeName = t))).length) := by
  have hlisting := listingOf_append batches failure rest hbatches hfailure
  have hlisting2 := listingOf_append batches failure [] hbatches hfailure
  constructor
  · apply getObjectNames_of_listing
    unfold DirectoryScript.listing
    simp only [hopen, if_true, hlisting]
  · obtain ⟨_, hfind, _⟩ := typeBufferLoop_spec
      ((batches.map (fun r => scanBuffer r.buffer)).flatten) [] List.Pairwise.nil
    refine ⟨typeBufferLoop ((batches.map (fun r => scanBuffer r.buffer)).flatten) [],
      (handles.acquire.1).release handles.acquire.2, ?_, ?_, ?_⟩
    · unfold getTypeStatistics
      simp only [hopen, if_true, typeQueryLoop_eq, hlisting, Option.map_some']
    · unfold getTypeStatistics
      simp only [hopen, if_true, typeQueryLoop_eq, hlisting2, Option.map_some']
    · intro t
      rw [hfind t]
      by_cases hzero : (((batches.map (fun r => scanBuffer r.buffer)).flatten).filter
          (fun info => decide (info.TypeName = t))).length = 0
      · rw [if_pos hzero, if_pos hzero]
        rfl
      · rw [if_neg hzero, if_neg hzero]
        simp [mapFind]

/-- C15, witness: one answer with `A` and `C`, then `STATUS_BUFFER_TOO_SMALL`. -/
theorem query_failure_returns_accumulated_witness :
    NT_SUCCESS 0 = true ∧ NT_SUCCESS (toNTSTATUS 0xC0000023) = false ∧
    ∃ err table, getObjectNames
        ⟨0, [⟨0, [⟨L "A", L "Event"⟩, ⟨L "C", L "Mutant"⟩]⟩] ++
          ⟨toNTSTATUS 0xC0000023, []⟩ :: []⟩ (L "\\BaseNamedObjects") (L "Event") ⟨0, []⟩ =
      some (((([(⟨0, [⟨L "A", L "Event"⟩, ⟨L "C", L "Mutant"⟩]⟩ : QueryResponse)].map
          (fun r => scanBuffer r.buffer)).flatten).filter
          (fun dirInfo => passesFilter (L "Event") dirInfo.TypeName)).map
            OBJECT_DIRECTORY_INFORMATION.pair, err, table) :=
  ⟨by decide, by decide,
   (query_failure_returns_accumulated 0 [⟨0, [⟨L "A", L "Event"⟩, ⟨L "C", L "Mutant"⟩]⟩]
      ⟨toNTSTATUS 0xC0000023, []⟩ [] (L "\\BaseNamedObjects") (L "Event") ⟨0, []⟩
      (by decide) (by decide) (by decide)).1⟩

/-! ## C16: the loop of `listObjects` and a failed query -/

theorem listQueryLoop_of_failures (path filterType : WString) (failure : QueryResponse)
    (hne : failure.status ≠ STATUS_NO_MORE_ENTRIES) (n : Nat) (out : List WString) :
    listQueryLoop path filterType (List.replicate n failure) out = none := by
  induction n generalizing out with
  | zero => rfl
  | succ n ih =>
    rw [List.replicate_succ]
    unfold listQueryLoop
    rw [if_neg hne]
    exact ih _

/-- C16, the code at the failing input. The directory opens and the queries are
answered with the record `A`, then with `STATUS_BUFFER_TOO_SMALL` over the same
buffer, then with end-of-entries: `listObjects` writes the line of `A` twice,
having scanned the buffer again at the failure. When nothing follows the failure
it has no result, because it asks for a further answer; and as long as the
failure is all the service answers, however often, it does not return.
`getObjectNames` on the same answers returns `A` once and reports the failure. -/
theorem listObjects_does_not_stop_at_failure :
    (listObjects ⟨0, [⟨0, [⟨L "A", L "Event"⟩]⟩,
        ⟨toNTSTATUS 0xC0000023, [⟨L "A", L "Event"⟩]⟩, ⟨STATUS_NO_MORE_ENTRIES, []⟩]⟩
        (L "\\BaseNamedObjects") [] false ⟨0, []⟩).map (fun r => r.1.out) =
      some [objectLine (L "\\BaseNamedObjects") ⟨L "A", L "Event"⟩,
            objectLine (L "\\BaseNamedObjects") ⟨L "A", L "Event"⟩] ∧
    listObjects ⟨0, [⟨0, [⟨L "A", L "Event"⟩]⟩,
        ⟨toNTSTATUS 0xC0000023, [⟨L "A", L "Event"⟩]⟩]⟩
        (L "\\BaseNamedObjects") [] false ⟨0, []⟩ = none ∧
    (∀ (n : Nat) (path filterType : WString) (handles : HandleTable),
      listObjects ⟨0, List.replicate n ⟨toNTSTATUS 0xC0000023, []⟩⟩ path filterType false
        handles = none) ∧
    getObjectNames ⟨0, [⟨0, [⟨L "A", L "Event"⟩]⟩,
        ⟨toNTSTATUS 0xC0000023, [⟨L "A", L "Event"⟩]⟩]⟩
        (L "\\BaseNamedObjects") [] ⟨0, []⟩ =
      some ([(L "A", L "Event")], [L "Failed to query directory object."], ⟨1, []⟩) := by
  refine ⟨by decide, by decide, ?_, by decide⟩
  intro n path filterType handles
  have hne : (⟨toNTSTATUS 0xC0000023, []⟩ : QueryResponse).status ≠ STATUS_NO_MORE_ENTRIES := by
    decide
  have hopen : NT_SUCCESS (0 : NTSTATUS) = true := by decide
  unfold listObjects
  simp only [hopen, Bool.not_true, Bool.false_eq_true, if_false,
    listQueryLoop_of_failures path filterType _ hne n []]

/-! ## C17: the edge of a symbolic link -/

theorem fullPathOf_eq (rootObject objName : WString) :
    fullPathOf rootObject objName =
      (if rootObject.getLast? = some 92 then rootObject else rootObject ++ [92]) ++ objName := by
  have h : L "\\" = [92] := by decide
  unfold fullPathOf
  rw [h]
  by_cases hlast : rootObject.getLast? = some 92
  · simp [hlast]
  · simp [hlast]

theorem release_acquire (handles : HandleTable) :
    (handles.acquire.1.release handles.acquire.2).opened = handles.opened := by
  simp [HandleTable.acquire, HandleTable.release]

/-- In the loop of the directory mode, a record of type `SymbolicLink` adds one
edge or none and the loop goes on with the next record. -/
theorem dependencyBufferLoop_cons_link (env : AnalyzerEnv)
    (rootObject : WString) (dirInfo : OBJECT_DIRECTORY_INFORMATION)
    (rest : List OBJECT_DIRECTORY_INFORMATION) (dependencies : List ObjectDependency)
    (w : World) (htype : dirInfo.TypeName = L "SymbolicLink") :
    ∃ w1 : World,
      dependencyBufferLoop env rootObject (dirInfo :: rest) dependencies w =
        dependencyBufferLoop env rootObject rest
          (dependencies ++
            (if NT_SUCCESS (env.NtOpenSymbolicLinkObject w.calls
                  ((if rootObject.getLast? = some 92 then rootObject
                    else rootObject ++ [92]) ++ dirInfo.Name)) = true ∧
                NT_SUCCESS (env.NtQuerySymbolicLinkObject (w.calls + 1)
                  ((if rootObject.getLast? = some 92 then rootObject
                    else rootObject ++ [92]) ++ dirInfo.Name)).1 = true
             then [{ sourceObject := (if rootObject.getLast? = some 92 then rootObject
                                      else rootObject ++ [92]) ++ dirInfo.Name,
                     targetObject := (env.NtQuerySymbolicLinkObject (w.calls + 1)
                       ((if rootObject.getLast? = some 92 then rootObject
                         else rootObject ++ [92]) ++ dirInfo.Name)).2,
                     dependencyType := L "SymbolicLink" }]
             else [])) w1 ∧
      w1.calls = w.calls +
        (if NT_SUCCESS (env.NtOpenSymbolicLinkObject w.calls
              ((if rootObject.getLast? = some 92 then rootObject
                else rootObject ++ [92]) ++ dirInfo.Name)) = true then 2 else 1) ∧
      w1.handles.opened = w.handles.opened := by
  rw [← fullPathOf_eq]
  simp only [dependencyBufferLoop, htype, if_true]
  unfold symbolicLinkBranch
  by_cases hopen : NT_SUCCESS (env.NtOpenSymbolicLinkObject w.calls
      (fullPathOf rootObject dirInfo.Name)) = true
  · by_cases hread : NT_SUCCESS (env.NtQuerySymbolicLinkObject (w.calls + 1)
        (fullPathOf rootObject dirInfo.Name)).1 = true
    · simp only [hopen, hread, if_true, and_self]
      exact ⟨{ calls := w.calls + 1 + 1,
               handles := w.handles.acquire.1.release w.handles.acquire.2 },
        rfl, rfl, release_acquire w.handles⟩
    · simp only [hopen, hread, if_true, if_false, and_false, List.append_nil,
        Bool.false_eq_true]
      exact ⟨{ calls := w.calls + 1 + 1,
               handles := w.handles.acquire.1.release w.handles.acquire.2 },
        rfl, rfl, release_acquire w.handles⟩
  · simp only [hopen, if_false, false_and, List.append_nil, Bool.false_eq_true]
    exact ⟨{ w with calls := w.calls + 1 }, rfl, rfl, rfl⟩

theorem processLoop_kinds (env : AnalyzerEnv) (fullPath : WString) (ids : List Nat)
    (dependencies : List ObjectDependency) (w : World) :
    ∃ extra, (processLoop env fullPath ids dependencies w).1 = dependencies ++ extra ∧
      ∀ e ∈ extra, e.dependencyType = L "SharedMemory" := by
  induction ids generalizing dependencies w with
  | nil => exact ⟨[], by simp [processLoop], fun e he => absurd he (List.not_mem_nil e)⟩
  | cons pid rest ih =>
    simp only [processLoop]
    by_cases hproc : env.OpenProcess w.calls pid = true
    · by_cases hsec : NT_SUCCESS (env.NtOpenSection (w.calls + 1) fullPath) = true
      · simp only [hproc, hsec, if_true]
        obtain ⟨extra, hextra, hkind⟩ := ih
          (dependencies ++ [{ sourceObject := fullPath,
                              targetObject := L "Process:" ++ to_wstring pid,
                              dependencyType := L "SharedMemory" }])
          { calls := w.calls + 1 + 1,
            handles := (w.handles.acquire.1.acquire.1.release
              w.handles.acquire.1.acquire.2).release w.handles.acquire.2 }
        refine ⟨{ sourceObject := fullPath,
                  targetObject := L "Process:" ++ to_wstring pid,
                  dependencyType := L "SharedMemory" } :: extra, ?_, ?_⟩
        · rw [hextra]
          simp
        · intro e he
          rcases List.mem_cons.1 he with h | h
          · rw [h]
          · exact hkind e h
      · simp only [hproc, hsec, if_true, if_false, Bool.false_eq_true]
        exact ih _ _
    · simp only [hproc, if_false, Bool.false_eq_true]
      exact ih _ _

theorem sectionBranch_kinds (env : AnalyzerEnv) (fullPath : WString)
    (dependencies : List ObjectDependency) (w : World) :
    ∃ extra, (sectionBranch env fullPath dependencies w).1 = dependencies ++ extra ∧
      ∀ e ∈ extra, e.dependencyType = L "SharedMemory" := by
  unfold sectionBranch
  cases henum : env.EnumProcesses w.calls (1024 * (4 * env.pointerWords)) with
  | none => exact ⟨[], by simp, fun e he => absurd he (List.not_mem_nil e)⟩
  | some written => exact processLoop_kinds env fullPath _ dependencies _

theorem symbolicLinkBranch_edges (env : AnalyzerEnv) (fullPath : WString)
    (dependencies : List ObjectDependency) (w : World)
    (hopen : ∀ k p, env.NtOpenSymbolicLinkObject k p = env.NtOpenSymbolicLinkObject 0 p)
    (hread : ∀ k p, env.NtQuerySymbolicLinkObject k p = env.NtQuerySymbolicLinkObject 0 p) :
    (symbolicLinkBranch env fullPath dependencies w).1 =
      dependencies ++
        (if NT_SUCCESS (env.NtOpenSymbolicLinkObject 0 fullPath) = true ∧
            NT_SUCCESS (env.NtQuerySymbolicLinkObject 0 fullPath).1 = true
         then [{ sourceObject := fullPath,
                 targetObject := (env.NtQuerySymbolicLinkObject 0 fullPath).2,
                 dependencyType := L "SymbolicLink" }]
         else []) := by
  have ho := hopen w.calls fullPath
  have hr := hread (w.calls + 1) fullPath
  by_cases h1 : NT_SUCCESS (env.NtOpenSymbolicLinkObject 0 fullPath) = true
  · by_cases h2 : NT_SUCCESS (env.NtQuerySymbolicLinkObject 0 fullPath).1 = true
    · simp [symbolicLinkBranch, ho, hr, h1, h2]
    · simp [symbolicLinkBranch, ho, hr, h1, h2]
  · simp [symbolicLinkBranch, ho, h1]

theorem dependencyBufferLoop_links (env : AnalyzerEnv) (rootObject : WString)
    (hopen : ∀ k p, env.NtOpenSymbolicLinkObject k p = env.NtOpenSymbolicLinkObject 0 p)
    (hread : ∀ k p, env.NtQuerySymbolicLinkObject k p = env.NtQuerySymbolicLinkObject 0 p)
    (l : List OBJECT_DIRECTORY_INFORMATION) (dependencies : List ObjectDependency)
    (w : World) :
    ∃ extra, (dependencyBufferLoop env rootObject l dependencies w).1 = dependencies ++ extra ∧
      extra.filter (fun e => decide (e.dependencyType = L "SymbolicLink")) =
        l.filterMap (fun dirInfo =>
          if dirInfo.TypeName = L "SymbolicLink" ∧
              NT_SUCCESS (env.NtOpenSymbolicLinkObject 0
                (fullPathOf rootObject dirInfo.Name)) = true ∧
              NT_SUCCESS (env.NtQuerySymbolicLinkObject 0
                (fullPathOf rootObject dirInfo.Name)).1 = true
          then some { sourceObject := fullPathOf rootObject dirInfo.Name,
                      targetObject := (env.NtQuerySymbolicLinkObject 0
                        (fullPathOf rootObject dirInfo.Name)).2,
                      dependencyType := L "SymbolicLink" }
          else none) := by
  induction l generalizing dependencies w with
  | nil => exact ⟨[], by simp [dependencyBufferLoop], by simp⟩
  | cons dirInfo rest ih =>
    simp only [dependencyBufferLoop]
    by_cases hlink : dirInfo.TypeName = L "SymbolicLink"
    · simp only [hlink, if_true, true_and]
      have hbranch := symbolicLinkBranch_edges env (fullPathOf rootObject dirInfo.Name)
        dependencies w hopen hread
      rw [hbranch]
      obtain ⟨extra, hextra, hfilter⟩ := ih
        (dependencies ++
          (if NT_SUCCESS (env.NtOpenSymbolicLinkObject 0
                (fullPathOf rootObject dirInfo.Name)) = true ∧
              NT_SUCCESS (env.NtQuerySymbolicLinkObject 0
                (fullPathOf rootObject dirInfo.Name)).1 = true
           then [{ sourceObject := fullPathOf rootObject dirInfo.Name,
                   targetObject := (env.NtQuerySymbolicLinkObject 0
                     (fullPathOf rootObject dirInfo.Name)).2,
                   dependencyType := L "SymbolicLink" }]
           else []))
        (symbolicLinkBranch env (fullPathOf rootObject dirInfo.Name) dependencies w).2
      by_cases hboth : NT_SUCCESS (env.NtOpenSymbolicLinkObject 0
          (fullPathOf rootObject dirInfo.Name)) = true ∧
          NT_SUCCESS (env.NtQuerySymbolicLinkObject 0
            (fullPathOf rootObject dirInfo.Name)).1 = true
      · rw [if_pos hboth] at hextra ⊢
        refine ⟨{ sourceObject := fullPathOf rootObject dirInfo.Name,
                  targetObject := (env.NtQuerySymbolicLinkObject 0
                    (fullPathOf rootObject dirInfo.Name)).2,
                  dependencyType := L "SymbolicLink" } :: extra, ?_, ?_⟩
        · rw [hextra]
          simp
        · rw [List.filterMap_cons]
          simp only [hlink, hboth, and_self, if_true, List.filter_cons, decide_True, hfilter]
      · rw [if_neg hboth, List.append_nil] at hextra ⊢
        refine ⟨extra, hextra, ?_⟩
        rw [List.filterMap_cons]
        simp only [hlink, true_and, hboth, if_false, hfilter]
    · simp only [hlink, if_false, false_and]
      by_cases hsection : dirInfo.TypeName = L "Section"
      · simp only [hsection, if_true]
        obtain ⟨e1, he1, hkind⟩ := sectionBranch_kinds env
          (fullPathOf rootObject dirInfo.Name) dependencies w
        rw [he1]
        obtain ⟨extra, hextra, hfilter⟩ := ih (dependencies ++ e1)
          (sectionBranch env (fullPathOf rootObject dirInfo.Name) dependencies w).2
        refine ⟨e1 ++ extra, ?_, ?_⟩
        · rw [hextra]
          simp
        · rw [List.filter_append, hfilter, List.filterMap_cons]
          have hnone : e1.filter (fun e => decide (e.dependencyType = L "SymbolicLink")) = [] := by
            rw [List.filter_eq_nil_iff]
            intro e he
            rw [hkind e he]
            decide
          simp only [hnone, List.nil_append, hlink, false_and, if_false]
      · simp only [hsection, if_false]
        obtain ⟨extra, hextra, hfilter⟩ := ih dependencies w
        refine ⟨extra, hextra, ?_⟩
        rw [List.filterMap_cons]
        simp only [hlink, false_and, if_false, hfilter]

theorem dependencyQueryLoop_links (env : AnalyzerEnv) (rootObject : WString)
    (hopen : ∀ k p, env.NtOpenSymbolicLinkObject k p = env.NtOpenSymbolicLinkObject 0 p)
    (hread : ∀ k p, env.NtQuerySymbolicLinkObject k p = env.NtQuerySymbolicLinkObject 0 p)
    (responses : List QueryResponse) (l : List OBJECT_DIRECTORY_INFORMATION)
    (hl : listingOf responses = some l) (dependencies : List ObjectDependency) (w : World) :
    ∃ extra w1, dependencyQueryLoop env rootObject responses dependencies w =
        some (dependencies ++ extra, w1) ∧
      extra.filter (fun e => decide (e.dependencyType = L "SymbolicLink")) =
        l.filterMap (fun dirInfo =>
          if dirInfo.TypeName = L "SymbolicLink" ∧
              NT_SUCCESS (env.NtOpenSymbolicLinkObject 0
                (fullPathOf rootObject dirInfo.Name)) = true ∧
              NT_SUCCESS (env.NtQuerySymbolicLinkObject 0
                (fullPathOf rootObject dirInfo.Name)).1 = true
          then some { sourceObject := fullPathOf rootObject dirInfo.Name,
                      targetObject := (env.NtQuerySymbolicLinkObject 0
                        (fullPathOf rootObject dirInfo.Name)).2,
                      dependencyType := L "SymbolicLink" }
          else none) := by
  induction responses generalizing l dependencies w with
  | nil => simp [listingOf] at hl
  | cons r rs ih =>
    unfold dependencyQueryLoop
    by_cases hr : NT_SUCCESS r.status = true
    · have hne : r.status ≠ STATUS_NO_MORE_ENTRIES := ne_no_more_entries_of_success _ hr
      simp only [listingOf, hr, if_true] at hl
      cases hrs : listingOf rs with
      | none => simp [hrs] at hl
      | some l1 =>
        simp only [hrs, Option.map_some', Option.some.injEq] at hl
        subst hl
        simp only [hr, hne, Bool.not_true, decide_False, Bool.or_self, Bool.false_eq_true,
          if_false]
        obtain ⟨e1, he1, hf1⟩ := dependencyBufferLoop_links env rootObject hopen hread
          (scanBuffer r.buffer) dependencies w
        obtain ⟨e2, w1, hloop, hf2⟩ := ih l1 hrs
          (dependencyBufferLoop env rootObject (scanBuffer r.buffer) dependencies w).1
          (dependencyBufferLoop env rootObject (scanBuffer r.buffer) dependencies w).2
        refine ⟨e1 ++ e2, w1, ?_, ?_⟩
        · rw [hloop, he1, List.append_assoc]
        · rw [List.filter_append, hf1, hf2, List.filterMap_append]
    · have hr2 : NT_SUCCESS r.status = false := by simpa using hr
      simp only [listingOf, hr2, Bool.false_eq_true, if_false, Option.some.injEq] at hl
      subst hl
      refine ⟨[], w, ?_, by simp⟩
      simp [hr2]

/-- C17. In the directory mode, a record of type `SymbolicLink` adds exactly one
edge when the link opens and its target is read: from the root path, a `\` unless
the root path ends in one, and the name, to the target read, of kind
`SymbolicLink`. When the open or the read fails it adds none. The open is called
once and the read at most once, every handle opened is closed, and the loop goes
on with the next record. So, when what a link answers does not depend on the
moment of the call, the edges of kind `SymbolicLink` that `buildDependencyGraph`
returns are, in enumeration order, those of the records of type `SymbolicLink`
whose link opens and is read, one for each. -/
theorem symbolicLink_entry_gives_one_edge_or_none (env : AnalyzerEnv)
    (rootObject : WString) :
    (∀ (dirInfo : OBJECT_DIRECTORY_INFORMATION) (rest : List OBJECT_DIRECTORY_INFORMATION)
      (dependencies : List ObjectDependency) (w : World),
      dirInfo.TypeName = L "SymbolicLink" →
      ∃ w1 : World,
        dependencyBufferLoop env rootObject (dirInfo :: rest) dependencies w =
          dependencyBufferLoop env rootObject rest
            (dependencies ++
              (if NT_SUCCESS (env.NtOpenSymbolicLinkObject w.calls
                    ((if rootObject.getLast? = some 92 then rootObject
                      else rootObject ++ [92]) ++ dirInfo.Name)) = true ∧
                  NT_SUCCESS (env.NtQuerySymbolicLinkObject (w.calls + 1)
                    ((if rootObject.getLast? = some 92 then rootObject
                      else rootObject ++ [92]) ++ dirInfo.Name)).1 = true
               then [{ sourceObject := (if rootObject.getLast? = some 92 then rootObject
                                        else rootObject ++ [92]) ++ dirInfo.Name,
                       targetObject := (env.NtQuerySymbolicLinkObject (w.calls + 1)
                         ((if rootObject.getLast? = some 92 then rootObject
                           else rootObject ++ [92]) ++ dirInfo.Name)).2,
                       dependencyType := L "SymbolicLink" }]
               else [])) w1 ∧
        w1.calls = w.calls +
          (if NT_SUCCESS (env.NtOpenSymbolicLinkObject w.calls
                ((if rootObject.getLast? = some 92 then rootObject
                  else rootObject ++ [92]) ++ dirInfo.Name)) = true then 2 else 1) ∧
        w1.handles.opened = w.handles.opened) ∧
    (∀ (w : World) (l : List OBJECT_DIRECTORY_INFORMATION),
      isDirectory rootObject = true →
      NT_SUCCESS (env.directory rootObject).openStatus = true →
      listingOf (env.directory rootObject).responses = some l →
      (∀ k p, env.NtOpenSymbolicLinkObject k p = env.NtOpenSymbolicLinkObject 0 p) →
      (∀ k p, env.NtQuerySymbolicLinkObject k p = env.NtQuerySymbolicLinkObject 0 p) →
      ∃ dependencies w1, buildDependencyGraph env rootObject w = some (dependencies, w1) ∧
        dependencies.filter (fun e => decide (e.dependencyType = L "SymbolicLink")) =
          l.filterMap (fun dirInfo =>
            if dirInfo.TypeName = L "SymbolicLink" ∧
                NT_SUCCESS (env.NtOpenSymbolicLinkObject 0
                  ((if rootObject.getLast? = some 92 then rootObject
                    else rootObject ++ [92]) ++ dirInfo.Name)) = true ∧
                NT_SUCCESS (env.NtQuerySymbolicLinkObject 0
                  ((if rootObject.getLast? = some 92 then rootObject
                    else rootObject ++ [92]) ++ dirInfo.Name)).1 = true
            then some { sourceObject := (if rootObject.getLast? = some 92 then rootObject
                                         else rootObject ++ [92]) ++ dirInfo.Name,
                        targetObject := (env.NtQuerySymbolicLinkObject 0
                          ((if rootObject.getLast? = some 92 then rootObject
                            else rootObject ++ [92]) ++ dirInfo.Name)).2,
                        dependencyType := L "SymbolicLink" }
            else none)) := by
  constructor
  · intro dirInfo rest dependencies w htype
    exact dependencyBufferLoop_cons_link env rootObject dirInfo rest dependencies w htype
  · intro w l hdir hopenDir hl hopen hread
    obtain ⟨extra, w1, hloop, hfilter⟩ := dependencyQueryLoop_links env rootObject hopen
      hread (env.directory rootObject).responses l hl []
      { w with handles := w.handles.acquire.1 }
    unfold buildDependencyGraph
    simp only [hdir, if_true, hopenDir, Bool.not_true, Bool.false_eq_true, if_false]
    have hloop2 : dependencyQueryLoop env rootObject (env.directory rootObject).responses []
        { calls := w.calls, handles := w.handles.acquire.1 } = some ([] ++ extra, w1) := hloop
    rw [hloop2]
    refine ⟨_, _, rfl, ?_⟩
    simp only [List.nil_append]
    rw [hfilter]
    simp only [← fullPathOf_eq]

/-- C17, witness: in `\BaseNamedObjects` the link `Bad` fails to open, the link
`Good` resolves to `\Device\Target`; the call returns the one edge of `Good`. -/
theorem symbolicLink_entry_gives_one_edge_or_none_witness :
    (⟨L "Good", L "SymbolicLink"⟩ : OBJECT_DIRECTORY_INFORMATION).TypeName =
      L "SymbolicLink" ∧
    (∃ w1 : World,
      dependencyBufferLoop
          (exampleLinkServices [(L "Bad", L "SymbolicLink"), (L "Good", L "SymbolicLink")])
          (L "\\BaseNamedObjects") (⟨L "Good", L "SymbolicLink"⟩ :: []) [] ⟨1, ⟨1, [1]⟩⟩ =
        dependencyBufferLoop
          (exampleLinkServices [(L "Bad", L "SymbolicLink"), (L "Good", L "SymbolicLink")])
          (L "\\BaseNamedObjects") []
          ([] ++ [{ sourceObject := L "\\BaseNamedObjects\\Good",
                    targetObject := L "\\Device\\Target",
                    dependencyType := L "SymbolicLink" }]) w1 ∧
      w1.calls = 3 ∧ w1.handles.opened = [1]) ∧
    (buildDependencyGraph
        (exampleLinkServices [(L "Bad", L "SymbolicLink"), (L "Good", L "SymbolicLink")])
        (L "\\BaseNamedObjects") ⟨0, ⟨0, []⟩⟩).map Prod.fst =
      some [{ sourceObject := L "\\BaseNamedObjects\\Good",
              targetObject := L "\\Device\\Target",
              dependencyType := L "SymbolicLink" }] := by
  refine ⟨rfl, ?_, by decide⟩
  obtain ⟨w1, hloop, hcalls, hhandles⟩ := (symbolicLink_entry_gives_one_edge_or_none
    (exampleLinkServices [(L "Bad", L "SymbolicLink"), (L "Good", L "SymbolicLink")])
    (L "\\BaseNamedObjects")).1 ⟨L "Good", L "SymbolicLink"⟩ [] [] ⟨1, ⟨1, [1]⟩⟩ rfl
  refine ⟨w1, ?_, ?_, hhandles⟩
  · rw [hloop]
    have hpath : (if (L "\\BaseNamedObjects").getLast? = some 92 then L "\\BaseNamedObjects"
        else L "\\BaseNamedObjects" ++ [92]) ++
        (⟨L "Good", L "SymbolicLink"⟩ : OBJECT_DIRECTORY_INFORMATION).Name =
        L "\\BaseNamedObjects\\Good" := by decide
    rw [hpath]
    have hopen : NT_SUCCESS ((exampleLinkServices
        [(L "Bad", L "SymbolicLink"), (L "Good", L "SymbolicLink")]).NtOpenSymbolicLinkObject
          (⟨1, ⟨1, [1]⟩⟩ : World).calls (L "\\BaseNamedObjects\\Good")) = true := by decide
    have hread : NT_SUCCESS ((exampleLinkServices
        [(L "Bad", L "SymbolicLink"), (L "Good", L "SymbolicLink")]).NtQuerySymbolicLinkObject
          ((⟨1, ⟨1, [1]⟩⟩ : World).calls + 1) (L "\\BaseNamedObjects\\Good")).1 = true := by
      decide
    rw [if_pos ⟨hopen, hread⟩]
    rfl
  · rw [hcalls]
    decide

/-! ## C18: the probe of a section -/

theorem processLoop_cons (env : AnalyzerEnv) (fullPath : WString) (pid : Nat)
    (rest : List Nat) (dependencies : List ObjectDependency) (w : World) :
    ∃ w1 : World,
      processLoop env fullPath (pid :: rest) dependencies w =
        processLoop env fullPath rest
          (dependencies ++
            (if env.OpenProcess w.calls pid = true ∧
                NT_SUCCESS (env.NtOpenSection (w.calls + 1) fullPath) = true
             then [{ sourceObject := fullPath,
                     targetObject := L "Process:" ++ to_wstring pid,
                     dependencyType := L "SharedMemory" }]
             else [])) w1 ∧
      w1.calls = w.calls + (if env.OpenProcess w.calls pid = true then 2 else 1) := by
  simp only [processLoop]
  by_cases hproc : env.OpenProcess w.calls pid = true
  · by_cases hsec : NT_SUCCESS (env.NtOpenSection (w.calls + 1) fullPath) = true
    · simp only [hproc, hsec, if_true, and_self]
      exact ⟨_, rfl, rfl⟩
    · simp only [hproc, hsec, if_true, if_false, and_false, List.append_nil,
        Bool.false_eq_true]
      exact ⟨_, rfl, rfl⟩
  · simp only [hproc, if_false, false_and, List.append_nil, Bool.false_eq_true]
    exact ⟨{ w with calls := w.calls + 1 }, rfl, rfl⟩

theorem processSlots_of_one_word (env : AnalyzerEnv) (written : List Nat)
    (h : env.pointerWords = 1) :
    (List.range (4 * written.length / 4)).map (processSlot env written) = written := by
  have hlen : 4 * written.length / 4 = written.length := by omega
  rw [hlen]
  apply List.ext_getElem
  · simp
  · intro i h1 h2
    simp only [List.getElem_map, List.getElem_range, processSlot, h, Nat.mul_one]
    rw [List.get?_eq_getElem?, List.getElem?_eq_getElem h2]

theorem sectionBranch_of_one_word (env : AnalyzerEnv) (fullPath : WString)
    (dependencies : List ObjectDependency) (w : World) (written : List Nat)
    (h : env.pointerWords = 1)
    (henum : env.EnumProcesses w.calls (1024 * (4 * env.pointerWords)) = some written) :
    sectionBranch env fullPath dependencies w =
      processLoop env fullPath written dependencies { w with calls := w.calls + 1 } := by
  unfold sectionBranch
  simp only [henum, processSlots_of_one_word env written h]

/-- C18, the code at the failing input. `\BaseNamedObjects` holds the section
`S`, `EnumProcesses` writes the identifiers 4 and 8, and every probe succeeds. In
the 64-bit build the loop reads `(DWORD)hProcesses[0]`, which is 4, and
`(DWORD)hProcesses[1]`, which is the third `DWORD` of the array, one that was not
written: the edges go to process 4 and to process 3435973836, and process 8 is
not probed. In the 32-bit build the edges go to the processes 4 and 8. -/
theorem section_probe_misses_process_ids_on_64_bit :
    (buildDependencyGraph (exampleSectionServices 2) (L "\\BaseNamedObjects")
        ⟨0, ⟨0, []⟩⟩).map Prod.fst =
      some [{ sourceObject := L "\\BaseNamedObjects\\S",
              targetObject := L "Process:4", dependencyType := L "SharedMemory" },
            { sourceObject := L "\\BaseNamedObjects\\S",
              targetObject := L "Process:3435973836", dependencyType := L "SharedMemory" }] ∧
    (buildDependencyGraph (exampleSectionServices 1) (L "\\BaseNamedObjects")
        ⟨0, ⟨0, []⟩⟩).map Prod.fst =
      some [{ sourceObject := L "\\BaseNamedObjects\\S",
              targetObject := L "Process:4", dependencyType := L "SharedMemory" },
            { sourceObject := L "\\BaseNamedObjects\\S",
              targetObject := L "Process:8", dependencyType := L "SharedMemory" }] := by
  constructor <;> decide

/-! ## C19: the edges of the handle table -/

theorem handleLoop_eq (rootObject : WString) (table : List SYSTEM_HANDLE_TABLE_ENTRY_INFO_EX)
    (dependencies : List ObjectDependency) :
    handleLoop rootObject table dependencies =
      dependencies ++ table.map (fun handle =>
        { sourceObject := rootObject,
          targetObject := L "Process:" ++ to_wstring handle.UniqueProcessId,
          dependencyType := L "Handle" }) := by
  induction table generalizing dependencies with
  | nil => simp [handleLoop]
  | cons handle rest ih => simp [handleLoop, ih]

/-- C19, as amended. For every root path that does not hold `\BaseNamedObjects`
and is not `\`, when `NtOpenFile` opens it and the query of the system-wide
handle table succeeds, `buildDependencyGraph` returns exactly one edge per record
of the table, in table order, from the root path to `Process:` followed by the
owning process id, of kind `Handle`; there are as many edges as records. When the
query of the table fails it returns no edge. The handle of the file is closed. -/
theorem leaf_mode_gives_one_edge_per_handle (env : AnalyzerEnv) (rootObject : WString)
    (w : World) (hleaf : isDirectory rootObject = false)
    (hopen : NT_SUCCESS (env.NtOpenFile w.calls rootObject) = true) :
    ∃ dependencies w1,
      buildDependencyGraph env rootObject w = some (dependencies, w1) ∧
      w1.handles.opened = w.handles.opened ∧
      (NT_SUCCESS (env.NtQuerySystemInformation (w.calls + 1)).1 = true →
        dependencies = (env.NtQuerySystemInformation (w.calls + 1)).2.map (fun handle =>
          { sourceObject := rootObject,
            targetObject := L "Process:" ++ to_wstring handle.UniqueProcessId,
            dependencyType := L "Handle" }) ∧
        dependencies.length = (env.NtQuerySystemInformation (w.calls + 1)).2.length) ∧
      (NT_SUCCESS (env.NtQuerySystemInformation (w.calls + 1)).1 = false →
        dependencies = []) := by
  unfold buildDependencyGraph
  simp only [hleaf, Bool.false_eq_true, if_false, hopen, if_true]
  by_cases hquery : NT_SUCCESS (env.NtQuerySystemInformation (w.calls + 1)).1 = true
  · simp only [hquery, if_true]
    refine ⟨_, _, rfl, release_acquire w.handles, ?_, ?_⟩
    · intro _
      rw [handleLoop_eq]
      simp
    · intro h
      exact absurd h (by simp)
  · have hquery2 : NT_SUCCESS (env.NtQuerySystemInformation (w.calls + 1)).1 = false := by
      simpa using hquery
    simp only [hquery2, Bool.false_eq_true, if_false]
    refine ⟨_, _, rfl, release_acquire w.handles, ?_, ?_⟩
    · intro h
      exact absurd h (by simp)
    · intro _
      rfl

/-- C19, witness: `\Device\Null` with a handle table of two records. -/
theorem leaf_mode_gives_one_edge_per_handle_witness :
    isDirectory (L "\\Device\\Null") = false ∧
    ∃ dependencies w1,
      buildDependencyGraph (exampleLeafServices 0) (L "\\Device\\Null") ⟨0, ⟨0, []⟩⟩ =
        some (dependencies, w1) ∧
      dependencies =
        [{ sourceObject := L "\\Device\\Null", targetObject := L "Process:4",
           dependencyType := L "Handle" },
         { sourceObject := L "\\Device\\Null", targetObject := L "Process:812",
           dependencyType := L "Handle" }] := by
  refine ⟨by decide, ?_⟩
  obtain ⟨dependencies, w1, hbuild, _, hok, _⟩ :=
    leaf_mode_gives_one_edge_per_handle (exampleLeafServices 0) (L "\\Device\\Null")
      ⟨0, ⟨0, []⟩⟩ (by decide) (by decide)
  refine ⟨dependencies, w1, hbuild, ?_⟩
  rw [(hok (by decide)).1]
  decide

/-- C19, counterexample: the file `\??\C:\BaseNamedObjects\notes.txt` is a leaf
object and `NtOpenFile` opens it, the handle table has two records and is read
with success, and no edge is returned: the path holds `\BaseNamedObjects` and is
taken for a directory. And for `\Device\Null`, which is opened, no edge is
returned when the query of the table fails with `STATUS_INFO_LENGTH_MISMATCH`. -/
theorem leaf_object_without_handle_edges :
    (NT_SUCCESS ((exampleLeafServices 0).NtOpenFile 0
        (L "\\??\\C:\\BaseNamedObjects\\notes.txt")) = true ∧
      ((exampleLeafServices 0).NtQuerySystemInformation 1).2.length = 2 ∧
      (buildDependencyGraph (exampleLeafServices 0)
        (L "\\??\\C:\\BaseNamedObjects\\notes.txt") ⟨0, ⟨0, []⟩⟩).map Prod.fst =
          some []) ∧
    (NT_SUCCESS ((exampleLeafServices STATUS_INFO_LENGTH_MISMATCH).NtOpenFile 0
        (L "\\Device\\Null")) = true ∧
      ((exampleLeafServices STATUS_INFO_LENGTH_MISMATCH).NtQuerySystemInformation 1).2.length
        = 2 ∧
      (buildDependencyGraph (exampleLeafServices STATUS_INFO_LENGTH_MISMATCH)
        (L "\\Device\\Null") ⟨0, ⟨0, []⟩⟩).map Prod.fst = some []) := by
  decide

/-! ## C20: the statistics after a cycle -/

theorem mapFind_touchStatistics (getSystemTime : Nat → SYSTEMTIME) (name : WString)
    (statistics : List (WString × ObjectStatistics)) (t : Nat)
    (hm : statistics.Pairwise (fun x y => wstrLt x.1 y.1 = true)) (k : WString) :
    mapFind (touchStatistics getSystemTime name statistics t) k =
      if k = name then some ⟨0, 0, 0, getSystemTime t⟩ else mapFind statistics k := by
  unfold touchStatistics
  rw [mapFind_mapModify _ _ _ _ hm]

theorem statisticsBufferLoop_spec (getSystemTime : Nat → SYSTEMTIME)
    (l : List OBJECT_DIRECTORY_INFORMATION) (statistics : List (WString × ObjectStatistics))
    (t : Nat) (hm : statistics.Pairwise (fun x y => wstrLt x.1 y.1 = true)) :
    (statisticsBufferLoop getSystemTime l statistics t).1.Pairwise
      (fun x y => wstrLt x.1 y.1 = true) ∧
    (statisticsBufferLoop getSystemTime l statistics t).2 = t + l.length ∧
    (∀ k, (∀ info ∈ l, info.Name ≠ k) →
      mapFind (statisticsBufferLoop getSystemTime l statistics t).1 k = mapFind statistics k) ∧
    (∀ info ∈ l, ∃ i, t ≤ i ∧ i < t + l.length ∧
      mapFind (statisticsBufferLoop getSystemTime l statistics t).1 info.Name =
        some ⟨0, 0, 0, getSystemTime i⟩) := by
  induction l generalizing statistics t with
  | nil =>
    refine ⟨hm, rfl, fun k _ => rfl, ?_⟩
    intro info hinfo
    exact absurd hinfo (List.not_mem_nil info)
  | cons head rest ih =>
    have hm1 : (touchStatistics getSystemTime head.Name statistics t).Pairwise
        (fun x y => wstrLt x.1 y.1 = true) := by
      unfold touchStatistics
      exact sorted_mapModify _ _ _ _ hm
    obtain ⟨hsorted, hticks, hkeep, htouch⟩ :=
      ih (touchStatistics getSystemTime head.Name statistics t) (t + 1) hm1
    simp only [statisticsBufferLoop]
    refine ⟨hsorted, ?_, ?_, ?_⟩
    · rw [hticks]
      simp only [List.length_cons]
      omega
    · intro k hk
      have hk1 : ∀ info ∈ rest, info.Name ≠ k := fun info hinfo =>
        hk info (List.mem_cons_of_mem _ hinfo)
      have hk2 : k ≠ head.Name := fun h => hk head (List.mem_cons_self _ _) h.symm
      rw [hkeep k hk1, mapFind_touchStatistics _ _ _ _ hm, if_neg hk2]
    · intro info hinfo
      by_cases hlater : ∃ other ∈ rest, other.Name = info.Name
      · obtain ⟨other, hother, hname⟩ := hlater
        obtain ⟨i, hi1, hi2, hfind⟩ := htouch other hother
        refine ⟨i, by omega, ?_, ?_⟩
        · simp only [List.length_cons]
          omega
        · rw [← hname]
          exact hfind
      · have hnone : ∀ other ∈ rest, other.Name ≠ info.Name := fun other hother hname =>
          hlater ⟨other, hother, hname⟩
        have hhead : info.Name = head.Name := by
          rcases List.mem_cons.1 hinfo with h | h
          · rw [h]
          · exact absurd rfl (hnone info h)
        refine ⟨t, Nat.le_refl t, ?_, ?_⟩
        · simp only [List.length_cons]
          omega
        · rw [hkeep info.Name hnone, mapFind_touchStatistics _ _ _ _ hm, if_pos hhead]

theorem monitoringCycle_statistics (getSystemTime : Nat → SYSTEMTIME) (callbackSet : Bool)
    (env : CycleEnv) (st : CycleState) (l l2 : List OBJECT_DIRECTORY_INFORMATION)
    (h : env.snapshotDir.listing = some l) (h2 : env.statisticsDir.listing = some l2) :
    ∃ st1 t, monitoringCycle getSystemTime callbackSet env st = some st1 ∧
      st1.prevObjects = l.map OBJECT_DIRECTORY_INFORMATION.pair ∧
      st1.statistics = (statisticsBufferLoop getSystemTime l2 st.statistics t).1 := by
  obtain ⟨table, htable⟩ := takeSnapshot_of_listing env.snapshotDir st.handles l h
  unfold monitoringCycle
  rw [htable]
  simp only
  obtain ⟨st1, hst1, hprev, _, hstat, _⟩ := updateStatistics_of_listing getSystemTime
    env.statisticsDir
    { prevObjects := l.map OBJECT_DIRECTORY_INFORMATION.pair,
      statistics := st.statistics,
      ticks := st.ticks + (detectChanges getSystemTime st.ticks st.prevObjects
        (l.map OBJECT_DIRECTORY_INFORMATION.pair)).length,
      handles := table,
      invoked := st.invoked ++ (if callbackSet then
        detectChanges getSystemTime st.ticks st.prevObjects
          (l.map OBJECT_DIRECTORY_INFORMATION.pair) else []) } l2 h2
  exact ⟨st1, _, hst1, hprev, hstat⟩

/-- C20, as amended. At the end of every monitoring cycle, every name seen by
the enumeration that `updateStatistics` makes in that cycle, a second
enumeration of the monitored directory taken after the snapshot was diffed, has
an entry in the statistics map, created if the name was not there and
overwritten otherwise; the entries of all other names are as before. So when
every name of the current snapshot is seen again by that second enumeration,
every name of the current snapshot has an entry. -/
theorem cycle_updates_statistics_of_second_enumeration (getSystemTime : Nat → SYSTEMTIME)
    (callbackSet : Bool) (env : CycleEnv) (st : CycleState)
    (l l2 : List OBJECT_DIRECTORY_INFORMATION)
    (h : env.snapshotDir.listing = some l) (h2 : env.statisticsDir.listing = some l2)
    (hm : st.statistics.Pairwise (fun x y => wstrLt x.1 y.1 = true)) :
    ∃ st1, monitoringCycle getSystemTime callbackSet env st = some st1 ∧
      st1.prevObjects = l.map OBJECT_DIRECTORY_INFORMATION.pair ∧
      st1.statistics.Pairwise (fun x y => wstrLt x.1 y.1 = true) ∧
      (∀ info ∈ l2, ∃ i, mapFind st1.statistics info.Name =
        some ⟨0, 0, 0, getSystemTime i⟩) ∧
      (∀ k, (∀ info ∈ l2, info.Name ≠ k) →
        mapFind st1.statistics k = mapFind st.statistics k) ∧
      ((∀ p ∈ st1.prevObjects, ∃ info ∈ l2, info.Name = p.1) →
        ∀ p ∈ st1.prevObjects, (mapFind st1.statistics p.1).isSome = true) := by
  obtain ⟨st1, t, hcycle, hprev, hstat⟩ := monitoringCycle_statistics getSystemTime
    callbackSet env st l l2 h h2
  obtain ⟨hsorted, _, hkeep, htouch⟩ := statisticsBufferLoop_spec getSystemTime l2
    st.statistics t hm
  rw [← hstat] at hsorted hkeep htouch
  refine ⟨st1, hcycle, hprev, hsorted, ?_, hkeep, ?_⟩
  · intro info hinfo
    obtain ⟨i, _, _, hfind⟩ := htouch info hinfo
    exact ⟨i, hfind⟩
  · intro hseen p hp
    obtain ⟨info, hinfo, hname⟩ := hseen p hp
    obtain ⟨i, _, _, hfind⟩ := htouch info hinfo
    rw [← hname, hfind]
    rfl

/-- C20, witness: a first cycle in which both enumerations see `X`. -/
theorem cycle_updates_statistics_of_second_enumeration_witness :
    ∃ st1, monitoringCycle exampleClock true (exampleEnv [(L "X", L "Event")])
        (threadEntry [] 0 ⟨0, []⟩ []) = some st1 ∧
      st1.prevObjects = [(L "X", L "Event")] ∧
      ∃ i, mapFind st1.statistics (L "X") = some ⟨0, 0, 0, exampleClock i⟩ := by
  obtain ⟨st1, hcycle, hprev, _, htouch, _, _⟩ :=
    cycle_updates_statistics_of_second_enumeration exampleClock true
      (exampleEnv [(L "X", L "Event")]) (threadEntry [] 0 ⟨0, []⟩ [])
      [⟨L "X", L "Event"⟩] [⟨L "X", L "Event"⟩] (by decide) (by decide) List.Pairwise.nil
  exact ⟨st1, hcycle, hprev, htouch ⟨L "X", L "Event"⟩ (List.mem_singleton.2 rfl)⟩

/-- C20, counterexample: the snapshot of the cycle sees `X`, and when
`updateStatistics` opens the directory again the open fails. At the end of the
cycle `X` is the current snapshot and the next baseline, and the statistics map
has no entry for it. -/
theorem snapshot_name_without_statistics :
    (monitoringCycle exampleClock true
        { snapshotDir := exampleDir [(L "X", L "Event")],
          statisticsDir := { openStatus := toNTSTATUS 0xC0000034, responses := [] } }
        (threadEntry [] 0 ⟨0, []⟩ [])).map
      (fun st => (st.prevObjects, mapFind st.statistics (L "X"))) =
      some ([(L "X", L "Event")], none) := by
  decide

/-! ## C27: end-of-entries and the four loops that test `NT_SUCCESS` -/

theorem listingOf_of_last_failure (pre : List QueryResponse) (last : QueryResponse)
    (hlast : NT_SUCCESS last.status = false) : ∃ l, listingOf (pre ++ [last]) = some l := by
  induction pre with
  | nil => exact ⟨[], by simp [listingOf, hlast]⟩
  | cons r rs ih =>
    obtain ⟨l, hl⟩ := ih
    by_cases hr : NT_SUCCESS r.status = true
    · exact ⟨scanBuffer r.buffer ++ l, by simp [listingOf, hr, hl]⟩
    · exact ⟨[], by simp [listingOf, hr]⟩

theorem dependencyQueryLoop_returns (env : AnalyzerEnv) (rootObject : WString)
    (responses : List QueryResponse) (l : List OBJECT_DIRECTORY_INFORMATION)
    (hl : listingOf responses = some l) (dependencies : List ObjectDependency) (w : World) :
    ∃ r, dependencyQueryLoop env rootObject responses dependencies w = some r := by
  induction responses generalizing l dependencies w with
  | nil => simp [listingOf] at hl
  | cons r rs ih =>
    unfold dependencyQueryLoop
    by_cases hr : NT_SUCCESS r.status = true
    · have hne : r.status ≠ STATUS_NO_MORE_ENTRIES := ne_no_more_entries_of_success _ hr
      simp only [listingOf, hr, if_true] at hl
      cases hrs : listingOf rs with
      | none => simp [hrs] at hl
      | some l1 =>
        simp only [hr, hne, Bool.not_true, decide_False, Bool.or_self, Bool.false_eq_true,
          if_false]
        exact ih l1 hrs _ _
    · have hr2 : NT_SUCCESS r.status = false := by simpa using hr
      exact ⟨(dependencies, w), by simp [hr2]⟩

/-- C27. The status `STATUS_NO_MORE_ENTRIES`, the pattern `0x8000001A` read as a
signed 32-bit value, is `-2147483622`: it is negative and `NT_SUCCESS` of it is
false. So the loops of `monitoringThread` and of `updateStatistics`, which test
`!NT_SUCCESS(status)` alone, stop at it without scanning the buffer; and in
`getTypeStatistics` and `buildDependencyGraph` the condition
`!NT_SUCCESS(status) || status == STATUS_NO_MORE_ENTRIES` has, for every status,
the value of `!NT_SUCCESS(status)`. Each of the four loops returns on every list
of answers that ends with end-of-entries. -/
theorem end_of_entries_stops_the_loops :
    STATUS_NO_MORE_ENTRIES = -2147483622 ∧ STATUS_NO_MORE_ENTRIES < 0 ∧
    NT_SUCCESS STATUS_NO_MORE_ENTRIES = false ∧
    (∀ status : NTSTATUS,
      (!NT_SUCCESS status || decide (status = STATUS_NO_MORE_ENTRIES)) =
        !NT_SUCCESS status) ∧
    (∀ (getSystemTime : Nat → SYSTEMTIME) (buffer : List OBJECT_DIRECTORY_INFORMATION)
      (rest : List QueryResponse) (currentObjects : List Obj)
      (statistics : List (WString × ObjectStatistics)) (t : Nat),
      monitorQueryLoop (⟨STATUS_NO_MORE_ENTRIES, buffer⟩ :: rest) currentObjects =
        some currentObjects ∧
      statisticsQueryLoop getSystemTime (⟨STATUS_NO_MORE_ENTRIES, buffer⟩ :: rest)
        statistics t = some (statistics, t)) ∧
    (∀ (getSystemTime : Nat → SYSTEMTIME) (env : AnalyzerEnv) (rootObject : WString)
      (pre : List QueryResponse) (buffer : List OBJECT_DIRECTORY_INFORMATION)
      (currentObjects : List Obj) (statistics : List (WString × ObjectStatistics)) (t : Nat)
      (counts : List (WString × Nat)) (dependencies : List ObjectDependency) (w : World),
      (∃ r, monitorQueryLoop (pre ++ [⟨STATUS_NO_MORE_ENTRIES, buffer⟩]) currentObjects =
        some r) ∧
      (∃ r, statisticsQueryLoop getSystemTime (pre ++ [⟨STATUS_NO_MORE_ENTRIES, buffer⟩])
        statistics t = some r) ∧
      (∃ r, typeQueryLoop (pre ++ [⟨STATUS_NO_MORE_ENTRIES, buffer⟩]) counts = some r) ∧
      (∃ r, dependencyQueryLoop env rootObject (pre ++ [⟨STATUS_NO_MORE_ENTRIES, buffer⟩])
        dependencies w = some r)) := by
  refine ⟨by decide, by decide, by decide, ?_, ?_, ?_⟩
  · intro status
    by_cases hs : NT_SUCCESS status = true
    · have hne : status ≠ STATUS_NO_MORE_ENTRIES := ne_no_more_entries_of_success _ hs
      simp [hs, hne]
    · have hs2 : NT_SUCCESS status = false := by simpa using hs
      simp [hs2]
  · intro getSystemTime buffer rest currentObjects statistics t
    constructor
    · simp [monitorQueryLoop, not_success_no_more_entries]
    · simp [statisticsQueryLoop, not_success_no_more_entries]
  · intro getSystemTime env rootObject pre buffer currentObjects statistics t counts
      dependencies w
    obtain ⟨l, hl⟩ := listingOf_of_last_failure pre ⟨STATUS_NO_MORE_ENTRIES, buffer⟩
      not_success_no_more_entries
    refine ⟨?_, ?_, ?_, ?_⟩
    · rw [monitorQueryLoop_eq, hl]
      exact ⟨_, rfl⟩
    · rw [statisticsQueryLoop_eq, hl]
      exact ⟨_, rfl⟩
    · rw [typeQueryLoop_eq, hl]
      exact ⟨_, rfl⟩
    · exact dependencyQueryLoop_returns env rootObject _ l hl dependencies w

/-! ## C23: the mode is read off the text of the path -/

theorem wcontains_iff_infix (pat s : WString) : wcontains pat s = true ↔ pat <:+: s := by
  induction s with
  | nil =>
    cases pat with
    | nil => simp [wcontains, List.isPrefixOf]
    | cons c cs => simp [wcontains, List.isPrefixOf]
  | cons c cs ih =>
    simp only [wcontains, Bool.or_eq_true, ih, List.infix_cons_iff, List.isPrefixOf_iff_prefix]

theorem symbolicLinkBranch_congr (env : AnalyzerEnv) (f : Nat → WString → NTSTATUS)
    (g : Nat → NTSTATUS × List SYSTEM_HANDLE_TABLE_ENTRY_INFO_EX) (fullPath : WString)
    (dependencies : List ObjectDependency) (w : World) :
    symbolicLinkBranch { env with NtOpenFile := f, NtQuerySystemInformation := g } fullPath
      dependencies w = symbolicLinkBranch env fullPath dependencies w := rfl

theorem processLoop_congr (env : AnalyzerEnv) (f : Nat → WString → NTSTATUS)
    (g : Nat → NTSTATUS × List SYSTEM_HANDLE_TABLE_ENTRY_INFO_EX) (fullPath : WString)
    (ids : List Nat) (dependencies : List ObjectDependency) (w : World) :
    processLoop { env with NtOpenFile := f, NtQuerySystemInformation := g } fullPath ids
      dependencies w = processLoop env fullPath ids dependencies w := by
  induction ids generalizing dependencies w with
  | nil => rfl
  | cons pid rest ih => simp only [processLoop, ih]

theorem sectionBranch_congr (env : AnalyzerEnv) (f : Nat → WString → NTSTATUS)
    (g : Nat → NTSTATUS × List SYSTEM_HANDLE_TABLE_ENTRY_INFO_EX) (fullPath : WString)
    (dependencies : List ObjectDependency) (w : World) :
    sectionBranch { env with NtOpenFile := f, NtQuerySystemInformation := g } fullPath
      dependencies w = sectionBranch env fullPath dependencies w := by
  unfold sectionBranch
  simp only [processLoop_congr]
  rfl

theorem dependencyBufferLoop_congr (env : AnalyzerEnv) (f : Nat → WString → NTSTATUS)
    (g : Nat → NTSTATUS × List SYSTEM_HANDLE_TABLE_ENTRY_INFO_EX) (rootObject : WString)
    (l : List OBJECT_DIRECTORY_INFORMATION) (dependencies : List ObjectDependency)
    (w : World) :
    dependencyBufferLoop { env with NtOpenFile := f, NtQuerySystemInformation := g }
      rootObject l dependencies w = dependencyBufferLoop env rootObject l dependencies w := by
  induction l generalizing dependencies w with
  | nil => rfl
  | cons dirInfo rest ih =>
    simp only [dependencyBufferLoop, ih, symbolicLinkBranch_congr, sectionBranch_congr]

theorem dependencyQueryLoop_congr (env : AnalyzerEnv) (f : Nat → WString → NTSTATUS)
    (g : Nat → NTSTATUS × List SYSTEM_HANDLE_TABLE_ENTRY_INFO_EX) (rootObject : WString)
    (responses : List QueryResponse) (dependencies : List ObjectDependency) (w : World) :
    dependencyQueryLoop { env with NtOpenFile := f, NtQuerySystemInformation := g }
      rootObject responses dependencies w =
      dependencyQueryLoop env rootObject responses dependencies w := by
  induction responses generalizing dependencies w with
  | nil => rfl
  | cons r rs ih => simp only [dependencyQueryLoop, ih, dependencyBufferLoop_congr]

theorem symbolicLinkBranch_kinds (env : AnalyzerEnv) (fullPath : WString)
    (dependencies : List ObjectDependency) (w : World) :
    ∃ extra, (symbolicLinkBranch env fullPath dependencies w).1 = dependencies ++ extra ∧
      ∀ e ∈ extra, e.dependencyType = L "SymbolicLink" := by
  unfold symbolicLinkBranch
  by_cases ho : NT_SUCCESS (env.NtOpenSymbolicLinkObject w.calls fullPath) = true
  · by_cases hq : NT_SUCCESS (env.NtQuerySymbolicLinkObject (w.calls + 1) fullPath).1 = true
    · refine ⟨[{ sourceObject := fullPath,
                 targetObject := (env.NtQuerySymbolicLinkObject (w.calls + 1) fullPath).2,
                 dependencyType := L "SymbolicLink" }], by simp [ho, hq], ?_⟩
      intro e he
      rw [List.mem_singleton.1 he]
    · exact ⟨[], by simp [ho, hq], fun e he => absurd he (List.not_mem_nil e)⟩
  · exact ⟨[], by simp [ho], fun e he => absurd he (List.not_mem_nil e)⟩

theorem dependencyBufferLoop_kinds (env : AnalyzerEnv) (rootObject : WString)
    (l : List OBJECT_DIRECTORY_INFORMATION) (dependencies : List ObjectDependency)
    (w : World)
    (hd : ∀ e ∈ dependencies,
      e.dependencyType = L "SymbolicLink" ∨ e.dependencyType = L "SharedMemory") :
    ∀ e ∈ (dependencyBufferLoop env rootObject l dependencies w).1,
      e.dependencyType = L "SymbolicLink" ∨ e.dependencyType = L "SharedMemory" := by
  induction l generalizing dependencies w with
  | nil => exact hd
  | cons dirInfo rest ih =>
    simp only [dependencyBufferLoop]
    apply ih
    by_cases hlink : dirInfo.TypeName = L "SymbolicLink"
    · rw [if_pos hlink]
      obtain ⟨extra, hextra, hkind⟩ :=
        symbolicLinkBranch_kinds env (fullPathOf rootObject dirInfo.Name) dependencies w
      rw [hextra]
      intro e he
      rcases List.mem_append.1 he with h | h
      · exact hd e h
      · exact Or.inl (hkind e h)
    · rw [if_neg hlink]
      by_cases hsection : dirInfo.TypeName = L "Section"
      · rw [if_pos hsection]
        obtain ⟨extra, hextra, hkind⟩ :=
          sectionBranch_kinds env (fullPathOf rootObject dirInfo.Name) dependencies w
        rw [hextra]
        intro e he
        rcases List.mem_append.1 he with h | h
        · exact hd e h
        · exact Or.inr (hkind e h)
      · rw [if_neg hsection]
        exact hd

theorem dependencyQueryLoop_kinds (env : AnalyzerEnv) (rootObject : WString)
    (responses : List QueryResponse) (dependencies : List ObjectDependency) (w : World)
    (r : List ObjectDependency × World)
    (h : dependencyQueryLoop env rootObject responses dependencies w = some r)
    (hd : ∀ e ∈ dependencies,
      e.dependencyType = L "SymbolicLink" ∨ e.dependencyType = L "SharedMemory") :
    ∀ e ∈ r.1, e.dependencyType = L "SymbolicLink" ∨ e.dependencyType = L "SharedMemory" := by
  induction responses generalizing dependencies w with
  | nil => simp [dependencyQueryLoop] at h
  | cons q qs ih =>
    unfold dependencyQueryLoop at h
    by_cases hstop : (!NT_SUCCESS q.status || decide (q.status = STATUS_NO_MORE_ENTRIES)) = true
    · rw [if_pos hstop] at h
      injection h with h
      rw [← h]
      exact hd
    · rw [if_neg hstop] at h
      exact ih _ _ h (dependencyBufferLoop_kinds env rootObject _ dependencies w hd)

/-- C23. `buildDependencyGraph` reads its mode off the text of the root path.
When the path holds `\BaseNamedObjects` or is `\`, it runs the directory mode: it
opens the path as a directory, returns no edge when that fails, and otherwise
returns what the query loop over the directory collects and closes the directory;
every edge it returns is a `SymbolicLink` or a `SharedMemory` edge. For every
other path it runs the leaf mode: it opens the path with `NtOpenFile`, returns no
edge when that fails, and otherwise queries the handle table and returns one
`Handle` edge from the root path per record when the query succeeds. What the
path names has no part in the choice: in the directory mode the result is the
same whatever `NtOpenFile` and the query of the handle table would answer, and in
the leaf mode it is the same for all services that agree on `NtOpenFile` and on
the query of the handle table. -/
theorem buildDependencyGraph_mode_is_textual (env : AnalyzerEnv) (rootObject : WString)
    (w : World) :
    (isDirectory rootObject = true ↔
      (L "\\BaseNamedObjects" <:+: rootObject ∨ rootObject = L "\\")) ∧
    ((L "\\BaseNamedObjects" <:+: rootObject ∨ rootObject = L "\\") →
      buildDependencyGraph env rootObject w =
        (if NT_SUCCESS (env.directory rootObject).openStatus then
          (dependencyQueryLoop env rootObject (env.directory rootObject).responses []
            { w with handles := w.handles.acquire.1 }).map
            (fun r => (r.1, { r.2 with
              handles := r.2.handles.release w.handles.acquire.2 }))
         else some ([], w)) ∧
      (∀ dependencies w1, buildDependencyGraph env rootObject w = some (dependencies, w1) →
        ∀ e ∈ dependencies,
          e.dependencyType = L "SymbolicLink" ∨ e.dependencyType = L "SharedMemory") ∧
      ∀ (f : Nat → WString → NTSTATUS)
        (g : Nat → NTSTATUS × List SYSTEM_HANDLE_TABLE_ENTRY_INFO_EX),
        buildDependencyGraph { env with NtOpenFile := f, NtQuerySystemInformation := g }
          rootObject w = buildDependencyGraph env rootObject w) ∧
    (¬ (L "\\BaseNamedObjects" <:+: rootObject ∨ rootObject = L "\\") →
      buildDependencyGraph env rootObject w =
        (if NT_SUCCESS (env.NtOpenFile w.calls rootObject) then
          some (if NT_SUCCESS (env.NtQuerySystemInformation (w.calls + 1)).1 then
                  (env.NtQuerySystemInformation (w.calls + 1)).2.map (fun handle =>
                    ({ sourceObject := rootObject,
                       targetObject := L "Process:" ++ to_wstring handle.UniqueProcessId,
                       dependencyType := L "Handle" } : ObjectDependency))
                else [],
                { calls := w.calls + 1 + 1,
                  handles := w.handles.acquire.1.release w.handles.acquire.2 })
         else some ([], { w with calls := w.calls + 1 })) ∧
      (∀ dependencies w1, buildDependencyGraph env rootObject w = some (dependencies, w1) →
        ∀ e ∈ dependencies, e.dependencyType = L "Handle" ∧ e.sourceObject = rootObject) ∧
      ∀ other : AnalyzerEnv, other.NtOpenFile = env.NtOpenFile →
        other.NtQuerySystemInformation = env.NtQuerySystemInformation →
        buildDependencyGraph other rootObject w = buildDependencyGraph env rootObject w) := by
  have htext : isDirectory rootObject = true ↔
      (L "\\BaseNamedObjects" <:+: rootObject ∨ rootObject = L "\\") := by
    unfold isDirectory
    simp only [Bool.or_eq_true, wcontains_iff_infix, decide_eq_true_eq]
  refine ⟨htext, ?_, ?_⟩
  · intro htextual
    have hdir : isDirectory rootObject = true := htext.2 htextual
    have heq : buildDependencyGraph env rootObject w =
        (if NT_SUCCESS (env.directory rootObject).openStatus then
          (dependencyQueryLoop env rootObject (env.directory rootObject).responses []
            { w with handles := w.handles.acquire.1 }).map
            (fun r => (r.1, { r.2 with
              handles := r.2.handles.release w.handles.acquire.2 }))
         else some ([], w)) := by
      unfold buildDependencyGraph
      by_cases hopen : NT_SUCCESS (env.directory rootObject).openStatus = true
      · cases hloop : dependencyQueryLoop env rootObject (env.directory rootObject).responses
            [] { w with handles := w.handles.acquire.1 } with
        | none =>
          simp only [HandleTable.acquire] at hloop
          simp [hdir, hopen, HandleTable.acquire, hloop]
        | some r =>
          simp only [HandleTable.acquire] at hloop
          simp [hdir, hopen, HandleTable.acquire, hloop]
      · simp [hdir, hopen]
    refine ⟨heq, ?_, ?_⟩
    · intro dependencies w1 h
      rw [heq] at h
      by_cases hopen : NT_SUCCESS (env.directory rootObject).openStatus = true
      · rw [if_pos hopen] at h
        cases hloop : dependencyQueryLoop env rootObject (env.directory rootObject).responses
            [] { w with handles := w.handles.acquire.1 } with
        | none =>
          rw [hloop] at h
          exact absurd h (by simp)
        | some r =>
          rw [hloop] at h
          simp only [Option.map_some', Option.some.injEq, Prod.mk.injEq] at h
          rw [← h.1]
          exact dependencyQueryLoop_kinds env rootObject _ [] _ r hloop
            (fun e he => absurd he (List.not_mem_nil e))
      · rw [if_neg hopen] at h
        simp only [Option.some.injEq, Prod.mk.injEq] at h
        rw [← h.1]
        exact fun e he => absurd he (List.not_mem_nil e)
    · intro f g
      unfold buildDependencyGraph
      simp only [hdir, if_true, dependencyQueryLoop_congr]
  · intro htextual
    have hleaf : isDirectory rootObject = false := by
      cases hd : isDirectory rootObject with
      | false => rfl
      | true => exact absurd (htext.1 hd) htextual
    have heq : buildDependencyGraph env rootObject w =
        (if NT_SUCCESS (env.NtOpenFile w.calls rootObject) then
          some (if NT_SUCCESS (env.NtQuerySystemInformation (w.calls + 1)).1 then
                  (env.NtQuerySystemInformation (w.calls + 1)).2.map (fun handle =>
                    ({ sourceObject := rootObject,
                       targetObject := L "Process:" ++ to_wstring handle.UniqueProcessId,
                       dependencyType := L "Handle" } : ObjectDependency))
                else [],
                { calls := w.calls + 1 + 1,
                  handles := w.handles.acquire.1.release w.handles.acquire.2 })
         else some ([], { w with calls := w.calls + 1 })) := by
      unfold buildDependencyGraph
      by_cases hfile : NT_SUCCESS (env.NtOpenFile w.calls rootObject) = true
      · by_cases hq : NT_SUCCESS (env.NtQuerySystemInformation (w.calls + 1)).1 = true
        · simp [hleaf, hfile, hq, handleLoop_eq, HandleTable.acquire]
        · simp [hleaf, hfile, hq, HandleTable.acquire]
      · simp [hleaf, hfile]
    refine ⟨heq, ?_, ?_⟩
    · intro dependencies w1 h
      rw [heq] at h
      by_cases hfile : NT_SUCCESS (env.NtOpenFile w.calls rootObject) = true
      · rw [if_pos hfile] at h
        simp only [Option.some.injEq, Prod.mk.injEq] at h
        rw [← h.1]
        by_cases hq : NT_SUCCESS (env.NtQuerySystemInformation (w.calls + 1)).1 = true
        · rw [if_pos hq]
          intro e he
          obtain ⟨handle, _, hhandle⟩ := List.mem_map.1 he
          rw [← hhandle]
          exact ⟨rfl, rfl⟩
        · rw [if_neg hq]
          exact fun e he => absurd he (List.not_mem_nil e)
      · rw [if_neg hfile] at h
        simp only [Option.some.injEq, Prod.mk.injEq] at h
        rw [← h.1]
        exact fun e he => absurd he (List.not_mem_nil e)
    · intro other hfile hquery
      unfold buildDependencyGraph
      simp only [hleaf, Bool.false_eq_true, if_false, hfile, hquery]

/-- C23, witness: services under which every file opens, the handle table has
two records and no directory opens. `\BaseNamedObjects\MyEvent` names an event:
it is taken for a directory, and there is no edge although the handle table
could be read for it. `\Device` names a directory: it is taken for a leaf
object, and every record of the handle table gives an edge. -/
theorem buildDependencyGraph_mode_is_textual_witness :
    buildDependencyGraph (exampleLeafServices 0) (L "\\BaseNamedObjects\\MyEvent")
        ⟨0, ⟨0, []⟩⟩ = some ([], ⟨0, ⟨0, []⟩⟩) ∧
    buildDependencyGraph (exampleLeafServices 0) (L "\\Device") ⟨0, ⟨0, []⟩⟩ =
      some ([{ sourceObject := L "\\Device", targetObject := L "Process:4",
               dependencyType := L "Handle" },
             { sourceObject := L "\\Device", targetObject := L "Process:812",
               dependencyType := L "Handle" }], ⟨2, ⟨1, []⟩⟩) :=
  ⟨Eq.trans
    ((buildDependencyGraph_mode_is_textual (exampleLeafServices 0)
      (L "\\BaseNamedObjects\\MyEvent") ⟨0, ⟨0, []⟩⟩).2.1
      (Or.inl ⟨[], L "\\MyEvent", by decide⟩)).1
    (by decide),
   Eq.trans
    ((buildDependencyGraph_mode_is_textual (exampleLeafServices 0) (L "\\Device")
      ⟨0, ⟨0, []⟩⟩).2.2
      (mt (buildDependencyGraph_mode_is_textual (exampleLeafServices 0) (L "\\Device")
        ⟨0, ⟨0, []⟩⟩).1.2 (by decide))).1
    (by decide)⟩

/-! ## One monitoring cycle in full -/

theorem takeSnapshot_spec (dir : DirectoryScript) (handles : HandleTable) :
    (∀ l, dir.listing = some l →
      ∃ table, takeSnapshot dir handles =
          some (l.map OBJECT_DIRECTORY_INFORMATION.pair, table) ∧
        table.opened = handles.opened) ∧
    (dir.listing = none → takeSnapshot dir handles = none) := by
  unfold DirectoryScript.listing takeSnapshot
  by_cases hopen : NT_SUCCESS dir.openStatus = true
  · simp only [hopen, if_true, monitorQueryLoop_eq]
    refine ⟨?_, ?_⟩
    · intro l h
      simp only [h, Option.map_some', List.nil_append]
      exact ⟨_, rfl, release_acquire handles⟩
    · intro h
      simp only [h, Option.map_none']
  · simp only [hopen, if_false]
    refine ⟨?_, ?_⟩
    · intro l h
      have hl : l = [] := by
        injection h with h
        exact h.symm
      subst hl
      exact ⟨handles, rfl, rfl⟩
    · intro h
      exact absurd h (by simp)

theorem updateStatistics_spec (getSystemTime : Nat → SYSTEMTIME) (dir : DirectoryScript)
    (st : CycleState) :
    (∀ l, dir.listing = some l →
      ∃ st1, updateStatistics getSystemTime dir st = some st1 ∧
        st1.prevObjects = st.prevObjects ∧ st1.invoked = st.invoked ∧
        st1.statistics = (statisticsBufferLoop getSystemTime l st.statistics st.ticks).1 ∧
        st1.ticks = (statisticsBufferLoop getSystemTime l st.statistics st.ticks).2 ∧
        st1.handles.opened = st.handles.opened) ∧
    (dir.listing = none → updateStatistics getSystemTime dir st = none) := by
  unfold DirectoryScript.listing updateStatistics
  by_cases hopen : NT_SUCCESS dir.openStatus = true
  · simp only [hopen, if_true, Bool.not_true, Bool.false_eq_true, if_false,
      statisticsQueryLoop_eq]
    refine ⟨?_, ?_⟩
    · intro l h
      simp only [h, Option.map_some']
      exact ⟨_, rfl, rfl, rfl, rfl, rfl, release_acquire st.handles⟩
    · intro h
      simp only [h, Option.map_none']
  · have hopen2 : NT_SUCCESS dir.openStatus = false := by simpa using hopen
    simp only [hopen2, Bool.false_eq_true, if_false, Bool.not_false, if_true]
    refine ⟨?_, ?_⟩
    · intro l h
      have hl : l = [] := by
        injection h with h
        exact h.symm
      subst hl
      exact ⟨st, rfl, rfl, rfl, rfl, rfl, rfl⟩
    · intro h
      exact absurd h (by simp)

theorem monitoringCycle_full (getSystemTime : Nat → SYSTEMTIME) (callbackSet : Bool)
    (env : CycleEnv) (st : CycleState) (l l2 : List OBJECT_DIRECTORY_INFORMATION)
    (h : env.snapshotDir.listing = some l) (h2 : env.statisticsDir.listing = some l2) :
    ∃ st1, monitoringCycle getSystemTime callbackSet env st = some st1 ∧
      st1.prevObjects = l.map OBJECT_DIRECTORY_INFORMATION.pair ∧
      st1.invoked = st.invoked ++
        (if callbackSet then
          detectChanges getSystemTime st.ticks st.prevObjects
            (l.map OBJECT_DIRECTORY_INFORMATION.pair)
         else []) ∧
      st1.statistics = (statisticsBufferLoop getSystemTime l2 st.statistics
        (st.ticks + (detectChanges getSystemTime st.ticks st.prevObjects
          (l.map OBJECT_DIRECTORY_INFORMATION.pair)).length)).1 ∧
      st1.ticks = (statisticsBufferLoop getSystemTime l2 st.statistics
        (st.ticks + (detectChanges getSystemTime st.ticks st.prevObjects
          (l.map OBJECT_DIRECTORY_INFORMATION.pair)).length)).2 ∧
      st1.handles.opened = st.handles.opened := by
  obtain ⟨table, htable, hopened⟩ := (takeSnapshot_spec env.snapshotDir st.handles).1 l h
  unfold monitoringCycle
  rw [htable]
  simp only
  obtain ⟨st1, hst1, hprev, hinv, hstat, hticks, hhandles⟩ :=
    (updateStatistics_spec getSystemTime env.statisticsDir
      { prevObjects := l.map OBJECT_DIRECTORY_INFORMATION.pair,
        statistics := st.statistics,
        ticks := st.ticks + (detectChanges getSystemTime st.ticks st.prevObjects
          (l.map OBJECT_DIRECTORY_INFORMATION.pair)).length,
        handles := table,
        invoked := st.invoked ++ (if callbackSet then
          detectChanges getSystemTime st.ticks st.prevObjects
            (l.map OBJECT_DIRECTORY_INFORMATION.pair) else []) }).1 l2 h2
  exact ⟨st1, hst1, hprev, hinv, hstat, hticks, hhandles.trans hopened⟩

theorem listings_of_monitoringCycle (getSystemTime : Nat → SYSTEMTIME) (callbackSet : Bool)
    (env : CycleEnv) (st st1 : CycleState)
    (h : monitoringCycle getSystemTime callbackSet env st = some st1) :
    ∃ l l2, env.snapshotDir.listing = some l ∧ env.statisticsDir.listing = some l2 := by
  cases hl : env.snapshotDir.listing with
  | none =>
    unfold monitoringCycle at h
    rw [(takeSnapshot_spec env.snapshotDir st.handles).2 hl] at h
    exact absurd h (by simp)
  | some l =>
    cases hl2 : env.statisticsDir.listing with
    | none =>
      obtain ⟨table, htable, _⟩ := (takeSnapshot_spec env.snapshotDir st.handles).1 l hl
      unfold monitoringCycle at h
      rw [htable] at h
      simp only at h
      rw [(updateStatistics_spec getSystemTime env.statisticsDir _).2 hl2] at h
      exact absurd h (by simp)
    | some l2 => exact ⟨l, l2, rfl, rfl⟩

/-- What one cycle that returns leaves behind, in terms of the records its two
enumerations see. -/
theorem monitoringCycle_inv (getSystemTime : Nat → SYSTEMTIME) (callbackSet : Bool)
    (env : CycleEnv) (st st1 : CycleState)
    (h : monitoringCycle getSystemTime callbackSet env st = some st1) :
    ∃ l l2 t, env.snapshotDir.listing = some l ∧ env.statisticsDir.listing = some l2 ∧
      st1.prevObjects = l.map OBJECT_DIRECTORY_INFORMATION.pair ∧
      st1.statistics = (statisticsBufferLoop getSystemTime l2 st.statistics t).1 ∧
      st1.handles.opened = st.handles.opened := by
  obtain ⟨l, l2, hl, hl2⟩ := listings_of_monitoringCycle getSystemTime callbackSet env st st1 h
  obtain ⟨st2, hst2, hprev, _, hstat, _, hhandles⟩ :=
    monitoringCycle_full getSystemTime callbackSet env st l l2 hl hl2
  rw [h] at hst2
  injection hst2 with hst2
  subst hst2
  exact ⟨l, l2, _, hl, hl2, hprev, hstat, hhandles⟩

/-- What a step does to the statistics map and to the open handles: nothing,
or what the inner loop of `updateStatistics` does over some records. -/
theorem step_statistics (getSystemTime : Nat → SYSTEMTIME) (p p1 : Process) (a : Action)
    (events : List Event) (hstep : step getSystemTime p a = some (p1, events)) :
    p1.handles.opened = p.handles.opened ∧
    (p1.monitor.statistics = p.monitor.statistics ∨
      ∃ l2 t, p1.monitor.statistics =
        (statisticsBufferLoop getSystemTime l2 p.monitor.statistics t).1) := by
  cases a with
  | setCallback callback =>
    cases hc : p.caller with
    | joining t => simp [step, hc] at hstep
    | idle =>
      simp only [step, hc, Option.some.injEq, Prod.mk.injEq] at hstep
      obtain ⟨hp1, _⟩ := hstep
      subst hp1
      exact ⟨rfl, Or.inl rfl⟩
  | start path =>
    cases hc : p.caller with
    | joining t => simp [step, hc] at hstep
    | idle =>
      simp only [step, hc] at hstep
      unfold startMonitoring at hstep
      by_cases hf : p.monitor.isMonitoring = true
      · simp only [hf, if_true, Option.map_some', Option.some.injEq, Prod.mk.injEq] at hstep
        obtain ⟨hp1, _⟩ := hstep
        subst hp1
        exact ⟨rfl, Or.inl rfl⟩
      · cases ht : p.monitor.monitorThread with
        | some t => simp [hf, ht] at hstep
        | none =>
          simp only [hf, Bool.false_eq_true, if_false, ht, Option.map_some',
            Option.some.injEq, Prod.mk.injEq] at hstep
          obtain ⟨hp1, _⟩ := hstep
          subst hp1
          exact ⟨rfl, Or.inl rfl⟩
  | stopEnter =>
    cases hc : p.caller with
    | joining t => simp [step, hc] at hstep
    | idle =>
      by_cases hf : p.monitor.isMonitoring = true
      · cases ht : p.monitor.monitorThread with
        | some t =>
          simp only [step, hc, hf, Bool.not_true, Bool.false_eq_true, if_false, ht,
            Option.some.injEq, Prod.mk.injEq] at hstep
          obtain ⟨hp1, _⟩ := hstep
          subst hp1
          exact ⟨rfl, Or.inl rfl⟩
        | none =>
          simp only [step, hc, hf, Bool.not_true, Bool.false_eq_true, if_false, ht,
            Option.some.injEq, Prod.mk.injEq] at hstep
          obtain ⟨hp1, _⟩ := hstep
          subst hp1
          exact ⟨rfl, Or.inl rfl⟩
      · have hf2 : p.monitor.isMonitoring = false := by simpa using hf
        simp only [step, hc, hf2, Bool.not_false, if_true, Option.some.injEq,
          Prod.mk.injEq] at hstep
        obtain ⟨hp1, _⟩ := hstep
        subst hp1
        exact ⟨rfl, Or.inl rfl⟩
  | joinReturn =>
    cases hc : p.caller with
    | idle => simp [step, hc] at hstep
    | joining t =>
      cases hfind : p.workers.find? (fun v => decide (v.id = t)) with
      | none => simp [step, hc, hfind] at hstep
      | some w =>
        by_cases hpc : w.pc = WorkerPc.returned
        · simp only [step, hc, hfind, hpc, if_true, Option.some.injEq,
            Prod.mk.injEq] at hstep
          obtain ⟨hp1, _⟩ := hstep
          subst hp1
          exact ⟨rfl, Or.inl rfl⟩
        · simp [step, hc, hfind, hpc] at hstep
  | check thread =>
    cases hfind : p.workers.find? (fun v => decide (v.id = thread)) with
    | none => simp [step, hfind] at hstep
    | some w =>
      by_cases hpc : w.pc = WorkerPc.loopTop
      · simp only [step, hfind, hpc, if_true, Option.some.injEq, Prod.mk.injEq] at hstep
        obtain ⟨hp1, _⟩ := hstep
        subst hp1
        exact ⟨rfl, Or.inl rfl⟩
      · simp [step, hfind, hpc] at hstep
  | body thread env =>
    cases hfind : p.workers.find? (fun v => decide (v.id = thread)) with
    | none => simp [step, hfind] at hstep
    | some w =>
      by_cases hpc : w.pc = WorkerPc.inCycle
      · cases hcycle : monitoringCycle getSystemTime p.monitor.changeCallback env
            { prevObjects := w.prevObjects, statistics := p.monitor.statistics,
              ticks := p.ticks, handles := p.handles, invoked := [] } with
        | none => simp [step, hfind, hpc, hcycle] at hstep
        | some st =>
          simp only [step, hfind, hpc, if_true, hcycle, Option.some.injEq,
            Prod.mk.injEq] at hstep
          obtain ⟨hp1, _⟩ := hstep
          subst hp1
          obtain ⟨l, l2, t, _, _, _, hstat, hhandles⟩ :=
            monitoringCycle_inv getSystemTime p.monitor.changeCallback env _ st hcycle
          exact ⟨hhandles, Or.inr ⟨l2, t, hstat⟩⟩
      · simp [step, hfind, hpc] at hstep

theorem statisticsBufferLoop_preserves (P : List (WString × ObjectStatistics) → Prop)
    (getSystemTime : Nat → SYSTEMTIME)
    (hP : ∀ name m t, P m → P (touchStatistics getSystemTime name m t))
    (l : List OBJECT_DIRECTORY_INFORMATION) (m : List (WString × ObjectStatistics)) (t : Nat)
    (hm : P m) : P (statisticsBufferLoop getSystemTime l m t).1 := by
  induction l generalizing m t with
  | nil => exact hm
  | cons info rest ih =>
    simp only [statisticsBufferLoop]
    exact ih _ _ (hP _ _ _ hm)

theorem runSteps_preserves (P : List (WString × ObjectStatistics) → Prop)
    (getSystemTime : Nat → SYSTEMTIME)
    (hP : ∀ name m t, P m → P (touchStatistics getSystemTime name m t))
    (actions : List Action) (p p1 : Process) (events : List Event)
    (hrun : runSteps getSystemTime actions p = some (p1, events))
    (hp : P p.monitor.statistics) : P p1.monitor.statistics := by
  induction actions generalizing p events with
  | nil =>
    simp only [runSteps, Option.some.injEq, Prod.mk.injEq] at hrun
    obtain ⟨hp1, _⟩ := hrun
    subst hp1
    exact hp
  | cons a rest ih =>
    unfold runSteps at hrun
    cases hstep : step getSystemTime p a with
    | none =>
      rw [hstep] at hrun
      exact absurd hrun (by simp)
    | some r =>
      obtain ⟨p2, ev1⟩ := r
      rw [hstep] at hrun
      simp only at hrun
      cases hrest : runSteps getSystemTime rest p2 with
      | none =>
        rw [hrest] at hrun
        exact absurd hrun (by simp)
      | some r2 =>
        obtain ⟨p3, ev2⟩ := r2
        rw [hrest] at hrun
        simp only [Option.some.injEq, Prod.mk.injEq] at hrun
        obtain ⟨hp1, _⟩ := hrun
        subst hp1
        refine ih p2 ev2 hrest ?_
        rcases (step_statistics getSystemTime p p2 a ev1 hstep).2 with h | ⟨l2, t, h⟩
        · rw [h]
          exact hp
        · rw [h]
          exact statisticsBufferLoop_preserves P getSystemTime hP l2 _ t hp

theorem monitoringThread_preserves (P : List (WString × ObjectStatistics) → Prop)
    (getSystemTime : Nat → SYSTEMTIME)
    (hP : ∀ name m t, P m → P (touchStatistics getSystemTime name m t))
    (callbackSet : Bool) (envs : List CycleEnv) (st st1 : CycleState)
    (hrun : monitoringThread getSystemTime callbackSet envs st = some st1)
    (hp : P st.statistics) : P st1.statistics := by
  induction envs generalizing st with
  | nil =>
    simp only [monitoringThread, Option.some.injEq] at hrun
    subst hrun
    exact hp
  | cons env rest ih =>
    unfold monitoringThread at hrun
    cases hcycle : monitoringCycle getSystemTime callbackSet env st with
    | none =>
      rw [hcycle] at hrun
      exact absurd hrun (by simp)
    | some st2 =>
      rw [hcycle] at hrun
      simp only at hrun
      obtain ⟨l, l2, t, _, _, _, hstat, _⟩ :=
        monitoringCycle_inv getSystemTime callbackSet env st st2 hcycle
      refine ih st2 hrun ?_
      rw [hstat]
      exact statisticsBufferLoop_preserves P getSystemTime hP l2 _ t hp

/-! ## C26: the counters of a statistics record -/

theorem value_of_mem_mapModify {β : Type} (dflt : β) (f : β → β) (key : WString)
    (m : List (WString × β)) (x : WString × β) (hx : x ∈ mapModify dflt f key m) :
    x ∈ m ∨ ∃ v, x.2 = f v := by
  induction m with
  | nil =>
    simp only [mapModify, List.mem_singleton] at hx
    rw [hx]
    exact Or.inr ⟨dflt, rfl⟩
  | cons y rest ih =>
    obtain ⟨k, v⟩ := y
    unfold mapModify at hx
    by_cases h1 : wstrLt key k = true
    · rw [if_pos h1] at hx
      rcases List.mem_cons.1 hx with hx | hx
      · rw [hx]
        exact Or.inr ⟨dflt, rfl⟩
      · exact Or.inl hx
    · rw [if_neg h1] at hx
      by_cases h2 : wstrLt k key = true
      · rw [if_pos h2] at hx
        rcases List.mem_cons.1 hx with hx | hx
        · exact Or.inl (by rw [hx]; exact List.mem_cons_self _ _)
        · rcases ih hx with h | h
          · exact Or.inl (List.mem_cons_of_mem _ h)
          · exact Or.inr h
      · rw [if_neg h2] at hx
        rcases List.mem_cons.1 hx with hx | hx
        · rw [hx]
          exact Or.inr ⟨v, rfl⟩
        · exact Or.inl (List.mem_cons_of_mem _ hx)

theorem touchStatistics_placeholders (getSystemTime : Nat → SYSTEMTIME) (name : WString)
    (m : List (WString × ObjectStatistics)) (t : Nat)
    (hm : ∀ entry ∈ m, entry.2.handleCount = 0 ∧ entry.2.referenceCount = 0 ∧
      entry.2.memoryUsage = 0) :
    ∀ entry ∈ touchStatistics getSystemTime name m t,
      entry.2.handleCount = 0 ∧ entry.2.referenceCount = 0 ∧ entry.2.memoryUsage = 0 := by
  intro entry hentry
  unfold touchStatistics at hentry
  rcases value_of_mem_mapModify _ _ _ _ entry hentry with h | ⟨v, h⟩
  · exact hm entry h
  · rw [h]
    exact ⟨rfl, rfl, rfl⟩

/-- C26. In every state that steps of the caller and of the workers, monitoring
cycles among them, reach from a freshly constructed monitor, every entry of the
map that `getObjectsStatistics` returns has `handleCount`, `referenceCount` and
`memoryUsage` equal to zero, whatever the enumerations of the cycles saw. -/
theorem statistics_counters_are_placeholders (getSystemTime : Nat → SYSTEMTIME)
    (actions : List Action) (p : Process) (events : List Event)
    (hrun : runSteps getSystemTime actions construct = some (p, events)) :
    ∀ entry ∈ getObjectsStatistics p,
      entry.2.handleCount = 0 ∧ entry.2.referenceCount = 0 ∧ entry.2.memoryUsage = 0 := by
  unfold getObjectsStatistics
  refine runSteps_preserves
    (fun m => ∀ entry ∈ m,
      entry.2.handleCount = 0 ∧ entry.2.referenceCount = 0 ∧ entry.2.memoryUsage = 0)
    getSystemTime (touchStatistics_placeholders getSystemTime) actions construct p events
    hrun ?_
  intro entry hentry
  exact absurd hentry (List.not_mem_nil entry)

/-- C26, witness: after the run `exampleRun` the map holds `X` and `Y`; the
access times differ and the counters are zero. -/
theorem statistics_counters_are_placeholders_witness :
    getObjectsStatistics exampleRunEnd =
      [(L "X", ⟨0, 0, 0, exampleClock 2⟩), (L "Y", ⟨0, 0, 0, exampleClock 3⟩)] ∧
    ∀ entry ∈ getObjectsStatistics exampleRunEnd,
      entry.2.handleCount = 0 ∧ entry.2.referenceCount = 0 ∧ entry.2.memoryUsage = 0 :=
  ⟨rfl,
   statistics_counters_are_placeholders exampleClock exampleRun exampleRunEnd
     [Event.startCalled,
      Event.callback ⟨L "Y", L "Event", L "Created", exampleClock 1⟩,
      Event.stopReturned, Event.stopReturned] (by decide)⟩

/-! ## C21: the keys of the statistics map -/

theorem mapModify_keeps_keys {β : Type} (dflt : β) (f : β → β) (key : WString)
    (m : List (WString × β)) (k : WString) (hk : k ∈ m.map Prod.fst) :
    k ∈ (mapModify dflt f key m).map Prod.fst := by
  induction m with
  | nil => exact absurd hk (List.not_mem_nil k)
  | cons y rest ih =>
    obtain ⟨k0, v⟩ := y
    unfold mapModify
    by_cases h1 : wstrLt key k0 = true
    · rw [if_pos h1]
      exact List.mem_cons_of_mem _ hk
    · rw [if_neg h1]
      by_cases h2 : wstrLt k0 key = true
      · rw [if_pos h2]
        simp only [List.map_cons, List.mem_cons] at hk ⊢
        rcases hk with hk | hk
        · exact Or.inl hk
        · exact Or.inr (ih hk)
      · rw [if_neg h2]
        exact hk

theorem mapModify_has_key {β : Type} (dflt : β) (f : β → β) (key : WString)
    (m : List (WString × β)) : key ∈ (mapModify dflt f key m).map Prod.fst := by
  induction m with
  | nil => simp [mapModify]
  | cons y rest ih =>
    obtain ⟨k0, v⟩ := y
    unfold mapModify
    by_cases h1 : wstrLt key k0 = true
    · rw [if_pos h1]
      simp
    · rw [if_neg h1]
      by_cases h2 : wstrLt k0 key = true
      · rw [if_pos h2]
        simp only [List.map_cons, List.mem_cons]
        exact Or.inr ih
      · rw [if_neg h2]
        have heq : key = k0 :=
          wstrLt_total key k0 (by simpa using h1) (by simpa using h2)
        simp [heq]

theorem touchStatistics_keeps_keys (getSystemTime : Nat → SYSTEMTIME) (k name : WString)
    (m : List (WString × ObjectStatistics)) (t : Nat) (hk : k ∈ m.map Prod.fst) :
    k ∈ (touchStatistics getSystemTime name m t).map Prod.fst :=
  mapModify_keeps_keys _ _ name m k hk

theorem statisticsBufferLoop_has_keys (getSystemTime : Nat → SYSTEMTIME)
    (l : List OBJECT_DIRECTORY_INFORMATION) (m : List (WString × ObjectStatistics)) (t : Nat)
    (info : OBJECT_DIRECTORY_INFORMATION) (hinfo : info ∈ l) :
    info.Name ∈ (statisticsBufferLoop getSystemTime l m t).1.map Prod.fst := by
  induction l generalizing m t with
  | nil => exact absurd hinfo (List.not_mem_nil info)
  | cons head rest ih =>
    simp only [statisticsBufferLoop]
    rcases List.mem_cons.1 hinfo with h | h
    · rw [h]
      exact statisticsBufferLoop_preserves (fun m => head.Name ∈ m.map Prod.fst)
        getSystemTime (fun name m t => touchStatistics_keeps_keys getSystemTime _ name m t)
        rest _ _ (mapModify_has_key _ _ head.Name m)
    · exact ih _ _ h

theorem runCalls_statistics (calls : List Call) (p p1 : Process)
    (hrun : runCalls calls p = some p1) : p1.monitor.statistics = p.monitor.statistics := by
  induction calls generalizing p with
  | nil =>
    simp only [runCalls, Option.some.injEq] at hrun
    rw [← hrun]
  | cons c rest ih =>
    cases c with
    | start path =>
      simp only [runCalls] at hrun
      cases hstart : startMonitoring path p with
      | none =>
        rw [hstart] at hrun
        exact absurd hrun (by simp)
      | some p2 =>
        rw [hstart] at hrun
        simp only at hrun
        rw [ih p2 hrun]
        unfold startMonitoring at hstart
        by_cases hf : p.monitor.isMonitoring = true
        · simp only [hf, if_true, Option.some.injEq] at hstart
          rw [← hstart]
        · cases ht : p.monitor.monitorThread with
          | some t => simp [hf, ht] at hstart
          | none =>
            simp only [hf, Bool.false_eq_true, if_false, ht, Option.some.injEq] at hstart
            rw [← hstart]
    | stop =>
      simp only [runCalls] at hrun
      rw [ih _ hrun]
      unfold stopMonitoring
      by_cases hf : p.monitor.isMonitoring = true
      · cases ht : p.monitor.monitorThread with
        | some t => simp [hf, ht, join]
        | none => simp [hf, ht]
      · simp [hf]

/-- C21. The statistics map never loses a key. Over every sequence of steps of
the caller and the workers (calls of `startMonitoring` and `stopMonitoring`,
monitoring cycles), and over every sequence of cycles of one thread, a name that
is a key stays a key; calls of `startMonitoring` and `stopMonitoring` leave the
map as it is; and a name that the enumeration of `updateStatistics` sees in a
cycle is a key at the end of that cycle. So a name seen once is a key ever
after, whatever later cycles find in the directory. -/
theorem statistics_keys_never_pruned (getSystemTime : Nat → SYSTEMTIME) (name : WString) :
    (∀ actions p p1 events, runSteps getSystemTime actions p = some (p1, events) →
      name ∈ p.monitor.statistics.map Prod.fst →
      name ∈ p1.monitor.statistics.map Prod.fst) ∧
    (∀ callbackSet envs st st1,
      monitoringThread getSystemTime callbackSet envs st = some st1 →
      name ∈ st.statistics.map Prod.fst → name ∈ st1.statistics.map Prod.fst) ∧
    (∀ calls p p1, runCalls calls p = some p1 →
      p1.monitor.statistics = p.monitor.statistics) ∧
    (∀ callbackSet env st st1 l2,
      monitoringCycle getSystemTime callbackSet env st = some st1 →
      env.statisticsDir.listing = some l2 → (∃ info ∈ l2, info.Name = name) →
      name ∈ st1.statistics.map Prod.fst) := by
  refine ⟨?_, ?_, ?_, ?_⟩
  · intro actions p p1 events hrun hname
    exact runSteps_preserves (fun m => name ∈ m.map Prod.fst) getSystemTime
      (fun n m t => touchStatistics_keeps_keys getSystemTime name n m t)
      actions p p1 events hrun hname
  · intro callbackSet envs st st1 hrun hname
    exact monitoringThread_preserves (fun m => name ∈ m.map Prod.fst) getSystemTime
      (fun n m t => touchStatistics_keeps_keys getSystemTime name n m t)
      callbackSet envs st st1 hrun hname
  · intro calls p p1 hrun
    exact runCalls_statistics calls p p1 hrun
  · intro callbackSet env st st1 l2 hcycle hl2 hseen
    obtain ⟨info, hinfo, hinfoName⟩ := hseen
    obtain ⟨l, l3, t, _, hl3, _, hstat, _⟩ :=
      monitoringCycle_inv getSystemTime callbackSet env st st1 hcycle
    rw [hl2] at hl3
    injection hl3 with hl3
    subst hl3
    rw [hstat, ← hinfoName]
    exact statisticsBufferLoop_has_keys getSystemTime l2 _ t info hinfo

/-- C21, witness: `X` and `Y` are keys at the end of `exampleRun`; monitoring
starts again, the one cycle finds the directory empty, monitoring stops, and
`X` is still a key. -/
theorem statistics_keys_never_pruned_witness :
    runSteps exampleClock exampleVanishRun exampleRunEnd =
      some (exampleVanishEnd, [Event.startCalled, Event.stopReturned]) ∧
    L "X" ∈ exampleRunEnd.monitor.statistics.map Prod.fst ∧
    L "X" ∈ exampleVanishEnd.monitor.statistics.map Prod.fst :=
  ⟨by decide, by decide,
   (statistics_keys_never_pruned exampleClock (L "X")).1 exampleVanishRun exampleRunEnd
     exampleVanishEnd [Event.startCalled, Event.stopReturned] (by decide) (by decide)⟩

/-! ## C24: a cycle whose directory cannot be opened -/

theorem monitoringCycle_none (getSystemTime : Nat → SYSTEMTIME) (callbackSet : Bool)
    (env : CycleEnv) (st : CycleState)
    (h : env.snapshotDir.listing = none ∨ env.statisticsDir.listing = none) :
    monitoringCycle getSystemTime callbackSet env st = none := by
  cases hc : monitoringCycle getSystemTime callbackSet env st with
  | none => rfl
  | some st1 =>
    obtain ⟨l, l2, hl, hl2⟩ :=
      listings_of_monitoringCycle getSystemTime callbackSet env st st1 hc
    rcases h with h | h
    · rw [hl] at h
      exact absurd h (by simp)
    · rw [hl2] at h
      exact absurd h (by simp)

/-- Two cycles whose snapshots see the same records and whose second
enumerations are the same leave the same state, up to the number of handles
handed out. -/
theorem monitoringCycle_congr_snapshot (getSystemTime : Nat → SYSTEMTIME)
    (callbackSet : Bool) (dir1 dir2 statisticsDir : DirectoryScript) (st : CycleState)
    (l : List OBJECT_DIRECTORY_INFORMATION) (h1 : dir1.listing = some l)
    (h2 : dir2.listing = some l) :
    (monitoringCycle getSystemTime callbackSet ⟨dir1, statisticsDir⟩ st).map
        (fun s => (s.prevObjects, s.invoked, s.statistics, s.ticks, s.handles.opened)) =
      (monitoringCycle getSystemTime callbackSet ⟨dir2, statisticsDir⟩ st).map
        (fun s => (s.prevObjects, s.invoked, s.statistics, s.ticks, s.handles.opened)) := by
  cases hl2 : statisticsDir.listing with
  | none =>
    rw [monitoringCycle_none getSystemTime callbackSet ⟨dir1, statisticsDir⟩ st (Or.inr hl2),
      monitoringCycle_none getSystemTime callbackSet ⟨dir2, statisticsDir⟩ st (Or.inr hl2)]
  | some l2 =>
    obtain ⟨s1, hs1, ha1, hb1, hc1, hd1, he1⟩ := monitoringCycle_full getSystemTime
      callbackSet ⟨dir1, statisticsDir⟩ st l l2 h1 hl2
    obtain ⟨s2, hs2, ha2, hb2, hc2, hd2, he2⟩ := monitoringCycle_full getSystemTime
      callbackSet ⟨dir2, statisticsDir⟩ st l l2 h2 hl2
    rw [hs1, hs2]
    simp only [Option.map_some', ha1, hb1, hc1, hd1, he1, ha2, hb2, hc2, hd2, he2]

/-- C24. A monitoring cycle whose `NtOpenDirectoryObject` fails takes the empty
snapshot, and it leaves the same baseline, invocations of the callback,
statistics, clock readings and open handles as a cycle whose directory opens and
lists nothing. When the previous snapshot is not empty, its change detection
reports no creation and one deletion for every distinct pair of the previous
snapshot, and nothing else; with a callback registered and a second enumeration
that ends, these are the invocations the cycle adds, and the next baseline is
empty. -/
theorem failed_open_cycle_is_empty_directory_cycle (getSystemTime : Nat → SYSTEMTIME)
    (failed empty statisticsDir : DirectoryScript) (st : CycleState)
    (hfailed : NT_SUCCESS failed.openStatus = false)
    (hopen : NT_SUCCESS empty.openStatus = true)
    (hnothing : listingOf empty.responses = some []) (hprev : st.prevObjects ≠ []) :
    takeSnapshot failed st.handles = some ([], st.handles) ∧
    (∀ callbackSet,
      (monitoringCycle getSystemTime callbackSet ⟨failed, statisticsDir⟩ st).map
          (fun s => (s.prevObjects, s.invoked, s.statistics, s.ticks, s.handles.opened)) =
        (monitoringCycle getSystemTime callbackSet ⟨empty, statisticsDir⟩ st).map
          (fun s => (s.prevObjects, s.invoked, s.statistics, s.ticks, s.handles.opened))) ∧
    createdOf (detectChanges getSystemTime st.ticks st.prevObjects []) = [] ∧
    (∀ p ∈ st.prevObjects,
      ((deletedOf (detectChanges getSystemTime st.ticks st.prevObjects [])).filter
        (fun q => decide (q = p))).length = 1) ∧
    (∀ p ∈ deletedOf (detectChanges getSystemTime st.ticks st.prevObjects []),
      p ∈ st.prevObjects) ∧
    (∀ l2, statisticsDir.listing = some l2 →
      ∃ st1, monitoringCycle getSystemTime true ⟨failed, statisticsDir⟩ st = some st1 ∧
        st1.prevObjects = [] ∧
        st1.invoked = st.invoked ++ detectChanges getSystemTime st.ticks st.prevObjects []) := by
  have hlisting : failed.listing = some [] := by
    unfold DirectoryScript.listing
    simp [hfailed]
  have hempty : empty.listing = some [] := by
    unfold DirectoryScript.listing
    rw [if_pos hopen]
    exact hnothing
  refine ⟨?_, ?_, ?_, ?_, ?_, ?_⟩
  · unfold takeSnapshot
    simp [hfailed]
  · intro callbackSet
    exact monitoringCycle_congr_snapshot getSystemTime callbackSet failed empty statisticsDir
      st [] hlisting hempty
  · rw [createdOf_detectChanges _ _ _ _ hprev]
    rfl
  · intro p hp
    rw [deletedOf_detectChanges _ _ _ _ hprev, occurrences_filter_setOfRange]
    simp [hp]
  · intro p hp
    rw [deletedOf_detectChanges _ _ _ _ hprev] at hp
    exact (mem_setOfRange p st.prevObjects).1 (List.mem_filter.1 hp).1
  · intro l2 hl2
    obtain ⟨st1, hst1, ha, hb, _⟩ := monitoringCycle_full getSystemTime true
      ⟨failed, statisticsDir⟩ st [] l2 hlisting hl2
    refine ⟨st1, hst1, ha, ?_⟩
    rw [hb]
    rfl

/-- C24, witness: the previous snapshot holds `X` twice and `Y`, and the
directory cannot be opened. The cycle reports `X` deleted once, and it ends as
the cycle over an empty directory does. -/
theorem failed_open_cycle_is_empty_directory_cycle_witness :
    ((deletedOf (detectChanges exampleClock 0
        [(L "X", L "Event"), (L "Y", L "Event"), (L "X", L "Event")] [])).filter
      (fun q => decide (q = (L "X", L "Event")))).length = 1 ∧
    (monitoringCycle exampleClock true
        ⟨{ openStatus := toNTSTATUS 0xC0000034, responses := [] }, exampleDir []⟩
        { prevObjects := [(L "X", L "Event"), (L "Y", L "Event"), (L "X", L "Event")],
          statistics := [], ticks := 0, handles := ⟨0, []⟩, invoked := [] }).map
      (fun s => (s.prevObjects, s.invoked, s.statistics, s.ticks, s.handles.opened)) =
    (monitoringCycle exampleClock true ⟨exampleDir [], exampleDir []⟩
        { prevObjects := [(L "X", L "Event"), (L "Y", L "Event"), (L "X", L "Event")],
          statistics := [], ticks := 0, handles := ⟨0, []⟩, invoked := [] }).map
      (fun s => (s.prevObjects, s.invoked, s.statistics, s.ticks, s.handles.opened)) :=
  ⟨(failed_open_cycle_is_empty_directory_cycle exampleClock
      { openStatus := toNTSTATUS 0xC0000034, responses := [] } (exampleDir [])
      (exampleDir [])
      { prevObjects := [(L "X", L "Event"), (L "Y", L "Event"), (L "X", L "Event")],
        statistics := [], ticks := 0, handles := ⟨0, []⟩, invoked := [] }
      (by decide) (by decide) (by decide) (by decide)).2.2.2.1 (L "X", L "Event")
      (by decide),
   (failed_open_cycle_is_empty_directory_cycle exampleClock
      { openStatus := toNTSTATUS 0xC0000034, responses := [] } (exampleDir [])
      (exampleDir [])
      { prevObjects := [(L "X", L "Event"), (L "Y", L "Event"), (L "X", L "Event")],
        statistics := [], ticks := 0, handles := ⟨0, []⟩, invoked := [] }
      (by decide) (by decide) (by decide) (by decide)).2.1 true⟩

/-! ## C25: the probe of a section does not look at the process -/

theorem processLoop_path_only (env : AnalyzerEnv) (fullPath : WString)
    (hpath : ∀ k, env.NtOpenSection k fullPath = env.NtOpenSection 0 fullPath)
    (ids : List Nat) (dependencies : List ObjectDependency) (w : World) :
    (processLoop env fullPath ids dependencies w).1 =
      dependencies ++
        (if NT_SUCCESS (env.NtOpenSection 0 fullPath) then
          (openedProcesses env w.calls ids).map (fun pid =>
            ({ sourceObject := fullPath, targetObject := L "Process:" ++ to_wstring pid,
               dependencyType := L "SharedMemory" } : ObjectDependency))
         else []) := by
  induction ids generalizing dependencies w with
  | nil => simp [processLoop, openedProcesses]
  | cons pid rest ih =>
    have h0 := hpath (w.calls + 1)
    by_cases hop : env.OpenProcess w.calls pid = true
    · by_cases hs : NT_SUCCESS (env.NtOpenSection 0 fullPath) = true
      · simp only [processLoop, openedProcesses, hop, h0, hs, if_true, ih, List.map_cons,
          List.append_assoc, List.singleton_append]
      · simp only [processLoop, openedProcesses, hop, h0, hs, if_true, if_false, ih,
          Bool.false_eq_true]
    · simp only [processLoop, openedProcesses, hop, if_false, ih, Bool.false_eq_true]

/-- C25. Assume that what `NtOpenSection` answers for the path of a `Section`
record does not depend on when it is asked. Then the `SharedMemory` edges that
the branch of the record adds are none at all, or one for every probed value for
which `OpenProcess` gives a handle, in the order of the probe: the list of edges
is decided by the path alone, so two processes that can both be opened both get
an edge or both get none. The inner loop of the directory mode runs this branch
for every record of type `Section`. -/
theorem section_edges_are_all_or_none (env : AnalyzerEnv) (rootObject : WString)
    (dirInfo : OBJECT_DIRECTORY_INFORMATION) (rest : List OBJECT_DIRECTORY_INFORMATION)
    (dependencies : List ObjectDependency) (w : World)
    (htype : dirInfo.TypeName = L "Section")
    (hpath : ∀ k, env.NtOpenSection k (fullPathOf rootObject dirInfo.Name) =
      env.NtOpenSection 0 (fullPathOf rootObject dirInfo.Name)) :
    dependencyBufferLoop env rootObject (dirInfo :: rest) dependencies w =
      dependencyBufferLoop env rootObject rest
        (sectionBranch env (fullPathOf rootObject dirInfo.Name) dependencies w).1
        (sectionBranch env (fullPathOf rootObject dirInfo.Name) dependencies w).2 ∧
    (∀ ids,
      (processLoop env (fullPathOf rootObject dirInfo.Name) ids dependencies w).1 =
          dependencies ∨
        (processLoop env (fullPathOf rootObject dirInfo.Name) ids dependencies w).1 =
          dependencies ++ (openedProcesses env w.calls ids).map (fun pid =>
            ({ sourceObject := fullPathOf rootObject dirInfo.Name,
               targetObject := L "Process:" ++ to_wstring pid,
               dependencyType := L "SharedMemory" } : ObjectDependency))) ∧
    ((sectionBranch env (fullPathOf rootObject dirInfo.Name) dependencies w).1 =
        dependencies ∨
      ∃ written,
        env.EnumProcesses w.calls (1024 * (4 * env.pointerWords)) = some written ∧
        NT_SUCCESS (env.NtOpenSection 0 (fullPathOf rootObject dirInfo.Name)) = true ∧
        (sectionBranch env (fullPathOf rootObject dirInfo.Name) dependencies w).1 =
          dependencies ++
            (openedProcesses env (w.calls + 1)
              ((List.range (4 * written.length / 4)).map (processSlot env written))).map
              (fun pid =>
                ({ sourceObject := fullPathOf rootObject dirInfo.Name,
                   targetObject := L "Process:" ++ to_wstring pid,
                   dependencyType := L "SharedMemory" } : ObjectDependency))) := by
  refine ⟨?_, ?_, ?_⟩
  · have hne : ¬ (L "Section" = L "SymbolicLink") := by decide
    simp only [dependencyBufferLoop, htype, hne, if_false, if_true]
  · intro ids
    rw [processLoop_path_only env _ hpath ids dependencies w]
    by_cases hs : NT_SUCCESS (env.NtOpenSection 0 (fullPathOf rootObject dirInfo.Name)) = true
    · rw [if_pos hs]
      exact Or.inr rfl
    · rw [if_neg hs, List.append_nil]
      exact Or.inl rfl
  · unfold sectionBranch
    cases henum : env.EnumProcesses w.calls (1024 * (4 * env.pointerWords)) with
    | none => exact Or.inl rfl
    | some written =>
      simp only
      rw [processLoop_path_only env _ hpath]
      by_cases hs : NT_SUCCESS (env.NtOpenSection 0 (fullPathOf rootObject dirInfo.Name)) = true
      · rw [if_pos hs]
        exact Or.inr ⟨written, rfl, hs, rfl⟩
      · rw [if_neg hs, List.append_nil]
        exact Or.inl rfl

/-- C25, witness: the section `S` among the processes 4 and 8, of which only 8
can be opened. When the section opens, the one edge goes to process 8; when it
does not, there is no edge. -/
theorem section_edges_are_all_or_none_witness :
    openedProcesses (exampleGuardedServices 0) 0 [4, 8] = [8] ∧
    (sectionBranch (exampleGuardedServices 0) (L "\\BaseNamedObjects\\S") []
        ⟨0, ⟨0, []⟩⟩).1 =
      [{ sourceObject := L "\\BaseNamedObjects\\S", targetObject := L "Process:8",
         dependencyType := L "SharedMemory" }] ∧
    (sectionBranch (exampleGuardedServices (toNTSTATUS 0xC0000022))
        (L "\\BaseNamedObjects\\S") [] ⟨0, ⟨0, []⟩⟩).1 = [] ∧
    ((sectionBranch (exampleGuardedServices 0)
          (fullPathOf (L "\\BaseNamedObjects") (L "S")) [] ⟨0, ⟨0, []⟩⟩).1 = [] ∨
      ∃ written,
        (exampleGuardedServices 0).EnumProcesses 0
            (1024 * (4 * (exampleGuardedServices 0).pointerWords)) = some written ∧
        NT_SUCCESS ((exampleGuardedServices 0).NtOpenSection 0
          (fullPathOf (L "\\BaseNamedObjects") (L "S"))) = true ∧
        (sectionBranch (exampleGuardedServices 0)
            (fullPathOf (L "\\BaseNamedObjects") (L "S")) [] ⟨0, ⟨0, []⟩⟩).1 =
          [] ++
            (openedProcesses (exampleGuardedServices 0) (0 + 1)
              ((List.range (4 * written.length / 4)).map
                (processSlot (exampleGuardedServices 0) written))).map
              (fun pid =>
                ({ sourceObject := fullPathOf (L "\\BaseNamedObjects") (L "S"),
                   targetObject := L "Process:" ++ to_wstring pid,
                   dependencyType := L "SharedMemory" } : ObjectDependency))) :=
  ⟨by decide, by decide, by decide,
   (section_edges_are_all_or_none (exampleGuardedServices 0) (L "\\BaseNamedObjects")
      ⟨L "S", L "Section"⟩ [] [] ⟨0, ⟨0, []⟩⟩ rfl (fun _ => rfl)).2.2⟩

/-! ## C22: the handles an operation opens -/

theorem symbolicLinkBranch_handles (env : AnalyzerEnv) (fullPath : WString)
    (dependencies : List ObjectDependency) (w : World) :
    (symbolicLinkBranch env fullPath dependencies w).2.handles.opened = w.handles.opened := by
  unfold symbolicLinkBranch
  by_cases ho : NT_SUCCESS (env.NtOpenSymbolicLinkObject w.calls fullPath) = true
  · by_cases hq : NT_SUCCESS (env.NtQuerySymbolicLinkObject (w.calls + 1) fullPath).1 = true
    · simp [ho, hq, HandleTable.acquire, HandleTable.release]
    · simp [ho, hq, HandleTable.acquire, HandleTable.release]
  · simp [ho]

theorem processLoop_handles (env : AnalyzerEnv) (fullPath : WString) (ids : List Nat)
    (dependencies : List ObjectDependency) (w : World) :
    (processLoop env fullPath ids dependencies w).2.handles.opened = w.handles.opened := by
  induction ids generalizing dependencies w with
  | nil => rfl
  | cons pid rest ih =>
    by_cases hop : env.OpenProcess w.calls pid = true
    · by_cases hs : NT_SUCCESS (env.NtOpenSection (w.calls + 1) fullPath) = true
      · simp only [processLoop, hop, hs, if_true, ih]
        simp [HandleTable.acquire, HandleTable.release]
      · simp only [processLoop, hop, hs, if_true, if_false, ih, Bool.false_eq_true]
        simp [HandleTable.acquire, HandleTable.release]
    · simp only [processLoop, hop, if_false, ih, Bool.false_eq_true]

theorem sectionBranch_handles (env : AnalyzerEnv) (fullPath : WString)
    (dependencies : List ObjectDependency) (w : World) :
    (sectionBranch env fullPath dependencies w).2.handles.opened = w.handles.opened := by
  unfold sectionBranch
  cases henum : env.EnumProcesses w.calls (1024 * (4 * env.pointerWords)) with
  | none => rfl
  | some written =>
    simp only
    rw [processLoop_handles]

theorem dependencyBufferLoop_handles (env : AnalyzerEnv) (rootObject : WString)
    (l : List OBJECT_DIRECTORY_INFORMATION) (dependencies : List ObjectDependency)
    (w : World) :
    (dependencyBufferLoop env rootObject l dependencies w).2.handles.opened =
      w.handles.opened := by
  induction l generalizing dependencies w with
  | nil => rfl
  | cons dirInfo rest ih =>
    simp only [dependencyBufferLoop, ih]
    by_cases hlink : dirInfo.TypeName = L "SymbolicLink"
    · rw [if_pos hlink]
      exact symbolicLinkBranch_handles env _ dependencies w
    · rw [if_neg hlink]
      by_cases hsection : dirInfo.TypeName = L "Section"
      · rw [if_pos hsection]
        exact sectionBranch_handles env _ dependencies w
      · rw [if_neg hsection]

theorem dependencyQueryLoop_handles (env : AnalyzerEnv) (rootObject : WString)
    (responses : List QueryResponse) (dependencies : List ObjectDependency) (w : World)
    (r : List ObjectDependency × World)
    (h : dependencyQueryLoop env rootObject responses dependencies w = some r) :
    r.2.handles.opened = w.handles.opened := by
  induction responses generalizing dependencies w with
  | nil => simp [dependencyQueryLoop] at h
  | cons q qs ih =>
    unfold dependencyQueryLoop at h
    by_cases hstop : (!NT_SUCCESS q.status || decide (q.status = STATUS_NO_MORE_ENTRIES)) = true
    · rw [if_pos hstop] at h
      injection h with h
      rw [← h]
    · rw [if_neg hstop] at h
      rw [ih _ _ h]
      exact dependencyBufferLoop_handles env rootObject _ dependencies w

/-- C22. Every operation leaves the handles as it found them. Closing a handle
takes it out of the handles that are open, and for `listObjects`,
`getObjectNames`, `getTypeStatistics`, `buildDependencyGraph` in both modes,
`updateStatistics` and one monitoring cycle, whatever the services answer, the
handles open when the operation returns are the handles open when it was
entered; so are they after the branch of a symbolic link and after the branch of
a section, which open and close the link, process and section handles. The
handles open at entry are arbitrary, and closing takes out one occurrence of a
handle: an operation that closed a handle twice would, for a suitable table,
take out a handle that was open before. No statement is taken to throw. -/
theorem operations_release_their_handles :
    (∀ dir path filterType recursive handles console table,
      listObjects dir path filterType recursive handles = some (console, table) →
      table.opened = handles.opened) ∧
    (∀ dir path filterType handles objectNames err table,
      getObjectNames dir path filterType handles = some (objectNames, err, table) →
      table.opened = handles.opened) ∧
    (∀ dir handles statistics table,
      getTypeStatistics dir handles = some (statistics, table) →
      table.opened = handles.opened) ∧
    (∀ env rootObject w dependencies w1,
      buildDependencyGraph env rootObject w = some (dependencies, w1) →
      w1.handles.opened = w.handles.opened) ∧
    (∀ env fullPath dependencies w,
      (symbolicLinkBranch env fullPath dependencies w).2.handles.opened = w.handles.opened ∧
      (sectionBranch env fullPath dependencies w).2.handles.opened = w.handles.opened) ∧
    (∀ getSystemTime dir st st1, updateStatistics getSystemTime dir st = some st1 →
      st1.handles.opened = st.handles.opened) ∧
    (∀ getSystemTime callbackSet env st st1,
      monitoringCycle getSystemTime callbackSet env st = some st1 →
      st1.handles.opened = st.handles.opened) := by
  refine ⟨?_, ?_, ?_, ?_, ?_, ?_, ?_⟩
  · intro dir path filterType recursive handles console table h
    unfold listObjects at h
    by_cases hopen : NT_SUCCESS dir.openStatus = true
    · cases hloop : listQueryLoop path filterType dir.responses [] with
      | none => simp [hopen, hloop] at h
      | some out =>
        simp only [hopen, hloop, Bool.not_true, Bool.false_eq_true, if_false,
          Option.some.injEq, Prod.mk.injEq] at h
        rw [← h.2]
        simp [HandleTable.acquire, HandleTable.release]
    · have hopen2 : NT_SUCCESS dir.openStatus = false := by simpa using hopen
      simp only [hopen2, Bool.not_false, if_true, Option.some.injEq, Prod.mk.injEq] at h
      rw [← h.2]
  · intro dir path filterType handles objectNames err table h
    unfold getObjectNames at h
    by_cases hopen : NT_SUCCESS dir.openStatus = true
    · cases hloop : namesQueryLoop filterType dir.responses [] with
      | none => simp [hopen, hloop] at h
      | some r =>
        simp only [hopen, hloop, Bool.not_true, Bool.false_eq_true, if_false,
          Option.some.injEq, Prod.mk.injEq] at h
        rw [← h.2.2]
        exact release_acquire handles
    · have hopen2 : NT_SUCCESS dir.openStatus = false := by simpa using hopen
      simp only [hopen2, Bool.not_false, if_true, Option.some.injEq, Prod.mk.injEq] at h
      rw [← h.2.2]
  · intro dir handles statistics table h
    unfold getTypeStatistics at h
    by_cases hopen : NT_SUCCESS dir.openStatus = true
    · cases hloop : typeQueryLoop dir.responses [] with
      | none => simp [hopen, hloop] at h
      | some r =>
        simp only [hopen, hloop, if_true, Option.some.injEq, Prod.mk.injEq] at h
        rw [← h.2]
        exact release_acquire handles
    · simp only [hopen, if_false, Bool.false_eq_true, Option.some.injEq,
        Prod.mk.injEq] at h
      rw [← h.2]
  · intro env rootObject w dependencies w1 h
    unfold buildDependencyGraph at h
    by_cases hdir : isDirectory rootObject = true
    · by_cases hopen : NT_SUCCESS (env.directory rootObject).openStatus = true
      · cases hloop : dependencyQueryLoop env rootObject (env.directory rootObject).responses
            [] { w with handles := w.handles.acquire.1 } with
        | none => simp [hdir, hopen, HandleTable.acquire] at h hloop; simp [hloop] at h
        | some r =>
          have hr := dependencyQueryLoop_handles env rootObject _ [] _ r hloop
          simp only [HandleTable.acquire] at hloop hr
          simp only [hdir, hopen, if_true, Bool.not_true, Bool.false_eq_true, if_false,
            HandleTable.acquire, hloop, Option.some.injEq, Prod.mk.injEq] at h
          rw [← h.2]
          simp [HandleTable.release, hr]
      · have hopen2 : NT_SUCCESS (env.directory rootObject).openStatus = false := by
          simpa using hopen
        simp only [hdir, hopen2, if_true, Bool.not_false, Option.some.injEq,
          Prod.mk.injEq] at h
        rw [← h.2]
    · have hdir2 : isDirectory rootObject = false := by simpa using hdir
      by_cases hfile : NT_SUCCESS (env.NtOpenFile w.calls rootObject) = true
      · by_cases hq : NT_SUCCESS (env.NtQuerySystemInformation (w.calls + 1)).1 = true
        · simp only [hdir2, hfile, hq, if_true, if_false, Bool.false_eq_true,
            Option.some.injEq, Prod.mk.injEq] at h
          rw [← h.2]
          exact release_acquire w.handles
        · simp only [hdir2, hfile, hq, if_true, if_false, Bool.false_eq_true,
            Option.some.injEq, Prod.mk.injEq] at h
          rw [← h.2]
          exact release_acquire w.handles
      · simp only [hdir2, hfile, if_false, Bool.false_eq_true, Option.some.injEq,
          Prod.mk.injEq] at h
        rw [← h.2]
  · intro env fullPath dependencies w
    exact ⟨symbolicLinkBranch_handles env fullPath dependencies w,
      sectionBranch_handles env fullPath dependencies w⟩
  · intro getSystemTime dir st st1 h
    cases hl : dir.listing with
    | none =>
      rw [(updateStatistics_spec getSystemTime dir st).2 hl] at h
      exact absurd h (by simp)
    | some l =>
      obtain ⟨st2, hst2, _, _, _, _, hhandles⟩ :=
        (updateStatistics_spec getSystemTime dir st).1 l hl
      rw [h] at hst2
      injection hst2 with hst2
      rw [hst2]
      exact hhandles
  · intro getSystemTime callbackSet env st st1 h
    obtain ⟨_, _, _, _, _, _, _, hhandles⟩ :=
      monitoringCycle_inv getSystemTime callbackSet env st st1 h
    exact hhandles

/-- C22, witness: `buildDependencyGraph` over a directory with one section and
two processes, entered with the handle 7 open. It opens the directory, two
processes and the section twice, and returns with the handle 7 open and no
other. -/
theorem operations_release_their_handles_witness :
    buildDependencyGraph (exampleSectionServices 1) (L "\\BaseNamedObjects")
        ⟨0, ⟨7, [7]⟩⟩ =
      some ([{ sourceObject := L "\\BaseNamedObjects\\S",
               targetObject := L "Process:4", dependencyType := L "SharedMemory" },
             { sourceObject := L "\\BaseNamedObjects\\S",
               targetObject := L "Process:8", dependencyType := L "SharedMemory" }],
            ⟨5, ⟨12, [7]⟩⟩) ∧
    (⟨5, ⟨12, [7]⟩⟩ : World).handles.opened = (⟨0, ⟨7, [7]⟩⟩ : World).handles.opened :=
  ⟨by decide,
   operations_release_their_handles.2.2.2.1 (exampleSectionServices 1)
     (L "\\BaseNamedObjects") ⟨0, ⟨7, [7]⟩⟩
     [{ sourceObject := L "\\BaseNamedObjects\\S",
        targetObject := L "Process:4", dependencyType := L "SharedMemory" },
      { sourceObject := L "\\BaseNamedObjects\\S",
        targetObject := L "Process:8", dependencyType := L "SharedMemory" }]
     ⟨5, ⟨12, [7]⟩⟩ (by decide)⟩

end DeviceManager
